import Mathlib

/-!
# QUDA solver framework and multigrid engine: a shallow embedding

Sources embedded here:

* `include/invert_quda.h`  : `SolverParam`, `SolverParam::updateInvertParam`
* `lib/dirac_staggered.cpp`: `DiracStaggered`, `DiracStaggeredPC`
* `lib/multigrid.cpp`      : `MG::MG`, `MG::reset`, `MG::createSmoother`,
  `MG::createCoarseSolver`, `MG::verify`, `MG::operator()`,
  `MG::generateNullVectors`

Conventions.

* C `int` values are `Int` (signed overflow is undefined behaviour in C++ and is
  not modelled); `double` values are rationals (exact arithmetic).
* `errorQuda` aborts the process: a fallible routine returns `Except Fatal _`
  or runs in the monad `M`, which keeps the state reached at the abort.
* Enumerations of `enum_quda.h` (not part of the sources at hand) are inductive
  types listing the enumerators the sources name plus one catch-all `OTHER`.
* Vector algebra, field storage, Dirac operators, concrete Krylov solvers, the
  transfer operator and I/O are collaborators.  A call into one of them is
  recorded (in the per-object call log or in the V-cycle trace) and is taken to
  return; what happens inside the collaborator is not part of this development.
-/

namespace Quda

/-! ## Enumerations -/

/-- Enumerators of `QudaInverterType` named in the sources. -/
inductive QudaInverterType where
  | QUDA_CG_INVERTER
  | QUDA_BICGSTAB_INVERTER
  | QUDA_GCR_INVERTER
  | QUDA_MR_INVERTER
  | QUDA_MG_INVERTER
  | QUDA_CGNE_INVERTER
  | QUDA_INC_EIGCG_INVERTER
  | QUDA_INVALID_INVERTER
  | OTHER
  deriving DecidableEq, Repr, Inhabited

/-- Enumerators of `QudaSolutionType` named in the sources. -/
inductive QudaSolutionType where
  | QUDA_MAT_SOLUTION
  | QUDA_MATPC_SOLUTION
  | QUDA_MATPCDAG_MATPC_SOLUTION
  | OTHER
  deriving DecidableEq, Repr, Inhabited

/-- Enumerators of `QudaSolveType` named in the sources. -/
inductive QudaSolveType where
  | QUDA_DIRECT_SOLVE
  | QUDA_DIRECT_PC_SOLVE
  | OTHER
  deriving DecidableEq, Repr, Inhabited

/-- Enumerators of `QudaMultigridCycleType` named in the sources. -/
inductive QudaMultigridCycleType where
  | QUDA_MG_CYCLE_VCYCLE
  | QUDA_MG_CYCLE_RECURSIVE
  | OTHER
  deriving DecidableEq, Repr, Inhabited

/-- Enumerators of `QudaMatPCType` named in the sources. -/
inductive QudaMatPCType where
  | QUDA_MATPC_EVEN_EVEN
  | QUDA_MATPC_ODD_ODD
  | QUDA_MATPC_EVEN_EVEN_ASYMMETRIC
  | OTHER
  deriving DecidableEq, Repr, Inhabited

/-- Site subsets of a colour-spinor field. -/
inductive QudaSiteSubset where
  | QUDA_FULL_SITE_SUBSET
  | QUDA_PARITY_SITE_SUBSET
  deriving DecidableEq, Repr, Inhabited

/-- Parities. -/
inductive QudaParity where
  | QUDA_EVEN_PARITY
  | QUDA_ODD_PARITY
  | QUDA_INVALID_PARITY
  deriving DecidableEq, Repr, Inhabited

/-- Enumerators of `QudaSchwarzType` named in the sources. -/
inductive QudaSchwarzType where
  | QUDA_ADDITIVE_SCHWARZ
  | QUDA_INVALID_SCHWARZ
  | OTHER
  deriving DecidableEq, Repr, Inhabited

/-- Enumerators of `QudaResidualType` named in the sources. -/
inductive QudaResidualType where
  | QUDA_L2_RELATIVE_RESIDUAL
  | QUDA_HEAVY_QUARK_RESIDUAL
  | QUDA_INVALID_RESIDUAL
  | OTHER
  deriving DecidableEq, Repr, Inhabited

/-- Values of `QudaUseInitGuess`. -/
inductive QudaUseInitGuess where
  | QUDA_USE_INIT_GUESS_NO
  | QUDA_USE_INIT_GUESS_YES
  | OTHER
  deriving DecidableEq, Repr, Inhabited

/-- Values of `QudaPreserveSource`. -/
inductive QudaPreserveSource where
  | QUDA_PRESERVE_SOURCE_NO
  | QUDA_PRESERVE_SOURCE_YES
  | OTHER
  deriving DecidableEq, Repr, Inhabited

/-- A `QudaPrecision` enumerator, kept as its integer code: the sources compare
precisions with `<`. -/
abbrev QudaPrecision := Int

/-- The ways the process is aborted (`errorQuda`, a call or member access
through a null pointer, the exception `std::bad_array_new_length` of an array
`new` with a negative element count, which nothing catches), and fuel exhaustion
of the recursive definitions below (never produced by the program itself). -/
inductive Fatal where
  | errorQuda (msg : String)
  | nullDereference
  | badArrayNewLength
  | outOfFuel
  deriving DecidableEq, Repr, Inhabited

/-! ## `QudaInvertParam` and `SolverParam` (`invert_quda.h`) -/

/-- The fields of the caller's `QudaInvertParam` that the sources read or
write.  The per-offset arrays have `QUDA_MAX_MULTI_SHIFT` entries. -/
structure QudaInvertParam where
  inv_type : QudaInverterType
  inv_type_precondition : QudaInverterType
  residual_type : QudaResidualType
  use_init_guess : QudaUseInitGuess
  reliable_delta : ℚ
  pipeline : Int
  tol : ℚ
  tol_hq : ℚ
  true_res : ℚ
  true_res_hq : ℚ
  maxiter : Int
  iter : Int
  cuda_prec : QudaPrecision
  cuda_prec_sloppy : QudaPrecision
  cuda_prec_precondition : QudaPrecision
  preserve_source : QudaPreserveSource
  num_offset : Int
  offset : List ℚ
  tol_offset : List ℚ
  tol_hq_offset : List ℚ
  true_res_offset : List ℚ
  true_res_hq_offset : List ℚ
  gcrNkrylov : Int
  precondition_cycle : Int
  tol_precondition : ℚ
  maxiter_precondition : Int
  omega : ℚ
  schwarz_type : QudaSchwarzType
  secs : ℚ
  gflops : ℚ
  nev : Int
  max_search_dim : Int
  deflation_grid : Int
  rhs_idx : Int
  matpc_type : QudaMatPCType

/-- `SolverParam`: the members declared in `invert_quda.h`, followed by the
members that `multigrid.cpp` sets on a `SolverParam` (`is_preconditioner`,
`compute_true_res`, `global_reduction`, `sloppy_converge`, `mg_instance`,
`Nsteps`, `preconditioner`); `preconditioner` holds the identity of the `MG`
object it points to. -/
structure SolverParam where
  inv_type : QudaInverterType
  inv_type_precondition : QudaInverterType
  residual_type : QudaResidualType
  use_init_guess : QudaUseInitGuess
  delta : ℚ
  pipeline : Int
  tol : ℚ
  tol_hq : ℚ
  true_res : ℚ
  true_res_hq : ℚ
  maxiter : Int
  iter : Int
  precision : QudaPrecision
  precision_sloppy : QudaPrecision
  precision_precondition : QudaPrecision
  preserve_source : QudaPreserveSource
  num_offset : Int
  offset : List ℚ
  tol_offset : List ℚ
  tol_hq_offset : List ℚ
  true_res_offset : List ℚ
  true_res_hq_offset : List ℚ
  Nkrylov : Int
  precondition_cycle : Int
  tol_precondition : ℚ
  maxiter_precondition : Int
  omega : ℚ
  schwarz_type : QudaSchwarzType
  secs : ℚ
  gflops : ℚ
  nev : Int
  m : Int
  deflation_grid : Int
  rhs_idx : Int
  is_preconditioner : Bool
  compute_true_res : Bool
  global_reduction : Bool
  sloppy_converge : Bool
  mg_instance : Bool
  Nsteps : Int
  preconditioner : Option Nat

/-- Read `a[i]` of a `double` array. -/
def readAt (a : List ℚ) (i : Nat) : ℚ := a.getD i 0

/-- One pass of the body of the copy loop of the constructor, at index `i`:
`offset[i] = param.offset[i]; tol_offset[i] = param.tol_offset[i];
tol_hq_offset[i] = param.tol_hq_offset[i];`.  A store at an index outside the
array is outside the modelled storage and leaves the array as it is. -/
def SolverParam.copyOffsetAt (param : QudaInvertParam) (s : SolverParam) (i : Nat) :
    SolverParam :=
  { s with
    offset := s.offset.set i (readAt param.offset i)
    tol_offset := s.tol_offset.set i (readAt param.tol_offset i)
    tol_hq_offset := s.tol_hq_offset.set i (readAt param.tol_hq_offset i) }

/-- The indices visited by `for (int i=0; i<num_offset; i++)`. -/
def offsetLoopIndices (num_offset : Int) : List Nat := List.range num_offset.toNat

/-- The value a 32-bit `int` holds after an operation whose exact result is `x`:
two's-complement wrap-around into `-2^31 .. 2^31-1`. -/
def wrapInt (x : Int) : Int := (x + 2 ^ 31) % 2 ^ 32 - 2 ^ 31

/-- `SolverParam::SolverParam(QudaInvertParam &param)`.  `maxShift` is
`QUDA_MAX_MULTI_SHIFT`, the length of the per-offset arrays; array entries the
constructor does not write are indeterminate in C++ and are `0` here.  The
constructor has no failing path (`warningQuda` only prints).  The members of
`param` are `int` values; of the arithmetic on them only `+ 16` can leave the
`int` range, and it wraps.  (Lean name: a constructor cannot be called
`SolverParam.SolverParam` next to the type.) -/
def SolverParam.ctor (maxShift : Nat) (param : QudaInvertParam) : SolverParam :=
  let s0 : Quda.SolverParam :=
    { inv_type := param.inv_type
      inv_type_precondition := param.inv_type_precondition
      residual_type := param.residual_type
      use_init_guess := param.use_init_guess
      delta := param.reliable_delta
      pipeline := param.pipeline
      tol := param.tol
      tol_hq := param.tol_hq
      true_res := param.true_res
      true_res_hq := param.true_res_hq
      maxiter := param.maxiter
      iter := param.iter
      precision := param.cuda_prec
      precision_sloppy := param.cuda_prec_sloppy
      precision_precondition := param.cuda_prec_precondition
      preserve_source := param.preserve_source
      num_offset := param.num_offset
      offset := List.replicate maxShift 0
      tol_offset := List.replicate maxShift 0
      tol_hq_offset := List.replicate maxShift 0
      true_res_offset := List.replicate maxShift 0
      true_res_hq_offset := List.replicate maxShift 0
      Nkrylov := param.gcrNkrylov
      precondition_cycle := param.precondition_cycle
      tol_precondition := param.tol_precondition
      maxiter_precondition := param.maxiter_precondition
      omega := param.omega
      schwarz_type := param.schwarz_type
      secs := param.secs
      gflops := param.gflops
      nev := param.nev
      m := param.max_search_dim
      deflation_grid := param.deflation_grid
      rhs_idx := 0
      is_preconditioner := false
      compute_true_res := false
      global_reduction := false
      sloppy_converge := false
      mg_instance := false
      Nsteps := 0
      preconditioner := none }
  let s1 := (offsetLoopIndices s0.num_offset).foldl (SolverParam.copyOffsetAt param) s0
  let s2 : Quda.SolverParam :=
    if param.inv_type = .QUDA_INC_EIGCG_INVERTER ∧ Int.tmod s1.m 16 ≠ 0 then
      { s1 with m := wrapInt (Int.tdiv s1.m 16 * 16 + 16) }
    else s1
  if param.rhs_idx ≠ 0 ∧ param.inv_type = .QUDA_INC_EIGCG_INVERTER then
    { s2 with rhs_idx := param.rhs_idx }
  else s2

/-- One pass of the body of the loop of `updateInvertParam`, at index `i`. -/
def SolverParam.updateOffsetAt (s : SolverParam) (param : QudaInvertParam) (i : Nat) :
    QudaInvertParam :=
  { param with
    true_res_offset := param.true_res_offset.set i (readAt s.true_res_offset i)
    true_res_hq_offset := param.true_res_hq_offset.set i (readAt s.true_res_hq_offset i) }

/-- `SolverParam::updateInvertParam(QudaInvertParam &param)`. -/
def SolverParam.updateInvertParam (s : SolverParam) (param : QudaInvertParam) :
    QudaInvertParam :=
  let p1 := { param with true_res := s.true_res }
  let p2 := { p1 with true_res_hq := s.true_res_hq }
  let p3 := { p2 with iter := p2.iter + s.iter }
  let p4 := { p3 with gflops := (p3.gflops * p3.secs + s.gflops * s.secs) / (p3.secs + s.secs) }
  let p5 := { p4 with secs := p4.secs + s.secs }
  let p6 := (offsetLoopIndices s.num_offset).foldl (SolverParam.updateOffsetAt s) p5
  { p6 with rhs_idx := s.rhs_idx }

/-- A caller's invert configuration used in the concrete evaluations below:
incremental eigCG, one eigenvector, a deflation grid of two, everything else
zero. -/
def sampleInvertParam : QudaInvertParam :=
  { inv_type := .QUDA_INC_EIGCG_INVERTER
    inv_type_precondition := .QUDA_INVALID_INVERTER
    residual_type := .QUDA_L2_RELATIVE_RESIDUAL
    use_init_guess := .QUDA_USE_INIT_GUESS_NO
    reliable_delta := 0
    pipeline := 0
    tol := 0
    tol_hq := 0
    true_res := 0
    true_res_hq := 0
    maxiter := 0
    iter := 0
    cuda_prec := 8
    cuda_prec_sloppy := 4
    cuda_prec_precondition := 2
    preserve_source := .QUDA_PRESERVE_SOURCE_NO
    num_offset := 0
    offset := [0, 0]
    tol_offset := [0, 0]
    tol_hq_offset := [0, 0]
    true_res_offset := [0, 0]
    true_res_hq_offset := [0, 0]
    gcrNkrylov := 0
    precondition_cycle := 0
    tol_precondition := 0
    maxiter_precondition := 0
    omega := 0
    schwarz_type := .QUDA_INVALID_SCHWARZ
    secs := 0
    gflops := 0
    nev := 1
    max_search_dim := 0
    deflation_grid := 2
    rhs_idx := 0
    matpc_type := .QUDA_MATPC_EVEN_EVEN }

/-! ## `ProjectionMatrix` (`invert_quda.h`) -/

/-- `struct ProjectionMatrix`.  `hproj` is the host storage seen as bytes (the
unit of `LoadProj`/`SaveProj`). -/
structure ProjectionMatrix where
  hproj : List Nat
  ld : Int
  tot_dim : Int
  curr_dim : Int
  prev_dim : Int
  bytes : Int
  deriving DecidableEq, Repr

/-- The conversion of an `int` to `size_t` (64-bit `size_t`). -/
def toSizeT (n : Int) : Nat := (n % 2 ^ 64).toNat

/-- `ProjectionMatrix::ProjectionMatrix(SolverParam &param)`.  `sizeofComplex`
is `sizeof(Complex)`; `/` on `int` is C division (`Int.tdiv`) and every `int`
operation wraps (`wrapInt`).  In `bytes = ld*tot_dim * sizeof(Complex)` the
`int` product is converted to `size_t`, multiplied there, and the result is
converted back to `int`.  `new Complex[ld*tot_dim]` throws
`std::bad_array_new_length` for a negative element count and otherwise yields
the storage, as zeroed bytes here (exhaustion of memory is not modelled). -/
def ProjectionMatrix.ctor (sizeofComplex : Int) (param : SolverParam) :
    Except Fatal ProjectionMatrix :=
  if param.nev = 0 ∨ param.deflation_grid = 0 then
    .error (.errorQuda "Incorrect deflation space parameters...")
  else
    let tot_dim := wrapInt (param.deflation_grid * param.nev)
    let next_dim := wrapInt (wrapInt (param.rhs_idx + 1) * param.nev)
    let prev_dim := if tot_dim < next_dim then tot_dim
      else wrapInt (param.rhs_idx * param.nev)
    let curr_dim := if tot_dim < next_dim then tot_dim else next_dim
    let ld := wrapInt (Int.tdiv (wrapInt (tot_dim + 15)) 16 * tot_dim)
    let count := wrapInt (ld * tot_dim)
    let bytes := wrapInt (((toSizeT count : Int) * sizeofComplex) % 2 ^ 64)
    if count < 0 then .error .badArrayNewLength
    else
      .ok { hproj := List.replicate (count.toNat * sizeofComplex.toNat) 0
            ld := ld
            tot_dim := tot_dim
            curr_dim := curr_dim
            prev_dim := prev_dim
            bytes := bytes }

/-- `ProjectionMatrix::ResetProjCurrDim(const int n)`. -/
def ProjectionMatrix.ResetProjCurrDim (pm : ProjectionMatrix) (n : Int) :
    Except Fatal ProjectionMatrix :=
  if n > pm.tot_dim then .error (.errorQuda "Cannot reset projection matrix dimension.")
  else .ok { pm with prev_dim := pm.curr_dim, curr_dim := n }

/-- `memcpy(dst, src, n)` on byte sequences: the first `n` bytes of `dst` become
the first `n` bytes of `src`. -/
def memcpy (dst src : List Nat) (n : Nat) : List Nat := src.take n ++ dst.drop n

/-- `ProjectionMatrix::LoadProj(const void *out, const int cpy_bytes)`: copies
from the caller's buffer `out` into `hproj`. -/
def ProjectionMatrix.LoadProj (pm : ProjectionMatrix) (out : List Nat) (cpy_bytes : Int) :
    Except Fatal ProjectionMatrix :=
  if cpy_bytes ≤ pm.bytes ∧ cpy_bytes ≠ 0 then
    .ok { pm with hproj := memcpy pm.hproj out (toSizeT cpy_bytes) }
  else .error (.errorQuda "Cannot load projection matrix.")

/-- `ProjectionMatrix::SaveProj(void *out, const int cpy_bytes)`: copies from
`hproj` into the caller's buffer `out`; the result is the buffer afterwards. -/
def ProjectionMatrix.SaveProj (pm : ProjectionMatrix) (out : List Nat) (cpy_bytes : Int) :
    Except Fatal (List Nat) :=
  if cpy_bytes ≤ pm.bytes ∧ cpy_bytes ≠ 0 then
    .ok (memcpy out pm.hproj (toSizeT cpy_bytes))
  else .error (.errorQuda "Cannot save projection matrix.")

/-- The number of bytes `LoadProj`/`SaveProj` hand to `memcpy` for an accepted
`cpy_bytes`. -/
def ProjectionMatrix.copiedBytes (cpy_bytes : Int) : Nat := toSizeT cpy_bytes

/-! ## Staggered operators (`dirac_staggered.cpp`) -/

section Staggered

variable {V : Type} [AddCommGroup V] [Module ℚ V]

/-- A full-parity colour-spinor field, given by its parity halves `Even()` and
`Odd()`. -/
structure Spinor (V : Type) where
  Even : V
  Odd : V

/-- The data of a `DiracStaggered` (and of the derived `DiracStaggeredPC`):
`mass`, `matpcType`, and the gauge-dependent hopping term, `D_eo` taking an
odd-parity field to the even sites and `D_oe` an even-parity field to the odd
sites.  The operator is taken with `dagger = QUDA_DAG_NO`. -/
structure DiracStaggered (V : Type) [AddCommGroup V] [Module ℚ V] where
  mass : ℚ
  matpcType : QudaMatPCType
  D_eo : V →ₗ[ℚ] V
  D_oe : V →ₗ[ℚ] V

/-- The hopping term whose result lives on `parity`. -/
def DiracStaggered.hop (d : DiracStaggered V) (parity : QudaParity) (v : V) : V :=
  match parity with
  | .QUDA_EVEN_PARITY => d.D_eo v
  | .QUDA_ODD_PARITY => d.D_oe v
  | .QUDA_INVALID_PARITY => 0

/-- Modelled from the spec: the kernel `ApplyStaggered(out, in, U, a, x, parity,
dagger, ...)` is not among the sources.  Its action is the one the comments of
`DiracStaggeredPC::M`, `DiracStaggeredPC::prepare` and
`DiracStaggered::DslashXpay` state: with `a = 0` it applies `D`, with `a ≠ 0`
it applies `a*x - D*in`, and flipping `dagger` flips the sign of the
(anti-Hermitian) hopping term.  `flip` says that the caller passed the opposite
of the operator's own `dagger`. -/
def ApplyStaggered (d : DiracStaggered V) (a : ℚ) (x inp : V) (parity : QudaParity)
    (flip : Bool) : V :=
  if a = 0 then (if flip then -(d.hop parity inp) else d.hop parity inp)
  else a • x - d.hop parity inp

/-- `ApplyStaggered` with `QUDA_INVALID_PARITY`: both parities of a full field. -/
def ApplyStaggeredFull (d : DiracStaggered V) (a : ℚ) (x inp : Spinor V) (flip : Bool) :
    Spinor V :=
  { Even := ApplyStaggered d a x.Even inp.Odd .QUDA_EVEN_PARITY flip
    Odd := ApplyStaggered d a x.Odd inp.Even .QUDA_ODD_PARITY flip }

/-- `DiracStaggered::Dslash(out, in, parity)`; the result is `out`. -/
def DiracStaggered.Dslash (d : DiracStaggered V) (inp : V) (parity : QudaParity) : V :=
  ApplyStaggered d 0 inp inp parity false

/-- `DiracStaggered::DslashXpay(out, in, parity, x, k)`; the result is `out`. -/
def DiracStaggered.DslashXpay (d : DiracStaggered V) (inp : V) (parity : QudaParity) (x : V)
    (k : ℚ) : V :=
  if k = 0 then ApplyStaggered d 0 x inp parity true
  else ApplyStaggered d k x inp parity false

/-- `DiracStaggered::M(out, in)`, the full staggered operator; the result is
`out`. -/
def DiracStaggered.M (d : DiracStaggered V) (inp : Spinor V) : Spinor V :=
  if d.mass = 0 then ApplyStaggeredFull d 0 inp inp true
  else ApplyStaggeredFull d (2 * d.mass) inp inp false

/-- The storage a pointer returned by `prepare` designates: the caller's `b`,
the caller's `x`, or a parity half of `x`. -/
inductive FieldRef where
  | b
  | x
  | xEven
  | xOdd
  deriving DecidableEq, Repr

/-- What `prepare` leaves behind: the pointers `src` and `sol`, and the field
`x` (whose halves `prepare` may overwrite). -/
structure Prepared (V : Type) where
  src : FieldRef
  sol : FieldRef
  x : Spinor V

/-- The parity field a half-field pointer designates. -/
def FieldRef.half (r : FieldRef) (x : Spinor V) : Option V :=
  match r with
  | .xEven => some x.Even
  | .xOdd => some x.Odd
  | _ => none

/-- Store `v` through a half-field pointer. -/
def FieldRef.store (r : FieldRef) (x : Spinor V) (v : V) : Spinor V :=
  match r with
  | .xEven => { x with Even := v }
  | .xOdd => { x with Odd := v }
  | _ => x

/-- `DiracStaggered::prepare(src, sol, x, b, solType)`. -/
def DiracStaggered.prepare (_d : DiracStaggered V) (x _b : Spinor V)
    (solType : QudaSolutionType) : Except Fatal (Prepared V) :=
  if solType = .QUDA_MATPC_SOLUTION ∨ solType = .QUDA_MATPCDAG_MATPC_SOLUTION then
    .error (.errorQuda "Preconditioned solution requires a preconditioned solve_type")
  else .ok { src := .b, sol := .x, x := x }

/-- `DiracStaggered::reconstruct`: does nothing. -/
def DiracStaggered.reconstruct (_d : DiracStaggered V) (x _b : Spinor V)
    (_solType : QudaSolutionType) : Spinor V := x

/-- `DiracStaggeredPC::M(out, in)` on a single-parity field; the result is
`out`. -/
def DiracStaggeredPC.M (d : DiracStaggered V) (inp : V) : Except Fatal V :=
  if d.matpcType = .QUDA_MATPC_EVEN_EVEN then
    let tmp := d.Dslash inp .QUDA_ODD_PARITY
    .ok (d.DslashXpay tmp .QUDA_EVEN_PARITY inp (4 * d.mass * d.mass))
  else if d.matpcType = .QUDA_MATPC_ODD_ODD then
    let tmp := d.Dslash inp .QUDA_EVEN_PARITY
    .ok (d.DslashXpay tmp .QUDA_ODD_PARITY inp (4 * d.mass * d.mass))
  else .error (.errorQuda "Invalid matpcType in function")

/-- `DiracStaggeredPC::MdagM(out, in)`: the outcome of the call together with
the contents of `out` afterwards. -/
def DiracStaggeredPC.MdagM (_d : DiracStaggered V) (out _inp : V) : Except Fatal Unit × V :=
  (.error (.errorQuda "MdagM is no longer defined for DiracStaggeredPC. Use M instead."), out)

/-- `DiracStaggeredPC::prepare(src, sol, x, b, solType)`.  In the
preconditioned-solution case the routine only hands back `&b` and `&x`. -/
def DiracStaggeredPC.prepare (d : DiracStaggered V) (x b : Spinor V)
    (solType : QudaSolutionType) : Except Fatal (Prepared V) :=
  if solType = .QUDA_MATPC_SOLUTION ∨ solType = .QUDA_MATPCDAG_MATPC_SOLUTION then
    .ok { src := .b, sol := .x, x := x }
  else if d.matpcType = .QUDA_MATPC_EVEN_EVEN then
    let x1 : Spinor V :=
      { x with Odd := d.DslashXpay b.Odd .QUDA_EVEN_PARITY b.Even (-2 * d.mass) }
    let x2 : Spinor V := { x1 with Odd := (-1 : ℚ) • x1.Odd }
    .ok { src := .xOdd, sol := .xEven, x := x2 }
  else if d.matpcType = .QUDA_MATPC_ODD_ODD then
    let x1 : Spinor V :=
      { x with Even := d.DslashXpay b.Even .QUDA_ODD_PARITY b.Odd (-2 * d.mass) }
    let x2 : Spinor V := { x1 with Even := (-1 : ℚ) • x1.Even }
    .ok { src := .xEven, sol := .xOdd, x := x2 }
  else .error (.errorQuda "MatPCType not valid for DiracStaggeredPC")

/-- `DiracStaggeredPC::reconstruct(x, b, solType)`; the result is `x`. -/
def DiracStaggeredPC.reconstruct (d : DiracStaggered V) (x b : Spinor V)
    (solType : QudaSolutionType) : Except Fatal (Spinor V) :=
  if solType = .QUDA_MATPC_SOLUTION ∨ solType = .QUDA_MATPCDAG_MATPC_SOLUTION then .ok x
  else if d.matpcType = .QUDA_MATPC_EVEN_EVEN then
    let x1 : Spinor V := { x with Odd := d.DslashXpay x.Even .QUDA_ODD_PARITY b.Odd (-1) }
    .ok { x1 with Odd := (-(1 / 2 : ℚ) / d.mass) • x1.Odd }
  else if d.matpcType = .QUDA_MATPC_ODD_ODD then
    let x1 : Spinor V := { x with Even := d.DslashXpay x.Odd .QUDA_EVEN_PARITY b.Even (-1) }
    .ok { x1 with Even := (-(1 / 2 : ℚ) / d.mass) • x1.Even }
  else .error (.errorQuda "MatPCType not valid for DiracStaggeredPC")

/-- The parity a `matpcType` solves on, and the opposite one. -/
def solveParity (t : QudaMatPCType) : Option (FieldRef × FieldRef) :=
  match t with
  | .QUDA_MATPC_EVEN_EVEN => some (.xEven, .xOdd)
  | .QUDA_MATPC_ODD_ODD => some (.xOdd, .xEven)
  | _ => none

/-- A one-component staggered operator used in the concrete evaluations:
mass `1`, `D_eo = 3`, `D_oe = -3`. -/
def sampleStaggered (t : QudaMatPCType) : DiracStaggered ℚ :=
  { mass := 1
    matpcType := t
    D_eo := (3 : ℚ) • LinearMap.id
    D_oe := (-3 : ℚ) • LinearMap.id }

end Staggered

/-! ## Spinor packing (`pack_spinor.h`) -/

section Pack

variable {K : Type} [CommRing K]

/-- Enumerators of `QudaGammaBasis` named in the sources. -/
inductive QudaGammaBasis where
  | QUDA_DEGRAND_ROSSI_GAMMA_BASIS
  | QUDA_UKQCD_GAMMA_BASIS
  | OTHER
  deriving DecidableEq, Repr

/-- Enumerators of `QudaSiteOrder` named in the sources. -/
inductive QudaSiteOrder where
  | QUDA_LEXICOGRAPHIC_SITE_ORDER
  | QUDA_EVEN_ODD_SITE_ORDER
  | QUDA_ODD_EVEN_SITE_ORDER
  deriving DecidableEq, Repr

/-- Enumerators of `QudaFieldOrder` named in the sources. -/
inductive QudaFieldOrder where
  | QUDA_SPACE_SPIN_COLOR_FIELD_ORDER
  | QUDA_SPACE_COLOR_SPIN_FIELD_ORDER
  | OTHER
  deriving DecidableEq, Repr

/-- An accessor object (`FloatNOrder`, `SpaceColorSpinorOrder`,
`SpaceSpinorColorOrder`): the offset of its `field` pointer inside the array it
was built on, and its `operator()(x, s, c, z)` index map. -/
structure Accessor where
  field : Nat
  index : Nat → Nat → Nat → Nat → Nat

/-- The array position `operator()(x, s, c, z)` refers to. -/
def Accessor.pos (a : Accessor) (x s c z : Nat) : Nat := a.field + a.index x s c z

/-- `FloatNOrder<Float, N, Ns, Nc>(field, volume, stride)`. -/
def FloatNOrder (N _Ns Nc : Nat) (field _volume stride : Nat) : Accessor :=
  { field := field
    index := fun x s c z =>
      let internal_idx := (s * Nc + c) * 2 + z
      let pad_idx := internal_idx / N
      (pad_idx * stride + x) * N + internal_idx % N }

/-- `SpaceColorSpinorOrder<Float, Ns, Nc>(field, volume, stride)`. -/
def SpaceColorSpinorOrder (Ns Nc : Nat) (field volume stride : Nat) : Except Fatal Accessor :=
  if volume ≠ stride then .error (.errorQuda "Stride must equal volume for this field order")
  else .ok { field := field, index := fun x s c z => ((x * Nc + c) * Ns + s) * 2 + z }

/-- `SpaceSpinorColorOrder<Float, Ns, Nc>(field, volume, stride)`. -/
def SpaceSpinorColorOrder (Ns Nc : Nat) (field volume stride : Nat) : Except Fatal Accessor :=
  if volume ≠ stride then .error (.errorQuda "Stride must equal volume for this field order")
  else .ok { field := field, index := fun x s c z => ((x * Ns + s) * Nc + c) * 2 + z }

/-- The `(s, c, z)` triples in the order of the nested loops
`for s < Ns, for c < Nc, for z < 2`. -/
def spinColorLoop (Ns Nc : Nat) : List (Nat × Nat × Nat) :=
  (List.range Ns).flatMap fun s => (List.range Nc).flatMap fun c => (List.range 2).map fun z => (s, c, z)

/-- The value `PreserveBasis` assigns to `out(x, s, c, z)`. -/
def PreserveBasis.value (inp : Nat → Nat → Nat → Nat → K) (x s c z : Nat) : K := inp x s c z

/-- The value `NonRelBasis` assigns to `out(x, s, c, z)`:
`K1[s]*in(x, s1[s], c, z) + K2[s]*in(x, s2[s], c, z)` with its tables
`s1`, `s2`, `K1`, `K2`. -/
def NonRelBasis.value (kP : K) (inp : Nat → Nat → Nat → Nat → K) (x s c z : Nat) : K :=
  let s1 : List Nat := [1, 2, 3, 0]
  let s2 : List Nat := [3, 0, 1, 2]
  let K1 : List K := [kP, -kP, -kP, -kP]
  let K2 : List K := [kP, -kP, kP, kP]
  K1.getD s 0 * inp x (s1.getD s 0) c z + K2.getD s 0 * inp x (s2.getD s 0) c z

/-- The value `RelBasis` assigns to `out(x, s, c, z)`. -/
def RelBasis.value (kU : K) (inp : Nat → Nat → Nat → Nat → K) (x s c z : Nat) : K :=
  let s1 : List Nat := [1, 2, 3, 0]
  let s2 : List Nat := [3, 0, 1, 2]
  let K1 : List K := [-kU, kU, kU, kU]
  let K2 : List K := [-kU, kU, -kU, -kU]
  K1.getD s 0 * inp x (s1.getD s 0) c z + K2.getD s 0 * inp x (s2.getD s 0) c z

/-- The three basis functors. -/
inductive Basis (K : Type) where
  | PreserveBasis
  | NonRelBasis (kP : K)
  | RelBasis (kU : K)

/-- The value a basis functor assigns to `out(x, s, c, z)`. -/
def Basis.value (b : Basis K) (inp : Nat → Nat → Nat → Nat → K) (x s c z : Nat) : K :=
  match b with
  | .PreserveBasis => PreserveBasis.value inp x s c z
  | .NonRelBasis kP => NonRelBasis.value kP inp x s c z
  | .RelBasis kU => RelBasis.value kU inp x s c z

/-- Reading `in(x, s, c, z)` through an accessor built on the array `src`. -/
def Accessor.read (a : Accessor) (src : List K) (x s c z : Nat) : K :=
  src.getD (a.pos x s c z) 0

/-- `basis(out, in, x)`: the body `operator()(Output &out, const Input &in, int x)`
of a basis functor, writing site `x` of the array `dest`. -/
def Basis.apply (b : Basis K) (Ns Nc : Nat) (out inp : Accessor) (src dest : List K)
    (x : Nat) : List K :=
  (spinColorLoop Ns Nc).foldl
    (fun d t => d.set (out.pos x t.1 t.2.1 t.2.2) (b.value (inp.read src) x t.1 t.2.1 t.2.2)) dest

/-- The inner `packSpinor(OutOrder &out, const InOrder &in, Basis basis, int Vh)`:
`for (int x=0; x<Vh; x++) basis(out, in, x)`. -/
def packSpinorSites (b : Basis K) (Ns Nc : Nat) (out inp : Accessor) (src dest : List K)
    (Vh : Nat) : List K :=
  (List.range Vh).foldl (fun d x => b.apply Ns Nc out inp src d x) dest

/-- `packParitySpinor(dest, src, outOrder, inOrder, Vh, pad, destBasis, srcBasis)`.
`destPtr` and `srcPtr` are the offsets of the pointer arguments `dest` and `src`
inside the two arrays; as in the source the body never uses them.  `kP`, `kU`
are the two global constants. -/
def packParitySpinor (kP kU : K) (Ns Nc : Nat) (_destPtr _srcPtr : Nat) (outOrder inOrder : Accessor)
    (Vh _pad : Nat) (destBasis srcBasis : QudaGammaBasis) (src dest : List K) :
    Except Fatal (List K) :=
  if destBasis = srcBasis then
    .ok (packSpinorSites .PreserveBasis Ns Nc outOrder inOrder src dest Vh)
  else if destBasis = .QUDA_UKQCD_GAMMA_BASIS ∧ srcBasis = .QUDA_DEGRAND_ROSSI_GAMMA_BASIS then
    if Ns ≠ 4 then .error (.errorQuda "Can only change basis with Nspin = 4")
    else .ok (packSpinorSites (.NonRelBasis kP) Ns Nc outOrder inOrder src dest Vh)
  else if srcBasis = .QUDA_UKQCD_GAMMA_BASIS ∧ destBasis = .QUDA_DEGRAND_ROSSI_GAMMA_BASIS then
    if Ns ≠ 4 then .error (.errorQuda "Can only change basis with Nspin = 4")
    else .ok (packSpinorSites (.RelBasis kU) Ns Nc outOrder inOrder src dest Vh)
  else .error (.errorQuda "Basis change not supported")

/-- The outer `packSpinor<Nc, Ns, N>(dest, src, V, pad, x, destLength, srcLength,
srcSubset, siteOrder, destBasis, srcBasis, srcOrder)`; the result is the array
`dest` afterwards.  Sizes are natural numbers. -/
def packSpinor (kP kU : K) (Nc Ns N : Nat) (dest src : List K) (V pad destLength srcLength : Nat)
    (srcSubset : QudaSiteSubset) (siteOrder : QudaSiteOrder)
    (destBasis srcBasis : QudaGammaBasis) (srcOrder : QudaFieldOrder) : Except Fatal (List K) :=
  if srcSubset = .QUDA_FULL_SITE_SUBSET then
    if siteOrder = .QUDA_LEXICOGRAPHIC_SITE_ORDER then
      .error (.errorQuda
        "Copying to full fields with lexicographical ordering is not currently supported")
    else
      let evenOff := if siteOrder = .QUDA_EVEN_ODD_SITE_ORDER then 0 else srcLength / 2
      let oddOff := if siteOrder = .QUDA_EVEN_ODD_SITE_ORDER then srcLength / 2 else 0
      let Vh := V
      if srcOrder = .QUDA_SPACE_SPIN_COLOR_FIELD_ORDER then do
        let inOrder ← SpaceSpinorColorOrder Ns Nc 0 Vh (Vh + pad)
        let outOrder := FloatNOrder N Ns Nc 0 Vh (Vh + pad)
        let d1 ← packParitySpinor kP kU Ns Nc 0 evenOff outOrder inOrder Vh pad destBasis
          srcBasis src dest
        packParitySpinor kP kU Ns Nc (destLength / 2) oddOff outOrder inOrder Vh pad destBasis
          srcBasis src d1
      else if srcOrder = .QUDA_SPACE_COLOR_SPIN_FIELD_ORDER then do
        let inOrder ← SpaceColorSpinorOrder Ns Nc 0 Vh (Vh + pad)
        let outOrder := FloatNOrder N Ns Nc 0 Vh (Vh + pad)
        let d1 ← packParitySpinor kP kU Ns Nc 0 evenOff outOrder inOrder Vh pad destBasis
          srcBasis src dest
        packParitySpinor kP kU Ns Nc (destLength / 2) oddOff outOrder inOrder Vh pad destBasis
          srcBasis src d1
      else .error (.errorQuda "Source field order not supported")
  else
    if srcOrder = .QUDA_SPACE_SPIN_COLOR_FIELD_ORDER then do
      let inOrder ← SpaceSpinorColorOrder Ns Nc 0 V (V + pad)
      let outOrder := FloatNOrder N Ns Nc 0 V (V + pad)
      packParitySpinor kP kU Ns Nc 0 0 outOrder inOrder V pad destBasis srcBasis src dest
    else if srcOrder = .QUDA_SPACE_COLOR_SPIN_FIELD_ORDER then do
      let inOrder ← SpaceColorSpinorOrder Ns Nc 0 V (V + pad)
      let outOrder := FloatNOrder N Ns Nc 0 V (V + pad)
      packParitySpinor kP kU Ns Nc 0 0 outOrder inOrder V pad destBasis srcBasis src dest
    else .error (.errorQuda "Source field order not supported")

end Pack

/-- The projection matrix of one eigenvector on a grid of one (as built by the
constructor with `sizeof(Complex) = 16`), used in the concrete evaluations. -/
def sampleProjectionMatrix : ProjectionMatrix :=
  { hproj := List.replicate 16 0
    ld := 1
    tot_dim := 1
    curr_dim := 1
    prev_dim := 0
    bytes := 16 }

/-! ## The multigrid engine (`multigrid.cpp`) -/

/-- `QudaBoolean`. -/
inductive QudaBoolean where
  | QUDA_BOOLEAN_NO
  | QUDA_BOOLEAN_YES
  | QUDA_BOOLEAN_INVALID
  deriving DecidableEq, Repr

/-- The members of the shared `QudaMultigridParam` (`param.mg_global`) that
steer the control flow of the sources; the per-level arrays are functions of the
level index.  `compute_null_vector` is `true` for
`QUDA_COMPUTE_NULL_VECTOR_YES`.  The pointer `invert_param` is kept in `World`. -/
structure QudaMultigridParam where
  compute_null_vector : Bool
  generate_all_levels : QudaBoolean
  num_setup_iter : Int → Int
  vec_infile : String
  setup_maxiter_refresh : Int → Int
  setup_inv_type : Int → QudaInverterType
  run_verify : Bool
  smoother_schwarz_type : Int → QudaSchwarzType
  smoother_schwarz_cycle : Int → Int
  smoother_solve_type : Int → QudaSolveType
  coarse_grid_solution_type : Int → QudaSolutionType
  coarse_solver : Int → QudaInverterType
  coarse_solver_tol : Int → ℚ
  coarse_solver_maxiter : Int → Int
  cycle_type : Int → QudaMultigridCycleType
  smoother : Int → QudaInverterType
  nu_pre : Int → Int
  nu_post : Int → Int
  smoother_tol : Int → ℚ
  precision_null : Int → QudaPrecision

/-- `MGParam` (derived from `SolverParam`): the members the sources read.
`fine` is the identity of the parent `MG` object. -/
structure MGParam extends SolverParam where
  level : Int
  Nlevel : Int
  fine : Option Nat
  cycle_type : QudaMultigridCycleType
  smoother : QudaInverterType
  coarse_grid_solution_type : QudaSolutionType
  smoother_solve_type : QudaSolveType
  nu_pre : Int
  nu_post : Int
  smoother_tol : ℚ

/-- Modelled from the spec: the constructor
`MGParam(param, B, matResidual, matSmooth, matSmoothSloppy, level)` of
`multigrid.h` is not among the sources.  As the sources do when they look at
the next level (`param.mg_global.smoother_solve_type[param.level+1]`, ...), the
per-level members are read from `mg_global` at index `level`; the `SolverParam`
part, `Nlevel` and `fine` are copied from `param`. -/
def MGParam.coarsen (g : QudaMultigridParam) (param : MGParam) (level : Int) : MGParam :=
  { param with
    level := level
    cycle_type := g.cycle_type level
    smoother := g.smoother level
    coarse_grid_solution_type := g.coarse_grid_solution_type level
    smoother_solve_type := g.smoother_solve_type level
    nu_pre := g.nu_pre level
    nu_post := g.nu_post level
    smoother_tol := g.smoother_tol level }

/-- A `Solver` object made by `Solver::create(param, ...)`: its identity and the
algorithm `param.inv_type` selected at creation. -/
structure SolverObj where
  id : Nat
  inv_type : QudaInverterType
  deriving DecidableEq, Repr

/-- A `Transfer` object: its identity and the site subset last set with
`setSiteSubset`. -/
structure Transfer where
  id : Nat
  site_subset : QudaSiteSubset
  parity : QudaParity
  deriving DecidableEq, Repr

/-- What `coarse_solver` points to: the coarse `MG` itself, or a
`PreconditionedSolver` created by this level. -/
inductive CoarseSolverRef where
  | coarseMG
  | wrapper (id : Nat)
  deriving DecidableEq, Repr

/-- Member and collaborator calls issued by the code of one `MG` object during
set-up, as recorded in its call log. -/
inductive Call where
  | allocateVectors
  | randomInit
  | generateNullVectors (refresh : Bool)
  | loadVectors
  | buildFreeVectors
  | setupIteration (si : Nat)
  | reset (refresh : Bool)
  | createSmoother
  | newTransfer
  | transferReset
  | setSiteSubset (site_subset : QudaSiteSubset) (parity : QudaParity)
  | restrictNullVectors
  | createCoarseDirac
  | updateCoarse
  | newCoarse
  | createCoarseSolver
  | verify
  deriving DecidableEq, Repr

/-- The state of one `MG` object: its identity, `param`, and the pointer members
the claims are about, with the log of calls its code has issued. -/
structure LevelState where
  id : Nat
  param : MGParam
  transfer : Option Transfer
  resetTransfer : Bool
  presmoother : Option SolverObj
  postsmoother : Option SolverObj
  param_presmooth : Option SolverParam
  param_postsmooth : Option SolverParam
  coarse_solver : Option CoarseSolverRef
  param_coarse_solver : Option SolverParam
  calls : List Call

/-- The member initialisers of `MG::MG`. -/
def LevelState.init (id : Nat) (param : MGParam) : LevelState :=
  { id := id
    param := param
    transfer := none
    resetTransfer := false
    presmoother := none
    postsmoother := none
    param_presmooth := none
    param_postsmooth := none
    coarse_solver := none
    param_coarse_solver := none
    calls := [] }

/-- An `MG` object together with the levels it owns through `coarse`:
`leaf s` has `coarse == nullptr`, `node s c` has `coarse` pointing to `c`. -/
inductive MG where
  | leaf (s : LevelState)
  | node (s : LevelState) (coarse : MG)

/-- The members of this level. -/
def MG.state : MG → LevelState
  | .leaf s => s
  | .node s _ => s

/-- The `coarse` pointer. -/
def MG.coarse : MG → Option MG
  | .leaf _ => none
  | .node _ c => some c

/-- Overwrite the members of this level. -/
def MG.setState : MG → LevelState → MG
  | .leaf _, s => .leaf s
  | .node _ c, s => .node s c

/-- The levels from this one down to the coarsest. -/
def MG.toList : MG → List LevelState
  | .leaf s => [s]
  | .node s c => s :: c.toList

/-- Kinds of heap objects whose creation and release are recorded. -/
inductive ObjKind where
  | MG
  | Transfer
  | Solver
  | PreconditionedSolver
  deriving DecidableEq, Repr

/-- Creation (`new`) or release (`delete`) of an object by the level `level`. -/
inductive ObjEvent where
  | new (kind : ObjKind) (id : Nat) (level : Int)
  | delete (kind : ObjKind) (id : Nat) (level : Int)
  deriving DecidableEq, Repr

/-- State shared by all levels: the caller's `QudaInvertParam`
(`mg_global.invert_param`), the next fresh object identity, and the record of
object creations and releases. -/
structure World where
  invert_param : QudaInvertParam
  nextId : Nat
  objects : List ObjEvent

/-- The outcome of a routine and the state reached (kept also on an abort). -/
structure Res (σ α : Type) where
  out : Except Fatal α
  st : σ

/-- Routines that read and write a state `σ` and may abort. -/
def M (σ α : Type) : Type := σ → Res σ α

instance (σ : Type) : Monad (M σ) where
  pure a := fun s => ⟨.ok a, s⟩
  bind m f := fun s =>
    match m s with
    | ⟨.ok a, s1⟩ => f a s1
    | ⟨.error e, s1⟩ => ⟨.error e, s1⟩

/-- What a member function of `MG` works on: the object (`this`, with the levels
below it) and the shared state. -/
structure St where
  mg : MG
  w : World

/-- Member functions of `MG`. -/
abbrev MGM (α : Type) : Type := M St α

/-- `errorQuda(msg)`. -/
def errorQuda {α : Type} (msg : String) : MGM α := fun st => ⟨.error (.errorQuda msg), st⟩

/-- Read the members of `this`. -/
def getS : MGM LevelState := fun st => ⟨.ok st.mg.state, st⟩

/-- Update the members of `this`. -/
def modifyS (f : LevelState → LevelState) : MGM Unit :=
  fun st => ⟨.ok (), { st with mg := st.mg.setState (f st.mg.state) }⟩

/-- Read the shared state. -/
def getW : MGM World := fun st => ⟨.ok st.w, st⟩

/-- Update the shared state. -/
def modifyW (f : World → World) : MGM Unit := fun st => ⟨.ok (), { st with w := f st.w }⟩

/-- Take a fresh object identity. -/
def fresh : MGM Nat :=
  fun st => ⟨.ok st.w.nextId, { st with w := { st.w with nextId := st.w.nextId + 1 } }⟩

/-- Append to the call log of `this`. -/
def logCall (c : Call) : MGM Unit := modifyS fun s => { s with calls := s.calls ++ [c] }

/-- Append to the record of object creations and releases. -/
def logObj (e : ObjEvent) : MGM Unit := modifyW fun w => { w with objects := w.objects ++ [e] }

/-- Read the members of `*coarse` (`none` for a null pointer). -/
def getCoarse : MGM (Option LevelState) := fun st => ⟨.ok (st.mg.coarse.map MG.state), st⟩

/-- Run a member function on `*coarse` (`coarse->f(...)`); the process dies on a
null `coarse`. -/
def onCoarse (m : MGM Unit) : MGM Unit := fun st =>
  match st.mg with
  | .node s c =>
    let r := m ⟨c, st.w⟩
    ⟨r.out, ⟨.node s r.st.mg, r.st.w⟩⟩
  | .leaf _ => ⟨.error .nullDereference, st⟩

/-- `for (int si=0; si<n; si++) body(si)`. -/
def forLoop (n : Nat) (body : Nat → MGM Unit) : MGM Unit :=
  (List.range n).foldl (fun (acc : MGM Unit) si => do acc; body si) (pure ())

/-- The integer codes of the two `QudaPrecision` enumerators that `verify`
names (`enum_quda.h` is not among the sources). -/
structure PrecisionCodes where
  QUDA_HALF_PRECISION : QudaPrecision
  QUDA_SINGLE_PRECISION : QudaPrecision

/-- The numbers `verify` obtains from the vector algebra on one level: the
precision of the field `r`, the deviation measured for each of the `Nvec`
null-space vectors, and the deviations of the later checks (the one of the
coarse operator after its `mu` adjustment). -/
structure VerifyData where
  fieldPrecision : QudaPrecision
  nullVector : List ℚ
  coarseIdentity : ℚ
  unitarity : ℚ
  coarseOperator : ℚ
  smootherNormal : ℚ
  residualNormal : ℚ

/-- What the set-up code is given besides the objects it works on: the shared
`mg_global`, the constant `QUDA_MAX_MG_LEVEL`, the precision codes, and the
measurements `verify` would make on each level. -/
structure Env where
  mg_global : QudaMultigridParam
  QUDA_MAX_MG_LEVEL : Int
  codes : PrecisionCodes
  verifyData : Int → VerifyData

/-- The tolerance of `MG::verify`. -/
def MG.verifyTol (codes : PrecisionCodes) (precision_null fieldPrecision : QudaPrecision) : ℚ :=
  let prec := if precision_null < fieldPrecision then precision_null else fieldPrecision
  if prec = codes.QUDA_HALF_PRECISION then 5 / 1000
  else if prec = codes.QUDA_SINGLE_PRECISION then 1 / 10000
  else 1 / 10 ^ 10

/-- The loop `for (int i=0; i<param.Nvec; i++)` of `MG::verify` over the measured
deviations. -/
def MG.verifyNullVectors (tol : ℚ) : List ℚ → Except Fatal Unit
  | [] => .ok ()
  | deviation :: rest =>
    if deviation > tol then .error (.errorQuda "L2 relative deviation for k failed")
    else MG.verifyNullVectors tol rest

/-- `MG::verify()`: the outcome, from the measured deviations. -/
def MG.verify (codes : PrecisionCodes) (param : MGParam) (precision_null : QudaPrecision)
    (d : VerifyData) : Except Fatal Unit := do
  let tol := MG.verifyTol codes precision_null d.fieldPrecision
  MG.verifyNullVectors tol d.nullVector
  if d.coarseIdentity > tol then throw (.errorQuda "L2 relative deviation failed")
  if d.unitarity > tol then throw (.errorQuda "L2 relative deviation failed")
  if d.coarseOperator > tol then throw (.errorQuda "failed, deviation")
  if param.coarse_grid_solution_type = .QUDA_MATPC_SOLUTION ∧
      param.smoother_solve_type = .QUDA_DIRECT_PC_SOLVE then
    if d.smootherNormal > tol then throw (.errorQuda "failed, deviation")
    if d.residualNormal > tol then throw (.errorQuda "failed, deviation")
  else
    if d.residualNormal > tol then throw (.errorQuda "failed, deviation")
  throw (.errorQuda "Done for now!")

/-- The check of lines 36-37 of `MG::MG`. -/
def MG.parityCheck (param : MGParam) : Except Fatal Unit :=
  if param.coarse_grid_solution_type = .QUDA_MATPC_SOLUTION ∧
      param.smoother_solve_type ≠ .QUDA_DIRECT_PC_SOLVE then
    .error (.errorQuda
      "Cannot use preconditioned coarse grid solution without preconditioned smoother solve")
  else .ok ()

/-- Run a check inside a member function. -/
def liftExcept (e : Except Fatal Unit) : MGM Unit := fun st => ⟨e, st⟩

/-- `if (p) delete p;` for a solver object. -/
def deleteSolver (level : Int) : Option SolverObj → MGM Unit
  | some o => logObj (.delete .Solver o.id level)
  | none => pure ()

/-- `p = cond ? Solver::create(param, ...) : nullptr`. -/
def createSolverIf (level : Int) (cond : Bool) (inv_type : QudaInverterType) :
    MGM (Option SolverObj) :=
  if cond then do
    let id ← fresh
    logObj (.new .Solver id level)
    pure (some { id := id, inv_type := inv_type })
  else pure none

/-- The record `*param_presmooth` that `MG::createSmoother` fills in
(`param_presmooth = new SolverParam(param)` followed by its assignments); `ip`
is `*param.mg_global.invert_param`. -/
def MG.presmoothParam (g : QudaMultigridParam) (param : MGParam) (ip : QudaInvertParam) :
    SolverParam :=
  let p1 : SolverParam :=
    { param.toSolverParam with
      is_preconditioner := false
      preserve_source := .QUDA_PRESERVE_SOURCE_NO
      use_init_guess := .QUDA_USE_INIT_GUESS_NO
      precision := ip.cuda_prec_sloppy
      precision_sloppy :=
        if param.level = 0 then ip.cuda_prec_precondition else ip.cuda_prec_sloppy
      precision_precondition :=
        if param.level = 0 then ip.cuda_prec_precondition else ip.cuda_prec_sloppy
      inv_type := param.smoother
      inv_type_precondition := .QUDA_INVALID_INVERTER }
  let p2 : SolverParam :=
    { p1 with
      residual_type :=
        if p1.inv_type = .QUDA_MR_INVERTER then .QUDA_INVALID_RESIDUAL
        else .QUDA_L2_RELATIVE_RESIDUAL
      Nsteps := g.smoother_schwarz_cycle param.level
      maxiter := if param.level < param.Nlevel - 1 then param.nu_pre
        else param.nu_pre + param.nu_post }
  let p3 : SolverParam :=
    { p2 with
      Nkrylov := p2.maxiter
      pipeline := p2.maxiter
      tol := param.smoother_tol
      global_reduction := param.global_reduction
      schwarz_type := g.smoother_schwarz_type param.level }
  { p3 with compute_true_res := decide (p3.schwarz_type ≠ .QUDA_INVALID_SCHWARZ) }

/-- The record `*param_postsmooth` that `MG::createSmoother` fills in:
`new SolverParam(*param_presmooth)` followed by its assignments.  The copy is
taken before the statement that follows the comment on CGNE. -/
def MG.postsmoothParam (param : MGParam) (presmooth : SolverParam) : SolverParam :=
  let q1 : SolverParam := { presmooth with use_init_guess := .QUDA_USE_INIT_GUESS_YES }
  let q2 : SolverParam := { q1 with maxiter := param.nu_post }
  { q2 with compute_true_res := false }

/-- `MG::createSmoother()`. -/
def MG.createSmoother (env : Env) : MGM Unit := do
  logCall .createSmoother
  let s ← getS
  let w ← getW
  deleteSolver s.param.level s.presmoother
  let p := MG.presmoothParam env.mg_global s.param w.invert_param
  modifyS fun s => { s with param_presmooth := some p }
  let pre ← createSolverIf s.param.level
    (decide ((s.param.level < s.param.Nlevel - 1 ∨ p.schwarz_type ≠ .QUDA_INVALID_SCHWARZ) ∧
      p.inv_type ≠ .QUDA_INVALID_INVERTER)) p.inv_type
  modifyS fun s => { s with presmoother := pre }
  if s.param.level < s.param.Nlevel - 1 then
    deleteSolver s.param.level s.postsmoother
    let q := MG.postsmoothParam s.param p
    if s.param.smoother = .QUDA_CGNE_INVERTER then
      modifyS fun s => { s with param_presmooth := some { p with inv_type := .QUDA_MR_INVERTER } }
    modifyS fun s => { s with param_postsmooth := some q }
    let post ← createSolverIf s.param.level (decide (q.inv_type ≠ .QUDA_INVALID_INVERTER))
      q.inv_type
    modifyS fun s => { s with postsmoother := post }

/-- `if (coarse_solver) delete coarse_solver;` in `MG::createCoarseSolver`; `c`
is `*coarse`. -/
def MG.releaseCoarseSolver (level : Int) (c : Option LevelState) :
    Option CoarseSolverRef → MGM Unit
  | some (.wrapper id) => logObj (.delete .PreconditionedSolver id level)
  | some .coarseMG =>
    match c with
    | some cs => logObj (.delete .MG cs.id level)
    | none => pure ()
  | none => pure ()

/-- The condition `(param.level < param.Nlevel-2 || coarse->presmoother)` of
`MG::createCoarseSolver`; `c` is `*coarse`. -/
def MG.usePreconditioner (param : MGParam) (c : Option LevelState) : MGM Bool :=
  if param.level < param.Nlevel - 2 then pure true
  else match c with
    | some cs => pure cs.presmoother.isSome
    | none => fun st => ⟨.error .nullDereference, st⟩

/-- The record `*param_coarse_solver` that `MG::createCoarseSolver` fills in;
`coarse` is the identity of the coarse `MG`. -/
def MG.coarseSolverParam (g : QudaMultigridParam) (param : MGParam) (usePreconditioner : Bool)
    (coarse : Option Nat) : SolverParam :=
  { param.toSolverParam with
    inv_type := g.coarse_solver param.level
    is_preconditioner := false
    sloppy_converge := true
    preserve_source := .QUDA_PRESERVE_SOURCE_YES
    use_init_guess := .QUDA_USE_INIT_GUESS_NO
    Nkrylov := 20
    tol := g.coarse_solver_tol (param.level + 1)
    global_reduction := true
    compute_true_res := false
    delta := 1 / 10 ^ 8
    pipeline := 8
    maxiter := g.coarse_solver_maxiter (param.level + 1)
    inv_type_precondition :=
      if usePreconditioner then .QUDA_MG_INVERTER else .QUDA_INVALID_INVERTER
    preconditioner := if usePreconditioner then coarse else none
    mg_instance := true
    precision_precondition := param.precision_sloppy }

/-- The branch of `MG::createCoarseSolver` that creates a
`PreconditionedSolver`. -/
def MG.createWrapper (env : Env) : MGM Unit := do
  let s ← getS
  let c ← getCoarse
  MG.releaseCoarseSolver s.param.level c s.coarse_solver
  let usePreconditioner ← MG.usePreconditioner s.param c
  let p := MG.coarseSolverParam env.mg_global s.param usePreconditioner (c.map (·.id))
  modifyS fun s => { s with param_coarse_solver := some p }
  let inner ← fresh
  logObj (.new .Solver inner s.param.level)
  let wrapper ← fresh
  logObj (.new .PreconditionedSolver wrapper s.param.level)
  modifyS fun s => { s with coarse_solver := some (.wrapper wrapper) }

/-- `MG::createCoarseSolver()`. -/
def MG.createCoarseSolver (env : Env) : MGM Unit := do
  logCall .createCoarseSolver
  let s ← getS
  if s.param.cycle_type = .QUDA_MG_CYCLE_VCYCLE ∧ s.param.level < s.param.Nlevel - 2 then
    modifyS fun s => { s with coarse_solver := some .coarseMG }
  else if s.param.cycle_type = .QUDA_MG_CYCLE_RECURSIVE ∨ s.param.level = s.param.Nlevel - 2 then
    MG.createWrapper env
  else errorQuda "Multigrid cycle type not supported"

/-- The `if (transfer) { ... } else { ... }` block of `MG::reset` that keeps or
creates the transfer operator. -/
def MG.setupTransfer (env : Env) (refresh : Bool) : MGM Unit := do
  let s ← getS
  match s.transfer with
  | some t =>
    logCall (.setSiteSubset .QUDA_FULL_SITE_SUBSET .QUDA_INVALID_PARITY)
    let t1 : Transfer :=
      { t with site_subset := .QUDA_FULL_SITE_SUBSET, parity := .QUDA_INVALID_PARITY }
    modifyS fun s => { s with transfer := some t1 }
    if s.resetTransfer ∨ refresh then
      logCall .transferReset
      modifyS fun s => { s with resetTransfer := false }
  | none =>
    let id ← fresh
    logObj (.new .Transfer id s.param.level)
    logCall .newTransfer
    let t1 : Transfer :=
      { id := id, site_subset := .QUDA_FULL_SITE_SUBSET, parity := .QUDA_INVALID_PARITY }
    modifyS fun s => { s with transfer := some t1 }
    if env.mg_global.generate_all_levels = .QUDA_BOOLEAN_NO then
      logCall .restrictNullVectors

/-- The assignments of `MG::reset` to `coarse->param` before `coarse->reset`:
`coarse->param.updateInvertParam(*param.mg_global.invert_param)`,
`coarse->param.delta = 1e-20`, `coarse->param.precision = ...`. -/
def MG.updateCoarseParam : MGM Unit := fun st =>
  match st.mg with
  | .node s c =>
    let ip := c.state.param.toSolverParam.updateInvertParam st.w.invert_param
    let cp : MGParam :=
      { c.state.param with delta := 1 / 10 ^ 20, precision := ip.cuda_prec_precondition }
    ⟨.ok (), ⟨.node s (c.setState { c.state with param := cp }), { st.w with invert_param := ip }⟩⟩
  | .leaf _ => ⟨.error .nullDereference, st⟩

/-- The closing block of `MG::reset`: `transfer->setSiteSubset(site_subset, parity)`. -/
def MG.finalSiteSubset : MGM Unit := do
  let s ← getS
  let w ← getW
  let site_subset : QudaSiteSubset :=
    if s.param.coarse_grid_solution_type = .QUDA_MATPC_SOLUTION then .QUDA_PARITY_SITE_SUBSET
    else .QUDA_FULL_SITE_SUBSET
  let matpc_type := w.invert_param.matpc_type
  let parity : QudaParity :=
    if matpc_type = .QUDA_MATPC_EVEN_EVEN ∨ matpc_type = .QUDA_MATPC_EVEN_EVEN_ASYMMETRIC then
      .QUDA_EVEN_PARITY
    else .QUDA_ODD_PARITY
  logCall (.setSiteSubset site_subset parity)
  match s.transfer with
  | some t =>
    let t1 : Transfer := { t with site_subset := site_subset, parity := parity }
    modifyS fun s => { s with transfer := some t1 }
  | none => (fun st => ⟨.error .nullDereference, st⟩ : MGM Unit)

/-- The parameter record `param_coarse` that `MG::reset` builds for the next
level: `new MGParam(param, ..., param.level+1)`, `fine = this`, `delta = 1e-20`,
`precision = invert_param->cuda_prec_precondition`. -/
def MG.coarseParam (env : Env) (s : LevelState) (w : World) : MGParam :=
  { MGParam.coarsen env.mg_global s.param (s.param.level + 1) with
    fine := some s.id
    delta := 1 / 10 ^ 20
    precision := w.invert_param.cuda_prec_precondition }

/-- Lines 63-85 of `MG::MG`: the choice of the source of the null-space vectors.
`generateNullVectors` is the call `generateNullVectors(param.B)`. -/
def MG.nullVectorBlock (env : Env) (param : MGParam) (generateNullVectors : MGM Unit) :
    MGM Unit :=
  if param.level < param.Nlevel - 1 then
    if env.mg_global.compute_null_vector then do
      if env.mg_global.generate_all_levels = .QUDA_BOOLEAN_YES ∨ param.level = 0 then
        logCall .randomInit
      if env.mg_global.num_setup_iter param.level > 0 then
        generateNullVectors
    else if env.mg_global.vec_infile ≠ "" then
      logCall .loadVectors
    else
      logCall .buildFreeVectors
  else pure ()

/-- `coarse = new MG(*param_coarse, profile_global)` in `MG::reset`; `construct`
is the constructor. -/
def MG.newCoarse (env : Env) (construct : MGParam → World → Res St Unit) : MGM Unit := fun st =>
  let r := construct (MG.coarseParam env st.mg.state st.w) st.w
  ⟨r.out, ⟨.node st.mg.state r.st.mg, r.st.w⟩⟩

/-- The block "creating or resetting the coarse level" of `MG::reset`;
`resetCoarse` is the call `coarse->reset(refresh)` and `construct` the
constructor. -/
def MG.coarseBlock (env : Env) (resetCoarse : MGM Unit)
    (construct : MGParam → World → Res St Unit) : MGM Unit := do
  let c ← getCoarse
  if c.isSome then
    logCall .updateCoarse
    MG.updateCoarseParam
    resetCoarse
  else
    logCall .newCoarse
    MG.newCoarse env construct

/-- `if (param.mg_global.run_verify) verify();` in `MG::reset`. -/
def MG.runVerify (env : Env) : MGM Unit := do
  let s ← getS
  if env.mg_global.run_verify then
    logCall .verify
    liftExcept (MG.verify env.codes s.param (env.mg_global.precision_null s.param.level)
      (env.verifyData s.param.level))

/-- The body of the loop `for (int si=0; si<num_setup_iter; si++)` of
`MG::generateNullVectors`.  The orthonormalisations and the solves of one set-up
iteration are vector algebra and solver calls, recorded as `setupIteration`;
`reset`, `generateCoarse` and `resetCoarse` are the calls `reset()`,
`coarse->generateNullVectors(*B_coarse, refresh)` and `coarse->reset()`. -/
def MG.setupIteration (env : Env) (param : MGParam) (inv_type : QudaInverterType) (si : Nat)
    (reset generateCoarse resetCoarse : MGM Unit) : MGM Unit := do
  logCall (.setupIteration si)
  if inv_type = .QUDA_MG_INVERTER then
    let s ← getS
    if s.transfer.isSome then
      modifyS fun s => { s with resetTransfer := true }
      reset
      if param.level < param.Nlevel - 2 then
        if env.mg_global.generate_all_levels = .QUDA_BOOLEAN_YES then
          generateCoarse
        else
          logCall .restrictNullVectors
          onCoarse (modifyS fun s => { s with resetTransfer := true })
          resetCoarse
    else
      reset

mutual

/-- `MG::MG(MGParam &param, TimeProfile &profile_global)`, as `new MG(param, ...)`:
the object gets the next fresh identity.  The first argument is fuel for the
recursion through `reset`. -/
def MG.ctor : Nat → Env → MGParam → World → Res St Unit
  | 0, _, param, w => ⟨.error .outOfFuel, ⟨.leaf (LevelState.init w.nextId param), w⟩⟩
  | n + 1, env, param, w =>
    (do
      logObj (.new .MG w.nextId param.level)
      if param.level ≥ env.QUDA_MAX_MG_LEVEL then
        errorQuda "Level is greater than limit of multigrid recursion depth"
      liftExcept (MG.parityCheck param)
      logCall .allocateVectors
      MG.nullVectorBlock env param (MG.generateNullVectors n env false)
      let s ← getS
      if s.transfer.isNone then MG.reset n env false : MGM Unit)
      ⟨.leaf (LevelState.init w.nextId param), { w with nextId := w.nextId + 1 }⟩

/-- `MG::reset(bool refresh)` (`reset()` is `reset(false)`). -/
def MG.reset : Nat → Env → Bool → MGM Unit
  | 0, _, _ => fun st => ⟨.error .outOfFuel, st⟩
  | n + 1, env, refresh => do
    logCall (.reset refresh)
    MG.createSmoother env
    let s ← getS
    if refresh ∧ s.param.level < s.param.Nlevel - 1 then
      if env.mg_global.setup_maxiter_refresh s.param.level ≠ 0 then
        MG.generateNullVectors n env refresh
    if s.param.level < s.param.Nlevel - 1 then
      MG.setupTransfer env refresh
      logCall .createCoarseDirac
      MG.coarseBlock env (onCoarse (MG.reset n env refresh)) (MG.ctor n env)
      MG.createCoarseSolver env
      MG.runVerify env
      MG.finalSiteSubset

/-- `MG::generateNullVectors(B, refresh)`; `solve` is the set-up solver, made
by `Solver::create` in each of the three branches and released after the
loop. -/
def MG.generateNullVectors : Nat → Env → Bool → MGM Unit
  | 0, _, _ => fun st => ⟨.error .outOfFuel, st⟩
  | n + 1, env, refresh => do
    logCall (.generateNullVectors refresh)
    let s ← getS
    let inv_type := env.mg_global.setup_inv_type s.param.level
    if inv_type = .QUDA_MG_INVERTER then
      if s.transfer.isNone then MG.createSmoother env
    let solve ← fresh
    logObj (.new .Solver solve s.param.level)
    forLoop (env.mg_global.num_setup_iter s.param.level).toNat fun si =>
      MG.setupIteration env s.param inv_type si (MG.reset n env false)
        (onCoarse (MG.generateNullVectors n env refresh)) (onCoarse (MG.reset n env false))
    logObj (.delete .Solver solve s.param.level)

end

/-- `delete p` for an optional solver object, as a release record. -/
def releaseSolver (level : Int) : Option SolverObj → List ObjEvent
  | some o => [.delete .Solver o.id level]
  | none => []

/-- `MG::~MG()`: the objects released, in order (`delete coarse` runs the
destructor of the coarse level and then releases it). -/
def MG.dtor : MG → List ObjEvent
  | .leaf s =>
    (if s.param.level < s.param.Nlevel - 1 then
      (if s.param.level = s.param.Nlevel - 1 ∨
          s.param.cycle_type = .QUDA_MG_CYCLE_RECURSIVE then
        match s.coarse_solver with
        | some (.wrapper id) => [.delete .PreconditionedSolver id s.param.level]
        | _ => []
      else []) ++
      (match s.transfer with
        | some t => [.delete .Transfer t.id s.param.level]
        | none => []) ++
      releaseSolver s.param.level s.postsmoother
    else []) ++ releaseSolver s.param.level s.presmoother
  | .node s c =>
    (if s.param.level < s.param.Nlevel - 1 then
      (if s.param.level = s.param.Nlevel - 1 ∨
          s.param.cycle_type = .QUDA_MG_CYCLE_RECURSIVE then
        match s.coarse_solver with
        | some (.wrapper id) => [.delete .PreconditionedSolver id s.param.level]
        | some .coarseMG => c.dtor ++ [.delete .MG c.state.id s.param.level]
        | none => []
      else []) ++
      (c.dtor ++ [.delete .MG c.state.id s.param.level]) ++
      (match s.transfer with
        | some t => [.delete .Transfer t.id s.param.level]
        | none => []) ++
      releaseSolver s.param.level s.postsmoother
    else []) ++ releaseSolver s.param.level s.presmoother

/-- Collaborator calls of one `MG::operator()`, in the order issued. -/
inductive VCall where
  | copySource
  | prepare (solType : QudaSolutionType)
  | copyBTilde
  | aliasBTilde
  | presmooth
  | reconstruct (solType : QudaSolutionType)
  | matResidual
  | axpby
  | restrict
  | coarseSolve
  | prolong
  | xpy
  | copySourceToR
  | postsmooth
  deriving DecidableEq, Repr

/-- The flag `use_solver_residual` of `MG::operator()`. -/
def MG.use_solver_residual (param : MGParam) : Bool :=
  decide ((param.smoother_solve_type = .QUDA_DIRECT_PC_SOLVE ∧
      param.coarse_grid_solution_type = .QUDA_MATPC_SOLUTION) ∨
    (param.smoother_solve_type = .QUDA_DIRECT_SOLVE ∧
      param.coarse_grid_solution_type = .QUDA_MAT_SOLUTION))

/-- What `operator()` runs in: the collaborator calls issued so far. -/
abbrev VM (α : Type) : Type := M (List VCall) α

/-- Record a collaborator call. -/
def vcall (c : VCall) : VM Unit := fun tr => ⟨.ok (), tr ++ [c]⟩

/-- A call `(*p)(...)` through the pointer `p`, recorded as `c`: the process
dies on a null pointer. -/
def callThrough {α : Type} (p : Option α) (c : VCall) : VM Unit :=
  match p with
  | some _ => vcall c
  | none => fun tr => ⟨.error .nullDereference, tr⟩

/-- `errorQuda(msg)` inside `operator()`. -/
def vErrorQuda (msg : String) : VM Unit := fun tr => ⟨.error (.errorQuda msg), tr⟩

/-- `MG::operator()(x, b)` on one level (the static `debug` is `false`): the
collaborator calls it issues and how it ends, from the members of the level and
the site subset of `b`.  The calls `(*presmoother)(...)`,
`(*coarse_solver)(...)` and `(*postsmoother)(...)` go through the pointer
members. -/
def MG.apply (s : LevelState) (bSiteSubset : QudaSiteSubset) : VM Unit := do
  let param := s.param
  let outer_solution_type : QudaSolutionType :=
    if bSiteSubset = .QUDA_FULL_SITE_SUBSET then .QUDA_MAT_SOLUTION else .QUDA_MATPC_SOLUTION
  let inner_solution_type := param.coarse_grid_solution_type
  if outer_solution_type = .QUDA_MATPC_SOLUTION ∧ inner_solution_type = .QUDA_MAT_SOLUTION then
    vErrorQuda "Unsupported solution type combination"
  if inner_solution_type = .QUDA_MATPC_SOLUTION ∧
      param.smoother_solve_type ≠ .QUDA_DIRECT_PC_SOLVE then
    vErrorQuda "For this coarse grid solution type, a preconditioned smoother is required"
  if param.level < param.Nlevel - 1 then
    vcall .copySource
    vcall (.prepare outer_solution_type)
    if param.smoother_solve_type = .QUDA_DIRECT_PC_SOLVE then vcall .copyBTilde
    else vcall .aliasBTilde
    callThrough s.presmoother .presmooth
    vcall (.reconstruct inner_solution_type)
    if MG.use_solver_residual param then pure ()
    else
      vcall .matResidual
      vcall .axpby
    if s.transfer.isSome then
      vcall .restrict
      callThrough s.coarse_solver .coarseSolve
      vcall .prolong
      vcall .xpy
    if param.smoother_solve_type = .QUDA_DIRECT_PC_SOLVE then pure ()
    else vcall .copySourceToR
    callThrough s.postsmoother .postsmooth
    vcall (.reconstruct outer_solution_type)
  else
    vcall (.prepare outer_solution_type)
    callThrough s.presmoother .presmooth
    vcall (.reconstruct outer_solution_type)

/-- Modelled from the spec: the solver classes are not among the sources.  The
level whose `operator()` a call `(*coarse_solver)(x, b)` of the level `s`
enters; `coarse` are the members of `*coarse`.  When `coarse_solver` is the
coarse level itself, that is the level.  When it is the wrapper made by
`createCoarseSolver`, the Krylov solver applies as its preconditioner the
`preconditioner` of its parameter record if `inv_type_precondition` is
`QUDA_MG_INVERTER`, and enters no level otherwise. -/
def MG.coarseSolverEnters (s : LevelState) (coarse : Option LevelState) : Option Nat :=
  match s.coarse_solver with
  | some .coarseMG => coarse.map (·.id)
  | some (.wrapper _) =>
    match s.param_coarse_solver with
    | some p =>
      if p.inv_type_precondition = .QUDA_MG_INVERTER then p.preconditioner else none
    | none => none
  | none => none

/-- The stages of the V-cycle the claims enumerate. -/
def VCall.isStage : VCall → Bool
  | .presmooth | .matResidual | .axpby | .restrict | .coarseSolve | .prolong | .xpy
  | .postsmooth => true
  | _ => false

/-- A shared multigrid configuration used in the concrete evaluations: free-field
null vectors, V-cycle and GCR coarse solver on every level, MR smoother, full
coarse-grid solution with direct smoother solve, no verification. -/
def sampleMultigridParam : QudaMultigridParam :=
  { compute_null_vector := false
    generate_all_levels := .QUDA_BOOLEAN_NO
    num_setup_iter := fun _ => 1
    vec_infile := ""
    setup_maxiter_refresh := fun _ => 0
    setup_inv_type := fun _ => .QUDA_BICGSTAB_INVERTER
    run_verify := false
    smoother_schwarz_type := fun _ => .QUDA_INVALID_SCHWARZ
    smoother_schwarz_cycle := fun _ => 1
    smoother_solve_type := fun _ => .QUDA_DIRECT_SOLVE
    coarse_grid_solution_type := fun _ => .QUDA_MAT_SOLUTION
    coarse_solver := fun _ => .QUDA_GCR_INVERTER
    coarse_solver_tol := fun _ => 1 / 4
    coarse_solver_maxiter := fun _ => 10
    cycle_type := fun _ => .QUDA_MG_CYCLE_VCYCLE
    smoother := fun _ => .QUDA_MR_INVERTER
    nu_pre := fun _ => 2
    nu_post := fun _ => 2
    smoother_tol := fun _ => 1 / 4
    precision_null := fun _ => 2 }

/-- Measurements with every deviation equal to zero, for one null-space vector. -/
def sampleVerifyData : VerifyData :=
  { fieldPrecision := 4
    nullVector := [0]
    coarseIdentity := 0
    unitarity := 0
    coarseOperator := 0
    smootherNormal := 0
    residualNormal := 0 }

/-- The environment of the concrete evaluations: at most four levels, precision
codes 2 (half) and 4 (single). -/
def sampleEnv (g : QudaMultigridParam) : Env :=
  { mg_global := g
    QUDA_MAX_MG_LEVEL := 4
    codes := { QUDA_HALF_PRECISION := 2, QUDA_SINGLE_PRECISION := 4 }
    verifyData := fun _ => sampleVerifyData }

/-- The fine-level `MGParam` of the concrete evaluations, for `Nlevel` levels. -/
def sampleMGParam (Nlevel : Int) : MGParam :=
  { toSolverParam := SolverParam.ctor 2 sampleInvertParam
    level := 0
    Nlevel := Nlevel
    fine := none
    cycle_type := .QUDA_MG_CYCLE_VCYCLE
    smoother := .QUDA_MR_INVERTER
    coarse_grid_solution_type := .QUDA_MAT_SOLUTION
    smoother_solve_type := .QUDA_DIRECT_SOLVE
    nu_pre := 2
    nu_post := 2
    smoother_tol := 1 / 4 }

/-- The shared state before anything is built. -/
def sampleWorld : World :=
  { invert_param := sampleInvertParam, nextId := 0, objects := [] }

/-- The two checks at the head of `MG::operator()` pass: not (single-parity `b`
with a full coarse-grid solution) and not (preconditioned coarse-grid solution
without preconditioned smoother solve). -/
def MG.parityAccepted (param : MGParam) (bSiteSubset : QudaSiteSubset) : Prop :=
  ¬ (bSiteSubset ≠ .QUDA_FULL_SITE_SUBSET ∧
      param.coarse_grid_solution_type = .QUDA_MAT_SOLUTION) ∧
  ¬ (param.coarse_grid_solution_type = .QUDA_MATPC_SOLUTION ∧
      param.smoother_solve_type ≠ .QUDA_DIRECT_PC_SOLVE)

instance (param : MGParam) (b : QudaSiteSubset) : Decidable (MG.parityAccepted param b) := by
  unfold MG.parityAccepted; infer_instance

/-- A two-level hierarchy before `createCoarseSolver`: fine level `0` with the
given cycle type and smoother, coarse level `1` whose pre-smoother is `pre`. -/
def sampleTwoLevel (cycle : QudaMultigridCycleType) (smoother : QudaInverterType)
    (pre : Option SolverObj) : St :=
  { mg := .node
      (LevelState.init 0 { sampleMGParam 2 with cycle_type := cycle, smoother := smoother })
      (.leaf { LevelState.init 1 { sampleMGParam 2 with level := 1, fine := some 0 } with
        presmoother := pre })
    w := { sampleWorld with nextId := 2 } }

/-- The release records of `if (coarse_solver) delete coarse_solver;` in
`MG::createCoarseSolver`. -/
def MG.releasedCoarseSolver (level : Int) (c : Option LevelState) :
    Option CoarseSolverRef → List ObjEvent
  | some (.wrapper id) => [.delete .PreconditionedSolver id level]
  | some .coarseMG =>
    match c with
    | some cs => [.delete .MG cs.id level]
    | none => []
  | none => []

/-- Creation or release of a level object or of a transfer operator. -/
def ObjEvent.structural : ObjEvent → Bool
  | .new .MG _ _ | .new .Transfer _ _ | .delete .MG _ _ | .delete .Transfer _ _ => true
  | _ => false

/-- The three ways `MG::MG` obtains the null-space vectors. -/
def Call.isNullPath : Call → Bool
  | .generateNullVectors _ | .loadVectors | .buildFreeVectors => true
  | _ => false

/-- The null-space paths the code of `this` has entered so far, in order. -/
def St.nullPaths (st : St) : List Call := st.mg.state.calls.filter Call.isNullPath

/-- A member function leaves the observation `φ` of the state as it found it,
whether it returns or aborts. -/
def Keeps {α β : Type} (φ : St → β) (m : MGM α) : Prop := ∀ st, φ (m st).st = φ st

/-- The level for which a level object is created, for a creation record of an
`MG`. -/
def ObjEvent.newLevel : ObjEvent → Option Int
  | .new .MG _ level => some level
  | _ => none

/-- A member function returns on every state. -/
def Total {α : Type} (m : MGM α) : Prop := ∀ st, ∃ a, (m st).out = .ok a

/-- What the smoother and coarse-solver set-up of a level leave alone: the
`coarse` pointer, the identity, `param`, `transfer`, `resetTransfer` and
`coarse_solver` of `this`, the caller's invert configuration, and the record of
level objects and transfer operators created and released. -/
def St.core (st : St) : Option MG × Nat × MGParam × Option Transfer × Bool ×
    Option CoarseSolverRef × QudaInvertParam × List ObjEvent :=
  (st.mg.coarse, st.mg.state.id, st.mg.state.param, st.mg.state.transfer,
    st.mg.state.resetTransfer, st.mg.state.coarse_solver, st.w.invert_param,
    st.w.objects.filter ObjEvent.structural)

/-- A fully set-up hierarchy, as construction leaves it.  A level with a coarse
level is not the coarsest, has a transfer operator, and its coarse level has the
next index, the same `Nlevel` and `fine` pointing back to it; its `coarse_solver`
aliases the coarse level only in the V-cycle above level `Nlevel-2`, and its
cycle type is one `createCoarseSolver` supports.  A level without a coarse level
is the coarsest (`level = Nlevel-1`) and has no transfer operator. -/
def MG.SetUp : MG → Prop
  | .leaf s => s.param.level = s.param.Nlevel - 1 ∧ s.transfer = none
  | .node s c =>
    s.param.level < s.param.Nlevel - 1 ∧ s.transfer.isSome = true ∧
    c.state.param.level = s.param.level + 1 ∧ c.state.param.Nlevel = s.param.Nlevel ∧
    c.state.param.fine = some s.id ∧
    (s.coarse_solver = some .coarseMG →
      s.param.cycle_type = .QUDA_MG_CYCLE_VCYCLE ∧ s.param.level < s.param.Nlevel - 2) ∧
    (s.param.level < s.param.Nlevel - 2 →
      s.param.cycle_type = .QUDA_MG_CYCLE_VCYCLE ∨
        s.param.cycle_type = .QUDA_MG_CYCLE_RECURSIVE) ∧
    c.SetUp

/-- The identity of a level, its place in the hierarchy, its iteration count and
the identity of its transfer operator. -/
def LevelState.shape (s : LevelState) : Nat × Int × Int × Option Nat × Int × Option Nat :=
  (s.id, s.param.level, s.param.Nlevel, s.param.fine, s.param.iter, s.transfer.map (·.id))

/-- A fully set-up two-level hierarchy used in the concrete evaluations: level
`0` with transfer operator `2` and a coarse-solver wrapper, level `1` whose
`param.iter` is `7`; the caller's invert configuration has `iter = 0`. -/
def sampleSetUp : St :=
  { mg := .node
      { LevelState.init 0 (sampleMGParam 2) with
        transfer := some ⟨2, .QUDA_FULL_SITE_SUBSET, .QUDA_EVEN_PARITY⟩
        coarse_solver := some (.wrapper 4) }
      (.leaf (LevelState.init 1 { sampleMGParam 2 with level := 1, fine := some 0, iter := 7 }))
    w := { sampleWorld with nextId := 5 } }

/-! ### The global orthonormalisation of the null-space vectors -/

/-- Modelled from the spec: the vector algebra routines `cDotProduct`, `caxpy`,
`norm2` and `ax` and the library function `sqrt` are not among the sources.
They are operations on vectors `V` with complex scalars `K` and real scalars
`R`: `cDotProduct x y` is the inner product `<x,y>`, `caxpy a x y` is the new
value `a*x + y` of `y`, `norm2 x` is `<x,x>`, `ax a x` is the new value `a*x` of
`x`, as the comments at their calls state. -/
structure VectorOps (V K R : Type) where
  cDotProduct : V → V → K
  caxpy : K → V → V → V
  norm2 : V → R
  ax : R → V → V
  sqrt : R → R

section GramSchmidt

variable {V K R : Type}

/-- The inner loop `for (int j=0; j<i; j++)` of the orthonormalisations of
`generateNullVectors`: `B[i]` has its components along `B[0..i-1]` removed one
after the other. -/
def MG.orthogonalize (ops : VectorOps V K R) [Neg K] (i : Nat) (B : Nat → V) : Nat → V :=
  (List.range i).foldl (fun B j =>
    let alpha := ops.cDotProduct (B j) (B i)
    Function.update B i (ops.caxpy (-alpha) (B j) (B i))) B

/-- The normalisation of `B[i]` that follows the inner loop.  The
pre-orthonormalisation tests `nrm2 > 1e-16`, the post-orthonormalisation
(`post`) tests `sqrt(nrm2) > 1e-16`. -/
def MG.normalize (ops : VectorOps V K R) [One R] [Div R] [LT R] [OfScientific R]
    [∀ a b : R, Decidable (a < b)] (post : Bool) (i : Nat) (B : Nat → V) :
    Except Fatal (Nat → V) :=
  let nrm2 := ops.norm2 (B i)
  if (if post then ops.sqrt nrm2 else nrm2) > 1e-16 then
    .ok (Function.update B i (ops.ax (1 / ops.sqrt nrm2) (B i)))
  else .error (.errorQuda "Cannot normalize vector")

/-- The global orthonormalisation loops of `generateNullVectors` over the `n`
vectors `B[0..n-1]` (lines 1147-1158 before the solves, lines 1181-1192, `post`,
after them). -/
def MG.orthonormalize (ops : VectorOps V K R) [Neg K] [One R] [Div R] [LT R] [OfScientific R]
    [∀ a b : R, Decidable (a < b)] (post : Bool) (n : Nat) (B : Nat → V) :
    Except Fatal (Nat → V) :=
  (List.range n).foldlM (fun B i => MG.normalize ops post i (MG.orthogonalize ops i B)) B

end GramSchmidt

/-- Modelled from the spec: exact arithmetic.  The vector operations are those
of an inner product space `E` over `𝕜` (the comments at the calls: `<j,i>`,
`i-<j,i>j`, `i/<i,i>`), with `norm2 x = <x,x>` and the real square root. -/
structure VectorOps.Exact {𝕜 E : Type} [RCLike 𝕜] [NormedAddCommGroup E] [InnerProductSpace 𝕜 E]
    (ops : VectorOps E 𝕜 ℝ) : Prop where
  cDotProduct_eq : ∀ x y : E, ops.cDotProduct x y = inner x y
  caxpy_eq : ∀ (a : 𝕜) (x y : E), ops.caxpy a x y = a • x + y
  norm2_eq : ∀ x : E, ops.norm2 x = ‖x‖ ^ 2
  ax_eq : ∀ (a : ℝ) (x : E), ops.ax a x = (a : 𝕜) • x
  sqrt_eq : ∀ r : ℝ, ops.sqrt r = Real.sqrt r

/-! ## Theorems -/

/-! ### `SolverParam` -/

/-- The copy loop of the constructor only touches the three tolerance/offset
arrays: every scalar member is as before. -/
theorem foldl_copyOffsetAt_frame (param : QudaInvertParam) (l : List Nat) (s : SolverParam) :
    (l.foldl (SolverParam.copyOffsetAt param) s).num_offset = s.num_offset ∧
    (l.foldl (SolverParam.copyOffsetAt param) s).m = s.m ∧
    (l.foldl (SolverParam.copyOffsetAt param) s).nev = s.nev ∧
    (l.foldl (SolverParam.copyOffsetAt param) s).deflation_grid = s.deflation_grid ∧
    (l.foldl (SolverParam.copyOffsetAt param) s).rhs_idx = s.rhs_idx ∧
    (l.foldl (SolverParam.copyOffsetAt param) s).offset.length = s.offset.length := by
  induction l generalizing s with
  | nil => simp
  | cons i l ih =>
    simp only [List.foldl_cons]
    have h := ih (SolverParam.copyOffsetAt param s i)
    simpa [SolverParam.copyOffsetAt] using h

theorem SolverParam.ctor_num_offset (maxShift : Nat) (param : QudaInvertParam) :
    (SolverParam.ctor maxShift param).num_offset = param.num_offset := by
  unfold SolverParam.ctor
  simp only []
  split_ifs <;> simp [(foldl_copyOffsetAt_frame param _ _).1]

theorem SolverParam.ctor_offset_length (maxShift : Nat) (param : QudaInvertParam) :
    (SolverParam.ctor maxShift param).offset.length = maxShift := by
  unfold SolverParam.ctor
  simp only []
  split_ifs <;> simp [(foldl_copyOffsetAt_frame param _ _).2.2.2.2.2]

theorem SolverParam.ctor_m (maxShift : Nat) (param : QudaInvertParam) :
    (SolverParam.ctor maxShift param).m =
      if param.inv_type = .QUDA_INC_EIGCG_INVERTER ∧ Int.tmod param.max_search_dim 16 ≠ 0 then
        wrapInt (Int.tdiv param.max_search_dim 16 * 16 + 16)
      else param.max_search_dim := by
  unfold SolverParam.ctor
  simp only []
  split_ifs <;> simp_all [(foldl_copyOffsetAt_frame param _ _).2.1]

theorem SolverParam.ctor_rhs_idx (maxShift : Nat) (param : QudaInvertParam) :
    (SolverParam.ctor maxShift param).rhs_idx =
      if param.rhs_idx ≠ 0 ∧ param.inv_type = .QUDA_INC_EIGCG_INVERTER then param.rhs_idx
      else 0 := by
  unfold SolverParam.ctor
  simp only []
  split_ifs <;> simp [(foldl_copyOffsetAt_frame param _ _).2.2.2.2.1]

/-- An `int` operation whose exact result is in range yields that result. -/
theorem wrapInt_of_range (x : Int) (h1 : -2147483648 ≤ x) (h2 : x < 2147483648) :
    wrapInt x = x := by
  unfold wrapInt
  norm_num
  omega

theorem SolverParam.ctor_nev (maxShift : Nat) (param : QudaInvertParam) :
    (SolverParam.ctor maxShift param).nev = param.nev ∧
    (SolverParam.ctor maxShift param).deflation_grid = param.deflation_grid := by
  unfold SolverParam.ctor
  simp only []
  split_ifs <;> simp [(foldl_copyOffsetAt_frame param _ _).2.2.1,
    (foldl_copyOffsetAt_frame param _ _).2.2.2.1]

/-- C10 (counterexample): with `QUDA_MAX_MULTI_SHIFT = 2`, constructing from a
configuration with `num_offset = 3` yields a `SolverParam` (the constructor has
no failing path) whose `num_offset` is `3 > 2`, and the copy loop visits index
`2`, which lies outside the two-entry arrays. -/
theorem c10_counterexample :
    (SolverParam.ctor 2 { sampleInvertParam with num_offset := 3 }).num_offset = 3 ∧
    (SolverParam.ctor 2 { sampleInvertParam with num_offset := 3 }).offset.length = 2 ∧
    2 ∈ offsetLoopIndices
      (SolverParam.ctor 2 { sampleInvertParam with num_offset := 3 }).num_offset := by
  refine ⟨by rfl, by decide, by decide⟩

/-- C10 (amended): the constructor performs no check on `num_offset`: for every
configuration it returns a `SolverParam` carrying `num_offset` unchanged, with
per-offset arrays of `QUDA_MAX_MULTI_SHIFT` entries, and the indices its copy
loop visits all lie inside those arrays exactly when
`num_offset ≤ QUDA_MAX_MULTI_SHIFT`. -/
theorem c10_ctor_num_offset_unchecked (maxShift : Nat) (param : QudaInvertParam) :
    (SolverParam.ctor maxShift param).num_offset = param.num_offset ∧
    (SolverParam.ctor maxShift param).offset.length = maxShift ∧
    ((∀ i ∈ offsetLoopIndices (SolverParam.ctor maxShift param).num_offset, i < maxShift) ↔
      param.num_offset ≤ (maxShift : Int)) := by
  refine ⟨SolverParam.ctor_num_offset _ _, SolverParam.ctor_offset_length _ _, ?_⟩
  rw [SolverParam.ctor_num_offset]
  simp only [offsetLoopIndices, List.mem_range]
  constructor
  · intro h
    by_contra hc
    have : maxShift < param.num_offset.toNat := by omega
    exact absurd (h maxShift this) (lt_irrefl _)
  · intro h i hi
    omega

/-- C11 (counterexample): an incremental-eigCG configuration with
`max_search_dim = 2147483647 ≥ 0`.  The rounding `(m / 16) * 16 + 16` leaves the
`int` range and the constructed `m` is `-2147483648`, which is below
`max_search_dim`. -/
theorem c11_counterexample :
    sampleInvertParam.inv_type = .QUDA_INC_EIGCG_INVERTER ∧
    (0 : Int) ≤ ({ sampleInvertParam with max_search_dim := 2147483647 } :
      QudaInvertParam).max_search_dim ∧
    (SolverParam.ctor 2 { sampleInvertParam with max_search_dim := 2147483647 }).m =
      -2147483648 ∧
    ¬ ({ sampleInvertParam with max_search_dim := 2147483647 } :
        QudaInvertParam).max_search_dim ≤
      (SolverParam.ctor 2 { sampleInvertParam with max_search_dim := 2147483647 }).m := by
  have h : (SolverParam.ctor 2 { sampleInvertParam with max_search_dim := 2147483647 }).m =
      -2147483648 := by
    rw [SolverParam.ctor_m]
    decide
  refine ⟨rfl, by decide, h, ?_⟩
  rw [h]
  decide

/-- C11 (amended): for the incremental eigCG solver and
`0 ≤ max_search_dim ≤ 2147483632` (the largest multiple of 16 an `int` holds) the
constructed `m` is the least multiple of 16 that is `≥ max_search_dim`; for
`2147483632 < max_search_dim ≤ 2147483647` the rounding wraps and
`m = -2147483648`; for every other solver type `m = max_search_dim`. -/
theorem c11_search_dim_rounding_in_range (maxShift : Nat) (param : QudaInvertParam) :
    (param.inv_type = .QUDA_INC_EIGCG_INVERTER → 0 ≤ param.max_search_dim →
      param.max_search_dim ≤ 2147483632 →
      (16 : Int) ∣ (SolverParam.ctor maxShift param).m ∧
      param.max_search_dim ≤ (SolverParam.ctor maxShift param).m ∧
      ∀ k : Int, (16 : Int) ∣ k → param.max_search_dim ≤ k →
        (SolverParam.ctor maxShift param).m ≤ k) ∧
    (param.inv_type = .QUDA_INC_EIGCG_INVERTER → 2147483632 < param.max_search_dim →
      param.max_search_dim ≤ 2147483647 →
      (SolverParam.ctor maxShift param).m = -2147483648) ∧
    (param.inv_type ≠ .QUDA_INC_EIGCG_INVERTER →
      (SolverParam.ctor maxShift param).m = param.max_search_dim) := by
  rw [SolverParam.ctor_m]
  refine ⟨?_, ?_, ?_⟩
  · intro hinv hnn hle
    rw [Int.tmod_eq_emod hnn (by norm_num), Int.tdiv_eq_ediv hnn (by norm_num)]
    simp only [hinv, true_and]
    split_ifs with h
    · rw [wrapInt_of_range _ (by omega) (by omega)]
      refine ⟨by omega, by omega, ?_⟩
      intro k hk hle
      omega
    · refine ⟨by omega, le_refl _, ?_⟩
      intro k _ hle
      exact hle
  · intro hinv hlt hle
    have hnn : 0 ≤ param.max_search_dim := by omega
    rw [Int.tmod_eq_emod hnn (by norm_num), Int.tdiv_eq_ediv hnn (by norm_num)]
    have hmod : param.max_search_dim % 16 ≠ 0 := by omega
    simp only [hinv, true_and, hmod, ne_eq, not_false_eq_true, if_true]
    have hq : param.max_search_dim / 16 * 16 + 16 = 2147483648 := by omega
    rw [hq]
    decide
  · intro hinv
    simp [hinv]

/-- C11 (witness): an eigCG configuration with `max_search_dim = 17` gets
`m = 32`. -/
theorem c11_search_dim_rounding_in_range_witness :
    (16 : Int) ∣ (SolverParam.ctor 2 { sampleInvertParam with max_search_dim := 17 }).m ∧
      (17 : Int) ≤ (SolverParam.ctor 2 { sampleInvertParam with max_search_dim := 17 }).m ∧
      ∀ k : Int, (16 : Int) ∣ k → (17 : Int) ≤ k →
        (SolverParam.ctor 2 { sampleInvertParam with max_search_dim := 17 }).m ≤ k :=
  (c11_search_dim_rounding_in_range 2 { sampleInvertParam with max_search_dim := 17 }).1 rfl
    (by decide) (by decide)

/-- The constructor reads only `nev`, `deflation_grid` and `rhs_idx`. -/
theorem ProjectionMatrix.ctor_congr (sizeofComplex : Int) (a b : SolverParam)
    (h1 : a.nev = b.nev) (h2 : a.deflation_grid = b.deflation_grid)
    (h3 : a.rhs_idx = b.rhs_idx) :
    ProjectionMatrix.ctor sizeofComplex a = ProjectionMatrix.ctor sizeofComplex b := by
  unfold ProjectionMatrix.ctor
  rw [h1, h2, h3]

/-- For positive `nev` and `deflation_grid` whose element count
`ld * tot_dim` fits an `int`, construction succeeds with
`tot_dim = nev * deflation_grid`. -/
theorem ProjectionMatrix.ctor_ok_of_range (sizeofComplex : Int) (param : SolverParam)
    (hnev : 0 < param.nev) (hgrid : 0 < param.deflation_grid)
    (hfit : Int.tdiv (param.nev * param.deflation_grid + 15) 16 *
      (param.nev * param.deflation_grid) * (param.nev * param.deflation_grid) < 2147483648) :
    ∃ pm, ProjectionMatrix.ctor sizeofComplex param = .ok pm ∧
      pm.tot_dim = param.nev * param.deflation_grid := by
  have hcomm : param.deflation_grid * param.nev = param.nev * param.deflation_grid :=
    mul_comm _ _
  have ht : 0 < param.nev * param.deflation_grid := mul_pos hnev hgrid
  generalize param.nev * param.deflation_grid = t at hfit ht hcomm
  rw [Int.tdiv_eq_ediv (by omega) (by norm_num)] at hfit
  have hq : 1 ≤ (t + 15) / 16 := by omega
  generalize hqd : (t + 15) / 16 = q at hfit hq
  have htt : t * t < 2147483648 := by nlinarith [mul_pos ht ht]
  have ht1 : t < 65536 := by nlinarith
  have hld1 : 0 ≤ q * t := by positivity
  have hld2 : q * t < 2147483648 := by nlinarith [mul_nonneg hld1 (by omega : 0 ≤ t - 1)]
  have hc1 : 0 ≤ q * t * t := by positivity
  have e1 : wrapInt t = t := wrapInt_of_range _ (by omega) (by omega)
  have e2 : wrapInt (t + 15) = t + 15 := wrapInt_of_range _ (by omega) (by omega)
  have e3 : Int.tdiv (t + 15) 16 = q := by
    rw [Int.tdiv_eq_ediv (by omega) (by norm_num)]; exact hqd
  have e4 : wrapInt (q * t) = q * t := wrapInt_of_range _ (by omega) (by omega)
  have e5 : wrapInt (q * t * t) = q * t * t := wrapInt_of_range _ (by omega) (by omega)
  have hz : ¬ (param.nev = 0 ∨ param.deflation_grid = 0) := by omega
  have hcnt : ¬ q * t * t < 0 := by omega
  unfold ProjectionMatrix.ctor
  simp only [hz, if_false, hcomm, e1, e2, e3, e4, e5, hcnt]
  exact ⟨_, rfl, rfl⟩

/-- C13 (counterexample): an incremental-eigCG configuration with
`max_search_dim = 0`, `nev = 1`, `deflation_grid = 2` is accepted: the
`SolverParam` is built with `m = 0` and the `ProjectionMatrix` construction that
follows succeeds. -/
theorem c13_counterexample :
    sampleInvertParam.inv_type = .QUDA_INC_EIGCG_INVERTER ∧
    sampleInvertParam.max_search_dim = 0 ∧
    (SolverParam.ctor 2 sampleInvertParam).m = 0 ∧
    (ProjectionMatrix.ctor 16 (SolverParam.ctor 2 sampleInvertParam)).isOk = true := by
  refine ⟨rfl, rfl, by decide, by decide⟩

/-- C13 (amended): a zero search-space dimension is not rejected.  For the
incremental eigCG solver with `max_search_dim = 0`, `SolverParam` construction
keeps `m = 0`; the `ProjectionMatrix` construction that follows does not depend
on the search-space dimension at all (it ends as it does for any other
`max_search_dim`), and it succeeds for positive `nev` and `deflation_grid` whose
element count fits an `int`. -/
theorem c13_zero_search_dim_accepted (maxShift : Nat) (sizeofComplex : Int)
    (param : QudaInvertParam) (_hinv : param.inv_type = .QUDA_INC_EIGCG_INVERTER)
    (hm : param.max_search_dim = 0) :
    (SolverParam.ctor maxShift param).m = 0 ∧
    (∀ d : Int, ProjectionMatrix.ctor sizeofComplex (SolverParam.ctor maxShift param) =
      ProjectionMatrix.ctor sizeofComplex
        (SolverParam.ctor maxShift { param with max_search_dim := d })) ∧
    (0 < param.nev → 0 < param.deflation_grid →
      Int.tdiv (param.nev * param.deflation_grid + 15) 16 *
        (param.nev * param.deflation_grid) * (param.nev * param.deflation_grid) < 2147483648 →
      ∃ pm, ProjectionMatrix.ctor sizeofComplex (SolverParam.ctor maxShift param) = .ok pm) := by
  refine ⟨?_, ?_, ?_⟩
  · rw [SolverParam.ctor_m, hm]; simp
  · intro d
    apply ProjectionMatrix.ctor_congr
    · rw [(SolverParam.ctor_nev _ _).1, (SolverParam.ctor_nev _ _).1]
    · rw [(SolverParam.ctor_nev _ _).2, (SolverParam.ctor_nev _ _).2]
    · rw [SolverParam.ctor_rhs_idx, SolverParam.ctor_rhs_idx]
  · intro hnev hgrid hfit
    obtain ⟨pm, hpm, _⟩ := ProjectionMatrix.ctor_ok_of_range sizeofComplex
      (SolverParam.ctor maxShift param)
      (by rw [(SolverParam.ctor_nev _ _).1]; exact hnev)
      (by rw [(SolverParam.ctor_nev _ _).2]; exact hgrid)
      (by rw [(SolverParam.ctor_nev _ _).1, (SolverParam.ctor_nev _ _).2]; exact hfit)
    exact ⟨pm, hpm⟩

/-- C13 (witness): the sample configuration (`max_search_dim = 0`, `nev = 1`,
`deflation_grid = 2`). -/
theorem c13_zero_search_dim_accepted_witness :
    (SolverParam.ctor 2 sampleInvertParam).m = 0 ∧
    ∃ pm, ProjectionMatrix.ctor 16 (SolverParam.ctor 2 sampleInvertParam) = .ok pm :=
  ⟨(c13_zero_search_dim_accepted 2 16 sampleInvertParam rfl rfl).1,
   (c13_zero_search_dim_accepted 2 16 sampleInvertParam rfl rfl).2.2
     (by decide) (by decide) (by decide)⟩

/-! ### `updateInvertParam` -/

/-- The write-back loop only touches the two achieved-residual arrays. -/
theorem foldl_updateOffsetAt_frame (s : SolverParam) (l : List Nat) (p : QudaInvertParam) :
    l.foldl (SolverParam.updateOffsetAt s) p =
      { p with
        true_res_offset := (l.foldl (SolverParam.updateOffsetAt s) p).true_res_offset
        true_res_hq_offset := (l.foldl (SolverParam.updateOffsetAt s) p).true_res_hq_offset } := by
  induction l generalizing p with
  | nil => rfl
  | cons i l ih =>
    simp only [List.foldl_cons]
    rw [ih]
    simp [SolverParam.updateOffsetAt]

/-- Entry `i` of the achieved-residual arrays after the write-back loop over
`0 .. n-1`. -/
theorem foldl_updateOffsetAt_entry (s : SolverParam) (n : Nat) (p : QudaInvertParam) (i : Nat) :
    readAt ((List.range n).foldl (SolverParam.updateOffsetAt s) p).true_res_offset i =
      (if i < n ∧ i < p.true_res_offset.length then readAt s.true_res_offset i
        else readAt p.true_res_offset i) ∧
    readAt ((List.range n).foldl (SolverParam.updateOffsetAt s) p).true_res_hq_offset i =
      (if i < n ∧ i < p.true_res_hq_offset.length then readAt s.true_res_hq_offset i
        else readAt p.true_res_hq_offset i) ∧
    ((List.range n).foldl (SolverParam.updateOffsetAt s) p).true_res_offset.length =
      p.true_res_offset.length ∧
    ((List.range n).foldl (SolverParam.updateOffsetAt s) p).true_res_hq_offset.length =
      p.true_res_hq_offset.length := by
  induction n with
  | zero => simp
  | succ n ih =>
    obtain ⟨h1, h2, h3, h4⟩ := ih
    rw [List.range_succ, List.foldl_append]
    simp only [List.foldl_cons, List.foldl_nil, SolverParam.updateOffsetAt, readAt,
      List.length_set] at *
    refine ⟨?_, ?_, h3, h4⟩
    · rw [List.getD_eq_getElem?_getD, List.getElem?_set]
      by_cases hin : n = i
      · subst hin
        by_cases hl : n < p.true_res_offset.length
        · simp [h3, hl]
        · simp only [h3, hl, if_false, if_true, and_false]
          simp only [Option.getD_none]
          rw [List.getD_eq_default _ _ (by omega)]
      · simp only [hin, if_false]
        rw [← List.getD_eq_getElem?_getD, h1]
        have : (i < n + 1) ↔ (i < n) := by omega
        simp [this]
    · rw [List.getD_eq_getElem?_getD, List.getElem?_set]
      by_cases hin : n = i
      · subst hin
        by_cases hl : n < p.true_res_hq_offset.length
        · simp [h4, hl]
        · simp only [h4, hl, if_false, if_true, and_false]
          simp only [Option.getD_none]
          rw [List.getD_eq_default _ _ (by omega)]
      · simp only [hin, if_false]
        rw [← List.getD_eq_getElem?_getD, h2]
        have : (i < n + 1) ↔ (i < n) := by omega
        simp [this]

/-- The constructor copies the accumulated statistics of the configuration. -/
theorem SolverParam.ctor_stats (maxShift : Nat) (param : QudaInvertParam) :
    (SolverParam.ctor maxShift param).secs = param.secs ∧
    (SolverParam.ctor maxShift param).gflops = param.gflops ∧
    (SolverParam.ctor maxShift param).iter = param.iter := by
  have frame : ∀ (l : List Nat) (s : SolverParam),
      (l.foldl (SolverParam.copyOffsetAt param) s).secs = s.secs ∧
      (l.foldl (SolverParam.copyOffsetAt param) s).gflops = s.gflops ∧
      (l.foldl (SolverParam.copyOffsetAt param) s).iter = s.iter := by
    intro l
    induction l with
    | nil => intro s; simp
    | cons i l ih =>
      intro s
      simp only [List.foldl_cons]
      simpa [SolverParam.copyOffsetAt] using ih (SolverParam.copyOffsetAt param s i)
  unfold SolverParam.ctor
  simp only []
  split_ifs <;> simp [(frame _ _).1, (frame _ _).2.1, (frame _ _).2.2]

/-- C15: in exact arithmetic, when the two elapsed times do not add up to zero,
`updateInvertParam` sets the caller's `gflops` to the time-weighted average,
computed with the caller's `secs` from before the call, and then adds the
solver's `secs` to the caller's. -/
theorem c15_gflops_weighted_average (s : SolverParam) (param : QudaInvertParam)
    (h : param.secs + s.secs ≠ 0) :
    (s.updateInvertParam param).gflops =
      (param.gflops * param.secs + s.gflops * s.secs) / (param.secs + s.secs) ∧
    (s.updateInvertParam param).gflops * (param.secs + s.secs) =
      param.gflops * param.secs + s.gflops * s.secs ∧
    (s.updateInvertParam param).secs = param.secs + s.secs := by
  have hfr := fun p => foldl_updateOffsetAt_frame s (offsetLoopIndices s.num_offset) p
  have hg : (s.updateInvertParam param).gflops =
      (param.gflops * param.secs + s.gflops * s.secs) / (param.secs + s.secs) := by
    unfold SolverParam.updateInvertParam; simp only []; rw [hfr]
  refine ⟨hg, ?_, ?_⟩
  · rw [hg, div_mul_cancel₀ _ h]
  · unfold SolverParam.updateInvertParam; simp only []; rw [hfr]

/-- C15 (witness): caller at 2 GFLOPS over 1 s, solver at 6 GFLOPS over 3 s:
the average is 5 GFLOPS over 4 s. -/
theorem c15_gflops_weighted_average_witness :
    ((SolverParam.ctor 2 { sampleInvertParam with secs := 3, gflops := 6 }).updateInvertParam
        { sampleInvertParam with secs := 1, gflops := 2 }).gflops = 5 ∧
    ((SolverParam.ctor 2 { sampleInvertParam with secs := 3, gflops := 6 }).updateInvertParam
        { sampleInvertParam with secs := 1, gflops := 2 }).secs = 4 := by
  have hs := SolverParam.ctor_stats 2 { sampleInvertParam with secs := 3, gflops := 6 }
  have h := c15_gflops_weighted_average
    (SolverParam.ctor 2 { sampleInvertParam with secs := 3, gflops := 6 })
    { sampleInvertParam with secs := 1, gflops := 2 } (by rw [hs.1]; norm_num)
  rw [hs.1, hs.2.1] at h
  refine ⟨h.1.trans (by norm_num), h.2.2.trans (by norm_num)⟩

/-! ### `ProjectionMatrix` -/

/-- C12 (counterexample): `nev = -17`, `deflation_grid = 2`.  Neither is zero,
yet construction fails: `tot_dim = -34`, `ld = ((-34+15)/16) * (-34) = 34`, the
element count `ld * tot_dim = -1156` is negative and `new Complex[...]` throws
`std::bad_array_new_length`. -/
theorem c12_counterexample :
    (SolverParam.ctor 2 { sampleInvertParam with nev := -17 }).nev ≠ 0 ∧
    (SolverParam.ctor 2 { sampleInvertParam with nev := -17 }).deflation_grid ≠ 0 ∧
    ProjectionMatrix.ctor 16 (SolverParam.ctor 2 { sampleInvertParam with nev := -17 }) =
      .error .badArrayNewLength := by
  refine ⟨by decide, by decide, by rfl⟩

/-- C12 (amended): construction ends in `errorQuda` if and only if `nev = 0` or
`deflation_grid = 0`; for every other parameter set it either succeeds or fails
in the allocation (negative element count); for positive `nev` and
`deflation_grid` whose element count `ld * tot_dim` fits an `int` it succeeds
with `tot_dim = nev * deflation_grid`. -/
theorem c12_projection_ctor_outcomes (sizeofComplex : Int) (param : SolverParam) :
    ((∃ msg, ProjectionMatrix.ctor sizeofComplex param = .error (.errorQuda msg)) ↔
      (param.nev = 0 ∨ param.deflation_grid = 0)) ∧
    (¬ (param.nev = 0 ∨ param.deflation_grid = 0) →
      (∃ pm, ProjectionMatrix.ctor sizeofComplex param = .ok pm) ∨
      ProjectionMatrix.ctor sizeofComplex param = .error .badArrayNewLength) ∧
    (0 < param.nev → 0 < param.deflation_grid →
      Int.tdiv (param.nev * param.deflation_grid + 15) 16 *
        (param.nev * param.deflation_grid) * (param.nev * param.deflation_grid) < 2147483648 →
      ∃ pm, ProjectionMatrix.ctor sizeofComplex param = .ok pm ∧
        pm.tot_dim = param.nev * param.deflation_grid) := by
  refine ⟨?_, ?_, ProjectionMatrix.ctor_ok_of_range sizeofComplex param⟩
  · unfold ProjectionMatrix.ctor
    by_cases h : param.nev = 0 ∨ param.deflation_grid = 0
    · simp [h]
    · simp only [h, if_false, iff_false, not_exists]
      intro msg
      split_ifs <;> simp
  · intro h
    unfold ProjectionMatrix.ctor
    simp only [h, if_false]
    split_ifs <;> first | exact Or.inr rfl | exact Or.inl ⟨_, rfl⟩

/-- C12 (witness): one eigenvector on a grid of two gives `tot_dim = 2`. -/
theorem c12_projection_ctor_outcomes_witness :
    ∃ pm, ProjectionMatrix.ctor 16 (SolverParam.ctor 2 sampleInvertParam) = .ok pm ∧
      pm.tot_dim = (SolverParam.ctor 2 sampleInvertParam).nev *
        (SolverParam.ctor 2 sampleInvertParam).deflation_grid :=
  (c12_projection_ctor_outcomes 16 (SolverParam.ctor 2 sampleInvertParam)).2.2
    (by decide) (by decide) (by decide)

/-- C16: `curr_dim ≤ tot_dim` holds after every successful construction, and
`ResetProjCurrDim(n)` fails exactly when `n > tot_dim`; when it does not fail
it returns a matrix that still satisfies `curr_dim ≤ tot_dim` and has the same
`tot_dim`, `ld` and `bytes`. -/
theorem c16_curr_dim_invariant (sizeofComplex : Int) (param : SolverParam)
    (pm : ProjectionMatrix) (n : Int)
    (hctor : ProjectionMatrix.ctor sizeofComplex param = .ok pm) :
    pm.curr_dim ≤ pm.tot_dim ∧
    ((∃ e, pm.ResetProjCurrDim n = .error e) ↔ n > pm.tot_dim) ∧
    (n ≤ pm.tot_dim → ∃ pm', pm.ResetProjCurrDim n = .ok pm' ∧
      pm'.curr_dim ≤ pm'.tot_dim ∧ pm'.curr_dim = n ∧ pm'.tot_dim = pm.tot_dim ∧
      pm'.ld = pm.ld ∧ pm'.bytes = pm.bytes) := by
  refine ⟨?_, ?_, ?_⟩
  · simp only [ProjectionMatrix.ctor] at hctor
    split_ifs at hctor with h0 h1 h2
    · simp only [Except.ok.injEq] at hctor
      subst hctor
      exact le_refl _
    · simp only [Except.ok.injEq] at hctor
      subst hctor
      exact not_lt.mp h2
  · unfold ProjectionMatrix.ResetProjCurrDim
    by_cases h : n > pm.tot_dim <;> simp [h]
  · intro h
    unfold ProjectionMatrix.ResetProjCurrDim
    have : ¬ n > pm.tot_dim := by omega
    simp [this, h]

/-- C16 (witness): the matrix built for one eigenvector on a grid of two
(`tot_dim = 2`), reset to dimension `2`. -/
theorem c16_curr_dim_invariant_witness :
    ∃ pm, ProjectionMatrix.ctor 16 (SolverParam.ctor 2 sampleInvertParam) = .ok pm ∧
      pm.curr_dim ≤ pm.tot_dim ∧
      ((∃ e, pm.ResetProjCurrDim 2 = .error e) ↔ 2 > pm.tot_dim) := by
  obtain ⟨pm, hpm, _⟩ := ProjectionMatrix.ctor_ok_of_range 16
    (SolverParam.ctor 2 sampleInvertParam) (by decide) (by decide) (by decide)
  exact ⟨pm, hpm, (c16_curr_dim_invariant 16 _ pm 2 hpm).1,
    (c16_curr_dim_invariant 16 _ pm 2 hpm).2.1⟩

/-- C17 (the code at the failing input): for `nev = 1`, `deflation_grid = 3`
the constructor computes `ld = ((3+15)/16)*3 = 3`, which is not a multiple of
16, and `bytes = ld * tot_dim * 16`. -/
theorem c17_ld_not_padded :
    (ProjectionMatrix.ctor 16
        (SolverParam.ctor 2 { sampleInvertParam with deflation_grid := 3 })).map
      (fun pm => (pm.tot_dim, pm.ld, pm.bytes)) = .ok (3, 3, 144) ∧
    ¬ (16 : Int) ∣ 3 := by
  refine ⟨by rfl, by decide⟩

/-- C24 (the code at the failing input): for `nev = 1`, `deflation_grid = 2`,
`rhs_idx = 0` the constructor sets `curr_dim = (rhs_idx+1)*nev = 1` and
`prev_dim = rhs_idx*nev = 0`, whereas `nev * rhs_idx = 0`. -/
theorem c24_curr_dim_at_rhs_idx_zero :
    (SolverParam.ctor 2 sampleInvertParam).rhs_idx = 0 ∧
    (ProjectionMatrix.ctor 16 (SolverParam.ctor 2 sampleInvertParam)).map
      (fun pm => (pm.prev_dim, pm.curr_dim)) = .ok (0, 1) := by
  refine ⟨by decide, by rfl⟩

/-- C25 (the code at the failing input): with 16 allocated bytes,
`LoadProj(in, -1)` and `SaveProj(out, -1)` pass the test
`cpy_bytes <= bytes && cpy_bytes` and call `memcpy` with `(size_t)(-1)` bytes. -/
theorem c25_negative_size_accepted :
    sampleProjectionMatrix.bytes = 16 ∧
    (sampleProjectionMatrix.LoadProj [1, 2, 3] (-1)).isOk = true ∧
    (sampleProjectionMatrix.SaveProj [1, 2, 3] (-1)).isOk = true ∧
    ProjectionMatrix.copiedBytes (-1) = 2 ^ 64 - 1 := by
  refine ⟨rfl, by decide, by decide, by decide⟩

/-! ### Staggered operators -/

section Staggered

variable {V : Type} [AddCommGroup V] [Module ℚ V]

/-- With a non-zero coefficient `DslashXpay` is `k*x - D*in`. -/
theorem DiracStaggered.DslashXpay_eq (d : DiracStaggered V) (inp x : V) (parity : QudaParity)
    (k : ℚ) : d.DslashXpay inp parity x k = k • x - d.hop parity inp := by
  unfold DiracStaggered.DslashXpay ApplyStaggered
  by_cases hk : k = 0
  · simp [hk]
  · simp [hk]

/-- The scaling step of `reconstruct` undoes the factor `2m`. -/
theorem reconstruct_scale (m : ℚ) (hm : m ≠ 0) (u w Dw DDu : V)
    (h : (4 * m * m) • u - DDu = (2 * m) • w + Dw) :
    (2 * m) • u - (-(1 / 2 : ℚ) / m) • (-Dw - DDu) = w := by
  have hDD : DDu = (4 * m * m) • u - ((2 * m) • w + Dw) := by
    rw [← h]; abel
  rw [hDD]
  have e : -Dw - ((4 * m * m) • u - ((2 * m) • w + Dw)) = (-(4 * m * m)) • u + (2 * m) • w := by
    module
  rw [e, smul_add, smul_smul, smul_smul]
  have c1 : (-(1 / 2 : ℚ) / m) * (-(4 * m * m)) = 2 * m := by field_simp; ring
  have c2 : (-(1 / 2 : ℚ) / m) * (2 * m) = -1 := by field_simp
  rw [c1, c2]
  module

/-- The odd row of the full system after `reconstruct`. -/
theorem reconstruct_row (m : ℚ) (hm : m ≠ 0) (w Du : V) :
    (2 * m) • ((-(1 / 2 : ℚ) / m) • ((-1 : ℚ) • w - Du)) - Du = w := by
  rw [smul_smul]
  have c : (2 * m) * (-(1 / 2 : ℚ) / m) = -1 := by field_simp
  rw [c]
  module

/-- C3: for the parity-preconditioned staggered operator with `m ≠ 0`, reading
`DslashXpay` as `k*x - D*in`: with `matpcType = EVEN_EVEN`, `prepare` for a full
solution leaves the source `2m*b_e + D_eo*b_o` in `x.Odd()` and points `sol` at
`x.Even()`; `DiracStaggeredPC::M` applies `4m^2 - D_eo D_oe`; and if `x_e` solves
that system then `reconstruct` returns a full field that `DiracStaggered::M`
maps to `b`, i.e. `2m*x_e - D_eo*x_o = b_e` and `-D_oe*x_e + 2m*x_o = b_o`.
Symmetrically for `ODD_ODD`. -/
theorem c3_prepare_reconstruct_solves_full_system (d : DiracStaggered V) (x b : Spinor V)
    (hm : d.mass ≠ 0) :
    (d.matpcType = .QUDA_MATPC_EVEN_EVEN →
      ∃ p, DiracStaggeredPC.prepare d x b .QUDA_MAT_SOLUTION = .ok p ∧
        p.src = .xOdd ∧ p.sol = .xEven ∧
        p.x.Odd = (2 * d.mass) • b.Even + d.D_eo b.Odd ∧
        ∀ xe : V,
          DiracStaggeredPC.M d xe = .ok ((4 * d.mass * d.mass) • xe - d.D_eo (d.D_oe xe)) ∧
          (DiracStaggeredPC.M d xe = .ok p.x.Odd →
            ∃ xf, DiracStaggeredPC.reconstruct d { p.x with Even := xe } b
                .QUDA_MAT_SOLUTION = .ok xf ∧
              xf.Even = xe ∧
              (2 * d.mass) • xf.Even - d.D_eo xf.Odd = b.Even ∧
              -(d.D_oe xf.Even) + (2 * d.mass) • xf.Odd = b.Odd ∧
              DiracStaggered.M d xf = b)) ∧
    (d.matpcType = .QUDA_MATPC_ODD_ODD →
      ∃ p, DiracStaggeredPC.prepare d x b .QUDA_MAT_SOLUTION = .ok p ∧
        p.src = .xEven ∧ p.sol = .xOdd ∧
        p.x.Even = (2 * d.mass) • b.Odd + d.D_oe b.Even ∧
        ∀ xo : V,
          DiracStaggeredPC.M d xo = .ok ((4 * d.mass * d.mass) • xo - d.D_oe (d.D_eo xo)) ∧
          (DiracStaggeredPC.M d xo = .ok p.x.Even →
            ∃ xf, DiracStaggeredPC.reconstruct d { p.x with Odd := xo } b
                .QUDA_MAT_SOLUTION = .ok xf ∧
              xf.Odd = xo ∧
              (2 * d.mass) • xf.Even - d.D_eo xf.Odd = b.Even ∧
              -(d.D_oe xf.Even) + (2 * d.mass) • xf.Odd = b.Odd ∧
              DiracStaggered.M d xf = b)) := by
  have h2m : (2 : ℚ) * d.mass ≠ 0 := mul_ne_zero two_ne_zero hm
  constructor
  · intro hpc
    have hp : DiracStaggeredPC.prepare d x b .QUDA_MAT_SOLUTION =
        .ok { src := .xOdd, sol := .xEven
              x := { x with Odd := (-1 : ℚ) •
                d.DslashXpay b.Odd .QUDA_EVEN_PARITY b.Even (-2 * d.mass) } } := by
      simp [DiracStaggeredPC.prepare, hpc]
    refine ⟨_, hp, rfl, rfl, ?_, ?_⟩
    · simp only [DiracStaggered.DslashXpay_eq, DiracStaggered.hop]
      module
    · intro xe
      have hM : DiracStaggeredPC.M d xe =
          .ok ((4 * d.mass * d.mass) • xe - d.D_eo (d.D_oe xe)) := by
        simp [DiracStaggeredPC.M, hpc, DiracStaggered.DslashXpay_eq, DiracStaggered.hop,
          DiracStaggered.Dslash, ApplyStaggered]
      refine ⟨hM, ?_⟩
      intro hsolve
      rw [hM] at hsolve
      simp only [Except.ok.injEq, DiracStaggered.DslashXpay_eq, DiracStaggered.hop] at hsolve
      have hsrc : (4 * d.mass * d.mass) • xe - d.D_eo (d.D_oe xe) =
          (2 * d.mass) • b.Even + d.D_eo b.Odd := by
        rw [hsolve]; module
      have hE : (2 * d.mass) • xe -
          d.D_eo ((-(1 / 2 : ℚ) / d.mass) • ((-1 : ℚ) • b.Odd - d.D_oe xe)) = b.Even := by
        rw [map_smul, map_sub, map_smul]
        have := reconstruct_scale d.mass hm xe b.Even (d.D_eo b.Odd) (d.D_eo (d.D_oe xe)) hsrc
        rw [← this]
        congr 2
        module
      have hO : -(d.D_oe xe) +
          (2 * d.mass) • ((-(1 / 2 : ℚ) / d.mass) • ((-1 : ℚ) • b.Odd - d.D_oe xe)) = b.Odd := by
        rw [neg_add_eq_sub]
        exact reconstruct_row d.mass hm b.Odd (d.D_oe xe)
      have hr : DiracStaggeredPC.reconstruct d
          { Even := xe
            Odd := (-1 : ℚ) • d.DslashXpay b.Odd .QUDA_EVEN_PARITY b.Even (-2 * d.mass) }
          b .QUDA_MAT_SOLUTION =
          .ok { Even := xe
                Odd := (-(1 / 2 : ℚ) / d.mass) •
                  d.DslashXpay xe .QUDA_ODD_PARITY b.Odd (-1) } := by
        simp [DiracStaggeredPC.reconstruct, hpc]
      refine ⟨_, hr, rfl, ?_, ?_, ?_⟩
      · simpa [DiracStaggered.DslashXpay_eq, DiracStaggered.hop] using hE
      · simpa [DiracStaggered.DslashXpay_eq, DiracStaggered.hop] using hO
      · rw [neg_add_eq_sub] at hO
        obtain ⟨be, bo⟩ := b
        simp only [DiracStaggered.M, hm, if_false, ApplyStaggeredFull, ApplyStaggered, h2m,
          DiracStaggered.DslashXpay_eq, DiracStaggered.hop, Spinor.mk.injEq] at hE hO ⊢
        exact ⟨hE, hO⟩
  · intro hpc
    have hne : d.matpcType ≠ .QUDA_MATPC_EVEN_EVEN := by rw [hpc]; decide
    have hp : DiracStaggeredPC.prepare d x b .QUDA_MAT_SOLUTION =
        .ok { src := .xEven, sol := .xOdd
              x := { x with Even := (-1 : ℚ) •
                d.DslashXpay b.Even .QUDA_ODD_PARITY b.Odd (-2 * d.mass) } } := by
      simp [DiracStaggeredPC.prepare, hpc]
    refine ⟨_, hp, rfl, rfl, ?_, ?_⟩
    · simp only [DiracStaggered.DslashXpay_eq, DiracStaggered.hop]
      module
    · intro xo
      have hM : DiracStaggeredPC.M d xo =
          .ok ((4 * d.mass * d.mass) • xo - d.D_oe (d.D_eo xo)) := by
        simp [DiracStaggeredPC.M, hpc, DiracStaggered.DslashXpay_eq, DiracStaggered.hop,
          DiracStaggered.Dslash, ApplyStaggered]
      refine ⟨hM, ?_⟩
      intro hsolve
      rw [hM] at hsolve
      simp only [Except.ok.injEq, DiracStaggered.DslashXpay_eq, DiracStaggered.hop] at hsolve
      have hsrc : (4 * d.mass * d.mass) • xo - d.D_oe (d.D_eo xo) =
          (2 * d.mass) • b.Odd + d.D_oe b.Even := by
        rw [hsolve]; module
      have hO : (2 * d.mass) • xo -
          d.D_oe ((-(1 / 2 : ℚ) / d.mass) • ((-1 : ℚ) • b.Even - d.D_eo xo)) = b.Odd := by
        rw [map_smul, map_sub, map_smul]
        have := reconstruct_scale d.mass hm xo b.Odd (d.D_oe b.Even) (d.D_oe (d.D_eo xo)) hsrc
        rw [← this]
        congr 2
        module
      have hE : -(d.D_eo xo) +
          (2 * d.mass) • ((-(1 / 2 : ℚ) / d.mass) • ((-1 : ℚ) • b.Even - d.D_eo xo)) =
            b.Even := by
        rw [neg_add_eq_sub]
        exact reconstruct_row d.mass hm b.Even (d.D_eo xo)
      have hr : DiracStaggeredPC.reconstruct d
          { Even := (-1 : ℚ) • d.DslashXpay b.Even .QUDA_ODD_PARITY b.Odd (-2 * d.mass)
            Odd := xo }
          b .QUDA_MAT_SOLUTION =
          .ok { Even := (-(1 / 2 : ℚ) / d.mass) •
                  d.DslashXpay xo .QUDA_EVEN_PARITY b.Even (-1)
                Odd := xo } := by
        simp [DiracStaggeredPC.reconstruct, hpc]
      refine ⟨_, hr, rfl, ?_, ?_, ?_⟩
      · simp only [DiracStaggered.DslashXpay_eq, DiracStaggered.hop]
        rw [← neg_add_eq_sub]; exact hE
      · simp only [DiracStaggered.DslashXpay_eq, DiracStaggered.hop]
        rw [neg_add_eq_sub]; exact hO
      · rw [neg_add_eq_sub] at hE
        obtain ⟨be, bo⟩ := b
        simp only [DiracStaggered.M, hm, if_false, ApplyStaggeredFull, ApplyStaggered, h2m,
          DiracStaggered.DslashXpay_eq, DiracStaggered.hop, Spinor.mk.injEq] at hE hO ⊢
        exact ⟨hE, hO⟩

end Staggered

section StaggeredClaims

variable {V : Type} [AddCommGroup V] [Module ℚ V]

/-- C3 (witness): mass `1`, `D_eo = 3`, `b = (1, 2)`: `prepare` succeeds and
leaves the source `2*1*1 + 3*2 = 8` in `x.Odd()`. -/
theorem c3_prepare_reconstruct_solves_full_system_witness :
    ∃ p, DiracStaggeredPC.prepare (sampleStaggered .QUDA_MATPC_EVEN_EVEN)
        ({ Even := 0, Odd := 0 } : Spinor ℚ) { Even := 1, Odd := 2 } .QUDA_MAT_SOLUTION = .ok p ∧
      p.src = .xOdd ∧ p.sol = .xEven ∧ p.x.Odd = 8 := by
  obtain ⟨p, hp, h1, h2, h3, _⟩ :=
    (c3_prepare_reconstruct_solves_full_system (sampleStaggered .QUDA_MATPC_EVEN_EVEN)
      ({ Even := 0, Odd := 0 } : Spinor ℚ) { Even := 1, Odd := 2 }
      (by simp [sampleStaggered])).1 rfl
  refine ⟨p, hp, h1, h2, h3.trans ?_⟩
  simp [sampleStaggered]
  norm_num

/-- C18: `DiracStaggeredPC::MdagM` is fatal for every pair of fields and leaves
the output field as it was. -/
theorem c18_MdagM_always_fatal (d : DiracStaggered V) (out inp : V) :
    (∃ e, (DiracStaggeredPC.MdagM d out inp).1 = .error e) ∧
    (DiracStaggeredPC.MdagM d out inp).2 = out :=
  ⟨⟨_, rfl⟩, rfl⟩

/-- C19: `DiracStaggered::prepare` fails exactly for the solution types `MATPC`
and `MATPCDAG_MATPC` and otherwise returns `src = &b`, `sol = &x`;
`DiracStaggeredPC::prepare` returns `src = &b`, `sol = &x` for those two
solution types, and for any other solution type returns `sol` = the half of `x`
selected by `matpcType` (even for `EVEN_EVEN`, odd for `ODD_ODD`) and `src` = the
opposite half of `x`, any other `matpcType` being fatal.  In every successful
case `src` and `sol` designate different storage. -/
theorem c19_prepare_pointers (d : DiracStaggered V) (x b : Spinor V)
    (solType : QudaSolutionType) :
    ((∃ e, DiracStaggered.prepare d x b solType = .error e) ↔
      (solType = .QUDA_MATPC_SOLUTION ∨ solType = .QUDA_MATPCDAG_MATPC_SOLUTION)) ∧
    (¬ (solType = .QUDA_MATPC_SOLUTION ∨ solType = .QUDA_MATPCDAG_MATPC_SOLUTION) →
      ∃ p, DiracStaggered.prepare d x b solType = .ok p ∧ p.src = .b ∧ p.sol = .x) ∧
    ((solType = .QUDA_MATPC_SOLUTION ∨ solType = .QUDA_MATPCDAG_MATPC_SOLUTION) →
      ∃ p, DiracStaggeredPC.prepare d x b solType = .ok p ∧ p.src = .b ∧ p.sol = .x) ∧
    (¬ (solType = .QUDA_MATPC_SOLUTION ∨ solType = .QUDA_MATPCDAG_MATPC_SOLUTION) →
      (d.matpcType = .QUDA_MATPC_EVEN_EVEN →
        ∃ p, DiracStaggeredPC.prepare d x b solType = .ok p ∧
          p.sol = .xEven ∧ p.src = .xOdd) ∧
      (d.matpcType = .QUDA_MATPC_ODD_ODD →
        ∃ p, DiracStaggeredPC.prepare d x b solType = .ok p ∧
          p.sol = .xOdd ∧ p.src = .xEven) ∧
      (d.matpcType ≠ .QUDA_MATPC_EVEN_EVEN → d.matpcType ≠ .QUDA_MATPC_ODD_ODD →
        ∃ e, DiracStaggeredPC.prepare d x b solType = .error e)) ∧
    (∀ p, DiracStaggered.prepare d x b solType = .ok p → p.src ≠ p.sol) ∧
    (∀ p, DiracStaggeredPC.prepare d x b solType = .ok p → p.src ≠ p.sol) := by
  refine ⟨?_, ?_, ?_, ?_, ?_, ?_⟩
  · unfold DiracStaggered.prepare
    by_cases h : solType = .QUDA_MATPC_SOLUTION ∨ solType = .QUDA_MATPCDAG_MATPC_SOLUTION
    · simp [h]
    · simp [h]
  · intro h
    simp only [DiracStaggered.prepare, h, if_false]
    exact ⟨_, rfl, rfl, rfl⟩
  · intro h
    simp only [DiracStaggeredPC.prepare, h, if_true]
    exact ⟨_, rfl, rfl, rfl⟩
  · intro h
    refine ⟨?_, ?_, ?_⟩
    · intro hpc
      simp only [DiracStaggeredPC.prepare, h, hpc, if_false, if_true]
      exact ⟨_, rfl, rfl, rfl⟩
    · intro hpc
      have hne : d.matpcType ≠ .QUDA_MATPC_EVEN_EVEN := by rw [hpc]; decide
      simp only [DiracStaggeredPC.prepare, h, hpc, if_false, if_true]
      exact ⟨_, rfl, rfl, rfl⟩
    · intro h1 h2
      simp only [DiracStaggeredPC.prepare, h, h1, h2, if_false]
      exact ⟨_, rfl⟩
  · intro p hp
    unfold DiracStaggered.prepare at hp
    split_ifs at hp
    simp only [Except.ok.injEq] at hp
    subst hp
    simp
  · intro p hp
    unfold DiracStaggeredPC.prepare at hp
    split_ifs at hp <;> simp only [Except.ok.injEq] at hp <;> subst hp <;> simp

/-- C19 (witness): the even-even operator asked for a full solution. -/
theorem c19_prepare_pointers_witness :
    ∃ p, DiracStaggeredPC.prepare (sampleStaggered .QUDA_MATPC_EVEN_EVEN)
        ({ Even := 0, Odd := 0 } : Spinor ℚ) { Even := 1, Odd := 2 } .QUDA_MAT_SOLUTION = .ok p ∧
      p.sol = .xEven ∧ p.src = .xOdd :=
  ((c19_prepare_pointers (sampleStaggered .QUDA_MATPC_EVEN_EVEN)
      ({ Even := 0, Odd := 0 } : Spinor ℚ) { Even := 1, Odd := 2 } .QUDA_MAT_SOLUTION).2.2.2.1
    (by decide)).1 rfl

end StaggeredClaims

/-! ### Spinor packing -/

/-- C26 (the code at the failing input): one site per parity, one spin, one
colour, source `[1, 2 | 3, 4]`.  In `EVEN_ODD` order the even block `[1, 2]`
reaches the first half of `dest` but the odd block `[3, 4]` never reaches the
second half; in `ODD_EVEN` order the block copied to the first half is again
`[1, 2]`, which is then the odd block.  Both calls of `packParitySpinor` go
through accessors built on `src` and `dest` themselves. -/
theorem c26_parity_offsets_ignored :
    packSpinor (0 : ℤ) 0 1 1 2 [0, 0, 0, 0] [1, 2, 3, 4] 1 0 4 4 .QUDA_FULL_SITE_SUBSET
        .QUDA_EVEN_ODD_SITE_ORDER .QUDA_DEGRAND_ROSSI_GAMMA_BASIS
        .QUDA_DEGRAND_ROSSI_GAMMA_BASIS .QUDA_SPACE_SPIN_COLOR_FIELD_ORDER = .ok [1, 2, 0, 0] ∧
    packSpinor (0 : ℤ) 0 1 1 2 [0, 0, 0, 0] [1, 2, 3, 4] 1 0 4 4 .QUDA_FULL_SITE_SUBSET
        .QUDA_ODD_EVEN_SITE_ORDER .QUDA_DEGRAND_ROSSI_GAMMA_BASIS
        .QUDA_DEGRAND_ROSSI_GAMMA_BASIS .QUDA_SPACE_SPIN_COLOR_FIELD_ORDER = .ok [1, 2, 0, 0] := by
  refine ⟨by rfl, by rfl⟩

section Basis

variable {K : Type} [CommRing K]

/-- C27: with `kP = kU` and `2*kP*kP = 1` (that is `kP = kU = 1/sqrt(2)` in exact
arithmetic), for every site, colour and real/imaginary component and each of the
four spin components, `RelBasis` applied to the result of `NonRelBasis` gives
back the input, and so does `NonRelBasis` applied to the result of `RelBasis`. -/
theorem c27_basis_changes_inverse (kP kU : K) (hP : 2 * (kP * kP) = 1) (hU : kU = kP)
    (inp : Nat → Nat → Nat → Nat → K) (x s c z : Nat) (hs : s < 4) :
    RelBasis.value kU (NonRelBasis.value kP inp) x s c z = inp x s c z ∧
    NonRelBasis.value kP (RelBasis.value kU inp) x s c z = inp x s c z := by
  subst hU
  interval_cases s
  · simp only [RelBasis.value, NonRelBasis.value, List.getD_cons_zero, List.getD_cons_succ]
    constructor <;> linear_combination (inp x 0 c z) * hP
  · simp only [RelBasis.value, NonRelBasis.value, List.getD_cons_zero, List.getD_cons_succ]
    constructor <;> linear_combination (inp x 1 c z) * hP
  · simp only [RelBasis.value, NonRelBasis.value, List.getD_cons_zero, List.getD_cons_succ]
    constructor <;> linear_combination (inp x 2 c z) * hP
  · simp only [RelBasis.value, NonRelBasis.value, List.getD_cons_zero, List.getD_cons_succ]
    constructor <;> linear_combination (inp x 3 c z) * hP

/-- C28: with `2*kP*kP = 1` and `2*kU*kU = 1` (the `PRESERVE_SPINOR_NORM` values
`1/sqrt(2)` in exact arithmetic) the sum of squares of all spin-colour
components of a site is the same before and after `NonRelBasis`, and likewise
for `RelBasis`. -/
theorem c28_basis_change_preserves_norm (kP kU : K) (hP : 2 * (kP * kP) = 1)
    (hU : 2 * (kU * kU) = 1) (inp : Nat → Nat → Nat → Nat → K) (x Nc : Nat) :
    (∑ s ∈ Finset.range 4, ∑ c ∈ Finset.range Nc, ∑ z ∈ Finset.range 2,
        (NonRelBasis.value kP inp x s c z) ^ 2 =
      ∑ s ∈ Finset.range 4, ∑ c ∈ Finset.range Nc, ∑ z ∈ Finset.range 2,
        (inp x s c z) ^ 2) ∧
    (∑ s ∈ Finset.range 4, ∑ c ∈ Finset.range Nc, ∑ z ∈ Finset.range 2,
        (RelBasis.value kU inp x s c z) ^ 2 =
      ∑ s ∈ Finset.range 4, ∑ c ∈ Finset.range Nc, ∑ z ∈ Finset.range 2,
        (inp x s c z) ^ 2) := by
  constructor
  · simp only [Finset.sum_range_succ (n := 3), Finset.sum_range_succ (n := 2),
      Finset.sum_range_succ (n := 1), Finset.sum_range_succ (n := 0), Finset.sum_range_zero,
      zero_add, ← Finset.sum_add_distrib]
    refine Finset.sum_congr rfl fun c _ => ?_
    simp only [NonRelBasis.value, List.getD_cons_zero, List.getD_cons_succ]
    linear_combination
      ((inp x 0 c 0) ^ 2 + (inp x 1 c 0) ^ 2 + (inp x 2 c 0) ^ 2 + (inp x 3 c 0) ^ 2 +
        (inp x 0 c 1) ^ 2 + (inp x 1 c 1) ^ 2 + (inp x 2 c 1) ^ 2 + (inp x 3 c 1) ^ 2) * hP
  · simp only [Finset.sum_range_succ (n := 3), Finset.sum_range_succ (n := 2),
      Finset.sum_range_succ (n := 1), Finset.sum_range_succ (n := 0), Finset.sum_range_zero,
      zero_add, ← Finset.sum_add_distrib]
    refine Finset.sum_congr rfl fun c _ => ?_
    simp only [RelBasis.value, List.getD_cons_zero, List.getD_cons_succ]
    linear_combination
      ((inp x 0 c 0) ^ 2 + (inp x 1 c 0) ^ 2 + (inp x 2 c 0) ^ 2 + (inp x 3 c 0) ^ 2 +
        (inp x 0 c 1) ^ 2 + (inp x 1 c 1) ^ 2 + (inp x 2 c 1) ^ 2 + (inp x 3 c 1) ^ 2) * hU

end Basis

/-- The real number `1/sqrt(2)` satisfies `2*k*k = 1`. -/
theorem two_mul_inv_sqrt_two_sq : 2 * ((1 / Real.sqrt 2) * (1 / Real.sqrt 2)) = 1 := by
  rw [div_mul_div_comm, Real.mul_self_sqrt (by norm_num)]
  norm_num

/-- C27 (witness): over the reals with `kP = kU = 1/sqrt(2)`, spin component 1
of the field whose spin component `s` is `s`. -/
theorem c27_basis_changes_inverse_witness :
    RelBasis.value (1 / Real.sqrt 2)
        (NonRelBasis.value (1 / Real.sqrt 2) fun _ s _ _ => (s : ℝ)) 0 1 0 0 = ((1 : ℕ) : ℝ) :=
  (c27_basis_changes_inverse (1 / Real.sqrt 2) (1 / Real.sqrt 2) two_mul_inv_sqrt_two_sq rfl
    (fun _ s _ _ => (s : ℝ)) 0 1 0 0 (by decide)).1

/-- C28 (witness): over the reals with `kP = kU = 1/sqrt(2)` and three
colours. -/
theorem c28_basis_change_preserves_norm_witness :
    ∑ s ∈ Finset.range 4, ∑ c ∈ Finset.range 3, ∑ z ∈ Finset.range 2,
        (NonRelBasis.value (1 / Real.sqrt 2) (fun _ s c z => ((s + c + z : ℕ) : ℝ)) 0 s c z) ^ 2 =
      ∑ s ∈ Finset.range 4, ∑ c ∈ Finset.range 3, ∑ z ∈ Finset.range 2,
        (((s + c + z : ℕ) : ℝ)) ^ 2 :=
  (c28_basis_change_preserves_norm (1 / Real.sqrt 2) (1 / Real.sqrt 2) two_mul_inv_sqrt_two_sq
    two_mul_inv_sqrt_two_sq (fun _ s c z => ((s + c + z : ℕ) : ℝ)) 0 3).1

/-! ### The multigrid engine -/

@[simp] theorem MG.state_setState (mg : MG) (s : LevelState) : (mg.setState s).state = s := by
  cases mg <;> rfl

@[simp] theorem MG.coarse_setState (mg : MG) (s : LevelState) :
    (mg.setState s).coarse = mg.coarse := by
  cases mg <;> rfl

@[simp] theorem MG.setState_setState (mg : MG) (s s' : LevelState) :
    (mg.setState s).setState s' = mg.setState s' := by
  cases mg <;> rfl

@[simp] theorem MG.setState_state (mg : MG) : mg.setState mg.state = mg := by
  cases mg <;> rfl

/-! #### Running member functions -/

theorem M.bind_ok {σ α β : Type} {m : M σ α} {f : α → M σ β} {s s1 : σ} {a : α}
    (h : m s = ⟨.ok a, s1⟩) : (m >>= f) s = f a s1 := by
  show (match m s with
    | ⟨.ok a, s1⟩ => f a s1
    | ⟨.error e, s1⟩ => ⟨.error e, s1⟩) = _
  rw [h]

theorem M.bind_error {σ α β : Type} {m : M σ α} {f : α → M σ β} {s s1 : σ} {e : Fatal}
    (h : m s = ⟨.error e, s1⟩) : (m >>= f) s = ⟨.error e, s1⟩ := by
  show (match m s with
    | ⟨.ok a, s1⟩ => f a s1
    | ⟨.error e, s1⟩ => ⟨.error e, s1⟩) = _
  rw [h]

@[simp] theorem M.pure_run {σ α : Type} (a : α) (s : σ) : (pure a : M σ α) s = ⟨.ok a, s⟩ := rfl

@[simp] theorem getS_run (st : St) : getS st = ⟨.ok st.mg.state, st⟩ := rfl

@[simp] theorem getW_run (st : St) : getW st = ⟨.ok st.w, st⟩ := rfl

@[simp] theorem getCoarse_run (st : St) : getCoarse st = ⟨.ok (st.mg.coarse.map MG.state), st⟩ :=
  rfl

@[simp] theorem modifyS_run (f : LevelState → LevelState) (st : St) :
    modifyS f st = ⟨.ok (), ⟨st.mg.setState (f st.mg.state), st.w⟩⟩ := rfl

@[simp] theorem modifyW_run (f : World → World) (st : St) :
    modifyW f st = ⟨.ok (), ⟨st.mg, f st.w⟩⟩ := rfl

@[simp] theorem logCall_run (c : Call) (st : St) :
    logCall c st =
      ⟨.ok (), ⟨st.mg.setState { st.mg.state with calls := st.mg.state.calls ++ [c] }, st.w⟩⟩ :=
  rfl

@[simp] theorem logObj_run (e : ObjEvent) (st : St) :
    logObj e st = ⟨.ok (), ⟨st.mg, { st.w with objects := st.w.objects ++ [e] }⟩⟩ := rfl

@[simp] theorem fresh_run (st : St) :
    fresh st = ⟨.ok st.w.nextId, ⟨st.mg, { st.w with nextId := st.w.nextId + 1 }⟩⟩ := rfl

@[simp] theorem errorQuda_run {α : Type} (msg : String) (st : St) :
    (errorQuda msg : MGM α) st = ⟨.error (.errorQuda msg), st⟩ := rfl

@[simp] theorem liftExcept_run (e : Except Fatal Unit) (st : St) : liftExcept e st = ⟨e, st⟩ :=
  rfl

/-- Running `m >>= f`: the continuation runs on the state `m` reached, unless
`m` aborted. -/
theorem M.bind_run {σ α β : Type} (m : M σ α) (f : α → M σ β) (s : σ) :
    (m >>= f) s =
      match (m s).out with
      | .ok a => f a (m s).st
      | .error e => ⟨.error e, (m s).st⟩ := by
  show (match m s with
    | ⟨.ok a, s1⟩ => f a s1
    | ⟨.error e, s1⟩ => ⟨.error e, s1⟩) = _
  rcases m s with ⟨_ | _, _⟩ <;> rfl

/-! #### `verify` -/

/-- The null-vector loop of `verify` passes when every deviation is within the
tolerance. -/
theorem MG.verifyNullVectors_ok (tol : ℚ) (l : List ℚ) (h : ∀ dev ∈ l, dev ≤ tol) :
    MG.verifyNullVectors tol l = .ok () := by
  induction l with
  | nil => rfl
  | cons a l ih =>
    have ha : ¬ a > tol := not_lt.mpr (h a (List.mem_cons_self _ _))
    simp only [MG.verifyNullVectors, ha, if_false]
    exact ih fun dev hd => h dev (List.mem_cons_of_mem _ hd)

/-- C4 (the code at the failing inputs): when every deviation `verify` measures
is within the tolerance, `verify` still aborts, with "Done for now!": it never
returns to `reset`. -/
theorem c4_verify_aborts_within_tolerance (codes : PrecisionCodes) (param : MGParam)
    (precision_null : QudaPrecision) (d : VerifyData)
    (hnull : ∀ dev ∈ d.nullVector, dev ≤ MG.verifyTol codes precision_null d.fieldPrecision)
    (h1 : d.coarseIdentity ≤ MG.verifyTol codes precision_null d.fieldPrecision)
    (h2 : d.unitarity ≤ MG.verifyTol codes precision_null d.fieldPrecision)
    (h3 : d.coarseOperator ≤ MG.verifyTol codes precision_null d.fieldPrecision)
    (h4 : d.smootherNormal ≤ MG.verifyTol codes precision_null d.fieldPrecision)
    (h5 : d.residualNormal ≤ MG.verifyTol codes precision_null d.fieldPrecision) :
    MG.verify codes param precision_null d = .error (.errorQuda "Done for now!") := by
  have e1 := not_lt.mpr h1
  have e2 := not_lt.mpr h2
  have e3 := not_lt.mpr h3
  have e4 := not_lt.mpr h4
  have e5 := not_lt.mpr h5
  unfold MG.verify
  simp only [MG.verifyNullVectors_ok _ _ hnull, gt_iff_lt, e1, e2, e3, e4, e5, if_false]
  by_cases hpc : param.coarse_grid_solution_type = .QUDA_MATPC_SOLUTION ∧
      param.smoother_solve_type = .QUDA_DIRECT_PC_SOLVE
  · simp only [hpc, and_self, if_true]; rfl
  · simp only [hpc, if_false]; rfl

/-- The tolerance of the sample measurements is `5e-3`. -/
theorem sample_verifyTol :
    MG.verifyTol (sampleEnv sampleMultigridParam).codes 2 sampleVerifyData.fieldPrecision =
      5 / 1000 := by
  simp [MG.verifyTol, sampleEnv, sampleVerifyData]

/-- C4 (witness): with all deviations zero `verify` aborts with
"Done for now!". -/
theorem c4_verify_aborts_within_tolerance_witness :
    MG.verify (sampleEnv sampleMultigridParam).codes (sampleMGParam 2) 2 sampleVerifyData =
      .error (.errorQuda "Done for now!") :=
  c4_verify_aborts_within_tolerance _ _ _ _
    (by rw [sample_verifyTol]; simp [sampleVerifyData]; norm_num)
    (by rw [sample_verifyTol]; simp [sampleVerifyData]; norm_num)
    (by rw [sample_verifyTol]; simp [sampleVerifyData]; norm_num)
    (by rw [sample_verifyTol]; simp [sampleVerifyData]; norm_num)
    (by rw [sample_verifyTol]; simp [sampleVerifyData]; norm_num)
    (by rw [sample_verifyTol]; simp [sampleVerifyData]; norm_num)

/-! #### Construction checks -/

/-- C5: constructing a level whose coarse-grid solution type is `MATPC` while its
smoother solve type is not `DIRECT_PC` is fatal (whatever the fuel beyond the
first unit), and the check of lines 36-37 rejects no parameter set whose smoother
solve type is `DIRECT_PC` or whose coarse-grid solution type is the full type. -/
theorem c5_parity_check (n : Nat) (env : Env) (param : MGParam) (w : World) :
    (param.coarse_grid_solution_type = .QUDA_MATPC_SOLUTION →
      param.smoother_solve_type ≠ .QUDA_DIRECT_PC_SOLVE →
      ∃ msg, (MG.ctor (n + 1) env param w).out = .error (.errorQuda msg)) ∧
    (param.smoother_solve_type = .QUDA_DIRECT_PC_SOLVE ∨
      param.coarse_grid_solution_type = .QUDA_MAT_SOLUTION →
      MG.parityCheck param = .ok ()) := by
  constructor
  · intro h1 h2
    have hp : MG.parityCheck param = .error (.errorQuda
        "Cannot use preconditioned coarse grid solution without preconditioned smoother solve") := by
      simp [MG.parityCheck, h1, h2]
    rw [MG.ctor]
    by_cases hl : param.level ≥ env.QUDA_MAX_MG_LEVEL
    · simp only [M.bind_run, logObj_run, hl, if_true, errorQuda_run]
      exact ⟨_, rfl⟩
    · simp only [M.bind_run, logObj_run, hl, if_false, M.pure_run, liftExcept_run, hp]
      exact ⟨_, rfl⟩
  · intro h
    rcases h with h | h
    · simp [MG.parityCheck, h]
    · simp [MG.parityCheck, h]

/-- C5 (witness): a fine level asking for a preconditioned coarse-grid solution
with a direct (unpreconditioned) smoother solve. -/
theorem c5_parity_check_witness :
    ∃ msg, (MG.ctor 1 (sampleEnv sampleMultigridParam)
      { sampleMGParam 2 with coarse_grid_solution_type := .QUDA_MATPC_SOLUTION }
      sampleWorld).out = .error (.errorQuda msg) :=
  (c5_parity_check 0 (sampleEnv sampleMultigridParam)
    { sampleMGParam 2 with coarse_grid_solution_type := .QUDA_MATPC_SOLUTION }
    sampleWorld).1 rfl (by decide)

/-! #### `createCoarseSolver` -/

theorem deleteSolver_run (level : Int) (o : Option SolverObj) (st : St) :
    deleteSolver level o st =
      ⟨.ok (), ⟨st.mg, { st.w with objects := st.w.objects ++ releaseSolver level o }⟩⟩ := by
  cases o <;> simp [deleteSolver, releaseSolver]

theorem createSolverIf_run (level : Int) (cond : Bool) (t : QudaInverterType) (st : St) :
    createSolverIf level cond t st =
      if cond then
        ⟨.ok (some ⟨st.w.nextId, t⟩), ⟨st.mg, { st.w with
          nextId := st.w.nextId + 1
          objects := st.w.objects ++ [.new .Solver st.w.nextId level] }⟩⟩
      else ⟨.ok none, st⟩ := by
  cases cond <;> simp [createSolverIf, M.bind_run]

theorem MG.releaseCoarseSolver_run (level : Int) (c : Option LevelState)
    (ref : Option CoarseSolverRef) (st : St) :
    MG.releaseCoarseSolver level c ref st =
      ⟨.ok (), ⟨st.mg, { st.w with
        objects := st.w.objects ++ MG.releasedCoarseSolver level c ref }⟩⟩ := by
  rcases ref with _ | _ | _ <;> rcases c with _ | _ <;>
    simp [MG.releaseCoarseSolver, MG.releasedCoarseSolver]

theorem MG.usePreconditioner_run (param : MGParam) (cs : LevelState) (st : St) :
    MG.usePreconditioner param (some cs) st =
      ⟨.ok (decide (param.level < param.Nlevel - 2) || cs.presmoother.isSome), st⟩ := by
  unfold MG.usePreconditioner
  by_cases h : param.level < param.Nlevel - 2 <;> simp [h]

/-- The V-cycle branch of `createCoarseSolver`: `coarse_solver = coarse`. -/
theorem MG.createCoarseSolver_alias (env : Env) (st : St)
    (h : st.mg.state.param.cycle_type = .QUDA_MG_CYCLE_VCYCLE ∧
      st.mg.state.param.level < st.mg.state.param.Nlevel - 2) :
    MG.createCoarseSolver env st =
      ⟨.ok (), ⟨st.mg.setState { st.mg.state with
          coarse_solver := some .coarseMG
          calls := st.mg.state.calls ++ [.createCoarseSolver] }, st.w⟩⟩ := by
  obtain ⟨mg, w⟩ := st
  simp only [] at h
  simp only [MG.createCoarseSolver, M.bind_run, logCall_run, getS_run, MG.state_setState, h,
    and_self, if_true, modifyS_run, MG.setState_setState]

/-- The branch of `createCoarseSolver` that creates a `PreconditionedSolver`,
on a level whose coarse level exists. -/
theorem MG.createCoarseSolver_wrapper (env : Env) (st : St) (cs : LevelState)
    (hc : st.mg.coarse.map MG.state = some cs)
    (h1 : ¬ (st.mg.state.param.cycle_type = .QUDA_MG_CYCLE_VCYCLE ∧
      st.mg.state.param.level < st.mg.state.param.Nlevel - 2))
    (h2 : st.mg.state.param.cycle_type = .QUDA_MG_CYCLE_RECURSIVE ∨
      st.mg.state.param.level = st.mg.state.param.Nlevel - 2) :
    MG.createCoarseSolver env st =
      ⟨.ok (), ⟨st.mg.setState { st.mg.state with
          coarse_solver := some (.wrapper (st.w.nextId + 1))
          param_coarse_solver := some (MG.coarseSolverParam env.mg_global st.mg.state.param
            (decide (st.mg.state.param.level < st.mg.state.param.Nlevel - 2) ||
              cs.presmoother.isSome) (some cs.id))
          calls := st.mg.state.calls ++ [.createCoarseSolver] },
        { st.w with
          nextId := st.w.nextId + 2
          objects := st.w.objects ++
            MG.releasedCoarseSolver st.mg.state.param.level (some cs) st.mg.state.coarse_solver ++
            [.new .Solver st.w.nextId st.mg.state.param.level,
             .new .PreconditionedSolver (st.w.nextId + 1) st.mg.state.param.level] }⟩⟩ := by
  obtain ⟨mg, w⟩ := st
  simp only [] at h1 h2 hc
  simp only [MG.createCoarseSolver, MG.createWrapper, M.bind_run, logCall_run, getS_run,
    MG.state_setState, h1, h2, if_false, if_true, modifyS_run, MG.setState_setState,
    getCoarse_run, MG.coarse_setState, hc, MG.releaseCoarseSolver_run, MG.usePreconditioner_run,
    fresh_run, logObj_run, Option.map_some', List.append_assoc, List.cons_append,
    List.nil_append]

/-- Every other cycle type is fatal on a level that is not the second-coarsest. -/
theorem MG.createCoarseSolver_unsupported (env : Env) (st : St)
    (hV : st.mg.state.param.cycle_type ≠ .QUDA_MG_CYCLE_VCYCLE)
    (hR : st.mg.state.param.cycle_type ≠ .QUDA_MG_CYCLE_RECURSIVE)
    (hl : st.mg.state.param.level ≠ st.mg.state.param.Nlevel - 2) :
    (MG.createCoarseSolver env st).out =
      .error (.errorQuda "Multigrid cycle type not supported") := by
  obtain ⟨mg, w⟩ := st
  simp only [] at hV hR hl
  simp only [MG.createCoarseSolver, M.bind_run, logCall_run, getS_run, MG.state_setState, hV,
    hR, hl, false_and, or_self, if_false, errorQuda_run]

/-- On level `Nlevel-2`, whatever the cycle type, `createCoarseSolver` succeeds
when the coarse level exists, and `coarse_solver` becomes a fresh wrapper. -/
theorem MG.createCoarseSolver_second_coarsest (env : Env) (st : St)
    (hl : st.mg.state.param.level = st.mg.state.param.Nlevel - 2)
    (hc : st.mg.coarse.isSome = true) :
    (MG.createCoarseSolver env st).out = .ok () ∧
    (MG.createCoarseSolver env st).st.mg.state.coarse_solver =
      some (.wrapper (st.w.nextId + 1)) := by
  obtain ⟨c, hc'⟩ := Option.isSome_iff_exists.mp hc
  have hcs : st.mg.coarse.map MG.state = some c.state := by rw [hc']; rfl
  rw [MG.createCoarseSolver_wrapper env st c.state hcs (fun h => by omega) (Or.inr hl)]
  simp

/-- C7 (counterexample): on level `0` of a two-level hierarchy (`0 = Nlevel-2`)
with a cycle type that is neither the V-cycle nor the recursive cycle,
`createCoarseSolver` succeeds. -/
theorem c7_counterexample :
    (sampleTwoLevel .OTHER .QUDA_MR_INVERTER none).mg.state.param.level =
      (sampleTwoLevel .OTHER .QUDA_MR_INVERTER none).mg.state.param.Nlevel - 2 ∧
    (MG.createCoarseSolver (sampleEnv sampleMultigridParam)
      (sampleTwoLevel .OTHER .QUDA_MR_INVERTER none)).out = .ok () :=
  ⟨by decide,
   (MG.createCoarseSolver_second_coarsest (sampleEnv sampleMultigridParam)
     (sampleTwoLevel .OTHER .QUDA_MR_INVERTER none) (by decide) rfl).1⟩

/-- C7 (amended): for a cycle type that is neither the V-cycle nor the recursive
cycle, `createCoarseSolver` is fatal on every level below `Nlevel-2`, and on
level `Nlevel-2` (whose coarse level exists) it succeeds and creates the
`PreconditionedSolver` wrapper. -/
theorem c7_cycle_type_check (env : Env) (st : St)
    (hV : st.mg.state.param.cycle_type ≠ .QUDA_MG_CYCLE_VCYCLE)
    (hR : st.mg.state.param.cycle_type ≠ .QUDA_MG_CYCLE_RECURSIVE) :
    (st.mg.state.param.level < st.mg.state.param.Nlevel - 2 →
      (MG.createCoarseSolver env st).out =
        .error (.errorQuda "Multigrid cycle type not supported")) ∧
    (st.mg.state.param.level = st.mg.state.param.Nlevel - 2 → st.mg.coarse.isSome = true →
      (MG.createCoarseSolver env st).out = .ok () ∧
      (MG.createCoarseSolver env st).st.mg.state.coarse_solver =
        some (.wrapper (st.w.nextId + 1))) := by
  constructor
  · intro hl
    exact MG.createCoarseSolver_unsupported env st hV hR (by omega)
  · intro hl hc
    exact MG.createCoarseSolver_second_coarsest env st hl hc

/-- C7 (witness): cycle type `OTHER` on level `0` of a two-level hierarchy. -/
theorem c7_cycle_type_check_witness :
    (MG.createCoarseSolver (sampleEnv sampleMultigridParam)
      (sampleTwoLevel .OTHER .QUDA_MR_INVERTER none)).st.mg.state.coarse_solver =
        some (.wrapper 3) :=
  ((c7_cycle_type_check (sampleEnv sampleMultigridParam)
    (sampleTwoLevel .OTHER .QUDA_MR_INVERTER none) (by decide) (by decide)).2
      (by decide) rfl).2

/-! #### `createSmoother` and the destructor -/

@[simp] theorem MG.presmoothParam_inv_type (g : QudaMultigridParam) (param : MGParam)
    (ip : QudaInvertParam) : (MG.presmoothParam g param ip).inv_type = param.smoother := rfl

@[simp] theorem MG.postsmoothParam_inv_type (param : MGParam) (p : SolverParam) :
    (MG.postsmoothParam param p).inv_type = p.inv_type := rfl

@[simp] theorem MG.postsmoothParam_use_init_guess (param : MGParam) (p : SolverParam) :
    (MG.postsmoothParam param p).use_init_guess = .QUDA_USE_INIT_GUESS_YES := rfl

/-- C22 (the code at the failing inputs): on a non-coarsest level configured
with the CGNE smoother, `createSmoother` creates the pre-smoother with CGNE and
the post-smoother (the one with `use_init_guess = YES`) with CGNE as well; the
replacement by MR is written into `*param_presmooth`, after the pre-smoother has
been created, and not into `*param_postsmooth`. -/
theorem c22_cgne_postsmoother (env : Env) (st : St)
    (hl : st.mg.state.param.level < st.mg.state.param.Nlevel - 1)
    (hs : st.mg.state.param.smoother = .QUDA_CGNE_INVERTER) :
    (MG.createSmoother env st).out = .ok () ∧
    (MG.createSmoother env st).st.mg.state.presmoother.map (·.inv_type) =
      some .QUDA_CGNE_INVERTER ∧
    (MG.createSmoother env st).st.mg.state.postsmoother.map (·.inv_type) =
      some .QUDA_CGNE_INVERTER ∧
    (MG.createSmoother env st).st.mg.state.param_presmooth.map (·.inv_type) =
      some .QUDA_MR_INVERTER ∧
    (MG.createSmoother env st).st.mg.state.param_postsmooth.map
      (fun p => (p.inv_type, p.use_init_guess)) =
      some (.QUDA_CGNE_INVERTER, .QUDA_USE_INIT_GUESS_YES) := by
  obtain ⟨mg, w⟩ := st
  simp only [] at hl hs
  simp only [MG.createSmoother, M.bind_run, logCall_run, getS_run, getW_run, MG.state_setState,
    deleteSolver_run, modifyS_run, MG.setState_setState, createSolverIf_run,
    MG.presmoothParam_inv_type, MG.postsmoothParam_inv_type, hl, hs, true_or, true_and,
    ne_eq, reduceCtorEq, not_false_eq_true, decide_True, if_true, Option.map_some',
    MG.postsmoothParam_use_init_guess, and_self]

/-- C22 (witness): level `0` of a two-level hierarchy with the CGNE smoother. -/
theorem c22_cgne_postsmoother_witness :
    (MG.createSmoother (sampleEnv sampleMultigridParam)
      (sampleTwoLevel .QUDA_MG_CYCLE_VCYCLE .QUDA_CGNE_INVERTER
        none)).st.mg.state.postsmoother.map (·.inv_type) = some .QUDA_CGNE_INVERTER :=
  (c22_cgne_postsmoother (sampleEnv sampleMultigridParam)
    (sampleTwoLevel .QUDA_MG_CYCLE_VCYCLE .QUDA_CGNE_INVERTER none) (by decide) rfl).2.2.1

/-- C21 (the code at the failing input): V-cycle, two levels.  On level
`0 = Nlevel-2`, `createCoarseSolver` allocates the wrapper with identity `3`;
the destructor of that level releases the coarse level (identity `1`) but never
the wrapper: its test reads `param.level == param.Nlevel-1`, which is false
inside `if (param.level < param.Nlevel-1)`. -/
theorem c21_wrapper_leaked :
    (MG.createCoarseSolver (sampleEnv sampleMultigridParam)
      (sampleTwoLevel .QUDA_MG_CYCLE_VCYCLE .QUDA_MR_INVERTER none)).st.mg.state.coarse_solver =
        some (.wrapper 3) ∧
    ObjEvent.new .PreconditionedSolver 3 0 ∈
      (MG.createCoarseSolver (sampleEnv sampleMultigridParam)
        (sampleTwoLevel .QUDA_MG_CYCLE_VCYCLE .QUDA_MR_INVERTER none)).st.w.objects ∧
    (MG.createCoarseSolver (sampleEnv sampleMultigridParam)
      (sampleTwoLevel .QUDA_MG_CYCLE_VCYCLE .QUDA_MR_INVERTER none)).st.mg.dtor =
        [.delete .MG 1 0] := by
  rw [MG.createCoarseSolver_wrapper (sampleEnv sampleMultigridParam)
    (sampleTwoLevel .QUDA_MG_CYCLE_VCYCLE .QUDA_MR_INVERTER none)
    ({ LevelState.init 1 { sampleMGParam 2 with level := 1, fine := some 0 } with
        presmoother := none }) rfl (by decide) (by decide)]
  refine ⟨by rfl, by decide, by rfl⟩

/-! #### Frame rules -/

theorem Keeps.pure {α β : Type} (φ : St → β) (a : α) : Keeps φ (pure a : MGM α) := fun _ => rfl

theorem Keeps.bind {α γ β : Type} {φ : St → β} {m : MGM α} {f : α → MGM γ}
    (hm : Keeps φ m) (hf : ∀ a, Keeps φ (f a)) : Keeps φ (m >>= f) := by
  intro st
  rw [M.bind_run]
  cases h : (m st).out with
  | ok a => simp only [h]; rw [hf a, hm]
  | error e => simp only [h]; rw [hm]

theorem Keeps.ite {α β : Type} {φ : St → β} {c : Prop} [Decidable c] {m1 m2 : MGM α}
    (h1 : Keeps φ m1) (h2 : Keeps φ m2) : Keeps φ (if c then m1 else m2) := by
  split
  · exact h1
  · exact h2

theorem Keeps.modifyS {β : Type} {φ : St → β} (f : LevelState → LevelState)
    (h : ∀ mg w, φ ⟨MG.setState mg (f mg.state), w⟩ = φ ⟨mg, w⟩) : Keeps φ (modifyS f) :=
  fun st => h st.mg st.w

theorem Keeps.logCall {β : Type} {φ : St → β} (c : Call)
    (h : ∀ mg w, φ ⟨MG.setState mg { mg.state with calls := mg.state.calls ++ [c] }, w⟩ =
      φ ⟨mg, w⟩) : Keeps φ (logCall c) :=
  fun st => h st.mg st.w

theorem Keeps.modifyW {β : Type} {φ : St → β} (f : World → World)
    (h : ∀ mg w, φ ⟨mg, f w⟩ = φ ⟨mg, w⟩) : Keeps φ (modifyW f) :=
  fun st => h st.mg st.w

theorem Keeps.logObj {β : Type} {φ : St → β} (e : ObjEvent)
    (h : ∀ mg w, φ ⟨mg, { w with objects := w.objects ++ [e] }⟩ = φ ⟨mg, w⟩) :
    Keeps φ (logObj e) :=
  fun st => h st.mg st.w

theorem Keeps.fresh {β : Type} {φ : St → β}
    (h : ∀ mg w, φ ⟨mg, { w with nextId := w.nextId + 1 }⟩ = φ ⟨mg, w⟩) : Keeps φ fresh :=
  fun st => h st.mg st.w

theorem Keeps.getS {β : Type} (φ : St → β) : Keeps φ getS := fun _ => rfl

theorem Keeps.getW {β : Type} (φ : St → β) : Keeps φ getW := fun _ => rfl

theorem Keeps.getCoarse {β : Type} (φ : St → β) : Keeps φ getCoarse := fun _ => rfl

theorem Keeps.errorQuda {α β : Type} (φ : St → β) (msg : String) :
    Keeps φ (errorQuda msg : MGM α) := fun _ => rfl

theorem Keeps.liftExcept {β : Type} (φ : St → β) (e : Except Fatal Unit) :
    Keeps φ (liftExcept e) := fun _ => rfl

theorem Keeps.abort {α β : Type} (φ : St → β) (e : Fatal) :
    Keeps φ (fun st => ⟨.error e, st⟩ : MGM α) := fun _ => rfl

theorem Keeps.forLoop {β : Type} {φ : St → β} (n : Nat) (body : Nat → MGM Unit)
    (h : ∀ i, Keeps φ (body i)) : Keeps φ (forLoop n body) := by
  unfold Quda.forLoop
  induction n with
  | zero => exact Keeps.pure φ ()
  | succ k ih =>
    rw [List.range_succ, List.foldl_append]
    exact Keeps.bind ih fun _ => h k

/-! #### The null-space paths of a level -/

theorem St.nullPaths_setState (mg : MG) (s : LevelState) (w w1 : World)
    (h : s.calls = mg.state.calls) : St.nullPaths ⟨mg.setState s, w1⟩ = St.nullPaths ⟨mg, w⟩ := by
  simp [St.nullPaths, h]

theorem St.nullPaths_logCall (mg : MG) (c : Call) (w : World) :
    St.nullPaths ⟨mg.setState { mg.state with calls := mg.state.calls ++ [c] }, w⟩ =
      St.nullPaths ⟨mg, w⟩ ++ (if c.isNullPath then [c] else []) := by
  cases h : c.isNullPath <;> simp [St.nullPaths, List.filter_append, h]

theorem keeps_nullPaths_fresh : Keeps St.nullPaths fresh := fun _ => rfl

theorem keeps_nullPaths_logObj (e : ObjEvent) : Keeps St.nullPaths (logObj e) := fun _ => rfl

theorem keeps_nullPaths_logCall (c : Call) (h : c.isNullPath = false) :
    Keeps St.nullPaths (logCall c) :=
  Keeps.logCall c fun _ _ => by simp [St.nullPaths_logCall, h]

theorem keeps_nullPaths_modifyS (f : LevelState → LevelState) (h : ∀ s, (f s).calls = s.calls) :
    Keeps St.nullPaths (modifyS f) :=
  Keeps.modifyS f fun _ _ => St.nullPaths_setState _ _ _ _ (h _)

theorem keeps_nullPaths_onCoarse (m : MGM Unit) : Keeps St.nullPaths (onCoarse m) := by
  rintro ⟨mg, w⟩
  cases mg <;> rfl

theorem keeps_nullPaths_newCoarse (env : Env) (construct : MGParam → World → Res St Unit) :
    Keeps St.nullPaths (MG.newCoarse env construct) := by
  rintro ⟨mg, w⟩
  cases mg <;> rfl

theorem keeps_nullPaths_updateCoarseParam : Keeps St.nullPaths MG.updateCoarseParam := by
  rintro ⟨mg, w⟩
  cases mg <;> rfl

theorem keeps_nullPaths_deleteSolver (level : Int) (o : Option SolverObj) :
    Keeps St.nullPaths (deleteSolver level o) := by
  intro st; rw [deleteSolver_run]; rfl

theorem keeps_nullPaths_createSolverIf (level : Int) (cond : Bool) (t : QudaInverterType) :
    Keeps St.nullPaths (createSolverIf level cond t) := by
  intro st; rw [createSolverIf_run]; cases cond <;> rfl

theorem keeps_nullPaths_createSmoother (env : Env) : Keeps St.nullPaths (MG.createSmoother env) := by
  unfold MG.createSmoother
  repeat' first
    | with_reducible exact Keeps.pure _ _
    | with_reducible exact Keeps.getS _
    | with_reducible exact Keeps.getW _
    | with_reducible exact keeps_nullPaths_deleteSolver _ _
    | with_reducible exact keeps_nullPaths_createSolverIf _ _ _
    | ((with_reducible refine keeps_nullPaths_modifyS _ ?_); exact fun _ => rfl)
    | ((with_reducible refine keeps_nullPaths_logCall _ ?_); rfl)
    | with_reducible refine Keeps.bind ?_ (fun _ => ?_)
    | with_reducible refine Keeps.ite ?_ ?_

theorem keeps_nullPaths_releaseCoarseSolver (level : Int) (c : Option LevelState)
    (ref : Option CoarseSolverRef) : Keeps St.nullPaths (MG.releaseCoarseSolver level c ref) := by
  intro st; rw [MG.releaseCoarseSolver_run]; rfl

theorem keeps_nullPaths_usePreconditioner (param : MGParam) (c : Option LevelState) :
    Keeps St.nullPaths (MG.usePreconditioner param c) := by
  unfold MG.usePreconditioner
  split
  · exact Keeps.pure _ _
  · cases c
    · exact Keeps.abort _ _
    · exact Keeps.pure _ _

theorem keeps_nullPaths_createCoarseSolver (env : Env) :
    Keeps St.nullPaths (MG.createCoarseSolver env) := by
  unfold MG.createCoarseSolver MG.createWrapper
  repeat' first
    | with_reducible exact Keeps.pure _ _
    | with_reducible exact Keeps.getS _
    | with_reducible exact Keeps.getW _
    | with_reducible exact Keeps.getCoarse _
    | with_reducible exact Keeps.errorQuda _ _
    | with_reducible exact keeps_nullPaths_releaseCoarseSolver _ _ _
    | with_reducible exact keeps_nullPaths_usePreconditioner _ _
    | with_reducible exact keeps_nullPaths_fresh
    | with_reducible exact keeps_nullPaths_logObj _
    | ((with_reducible refine keeps_nullPaths_modifyS _ ?_); exact fun _ => rfl)
    | ((with_reducible refine keeps_nullPaths_logCall _ ?_); rfl)
    | with_reducible refine Keeps.bind ?_ (fun _ => ?_)
    | with_reducible refine Keeps.ite ?_ ?_

theorem keeps_nullPaths_setupTransfer (env : Env) (refresh : Bool) :
    Keeps St.nullPaths (MG.setupTransfer env refresh) := by
  unfold MG.setupTransfer
  refine Keeps.bind (Keeps.getS _) fun s => ?_
  split <;>
  repeat' first
    | with_reducible exact Keeps.pure _ _
    | with_reducible exact keeps_nullPaths_fresh
    | with_reducible exact keeps_nullPaths_logObj _
    | ((with_reducible refine keeps_nullPaths_modifyS _ ?_); exact fun _ => rfl)
    | ((with_reducible refine keeps_nullPaths_logCall _ ?_); rfl)
    | with_reducible refine Keeps.bind ?_ (fun _ => ?_)
    | with_reducible refine Keeps.ite ?_ ?_

theorem keeps_nullPaths_finalSiteSubset : Keeps St.nullPaths MG.finalSiteSubset := by
  unfold MG.finalSiteSubset
  refine Keeps.bind (Keeps.getS _) fun s => Keeps.bind (Keeps.getW _) fun w => ?_
  refine Keeps.bind (keeps_nullPaths_logCall _ rfl) fun _ => ?_
  split
  · exact keeps_nullPaths_modifyS _ fun _ => rfl
  · exact Keeps.abort _ _

theorem keeps_nullPaths_runVerify (env : Env) : Keeps St.nullPaths (MG.runVerify env) := by
  unfold MG.runVerify
  repeat' first
    | with_reducible exact Keeps.pure _ _
    | with_reducible exact Keeps.getS _
    | with_reducible exact Keeps.liftExcept _ _
    | ((with_reducible refine keeps_nullPaths_logCall _ ?_); rfl)
    | with_reducible refine Keeps.bind ?_ (fun _ => ?_)
    | with_reducible refine Keeps.ite ?_ ?_

theorem keeps_nullPaths_coarseBlock (env : Env) (resetCoarse : MGM Unit)
    (construct : MGParam → World → Res St Unit) (h : Keeps St.nullPaths resetCoarse) :
    Keeps St.nullPaths (MG.coarseBlock env resetCoarse construct) := by
  unfold MG.coarseBlock
  repeat' first
    | with_reducible exact Keeps.pure _ _
    | with_reducible exact Keeps.getCoarse _
    | with_reducible exact h
    | with_reducible exact keeps_nullPaths_updateCoarseParam
    | with_reducible exact keeps_nullPaths_newCoarse _ _
    | ((with_reducible refine keeps_nullPaths_logCall _ ?_); rfl)
    | with_reducible refine Keeps.bind ?_ (fun _ => ?_)
    | with_reducible refine Keeps.ite ?_ ?_

theorem keeps_nullPaths_setupIteration (env : Env) (param : MGParam) (t : QudaInverterType)
    (si : Nat) (reset generateCoarse resetCoarse : MGM Unit) (h : Keeps St.nullPaths reset) :
    Keeps St.nullPaths
      (MG.setupIteration env param t si reset (onCoarse generateCoarse) (onCoarse resetCoarse)) := by
  unfold MG.setupIteration
  repeat' first
    | with_reducible exact Keeps.pure _ _
    | with_reducible exact Keeps.getS _
    | with_reducible exact h
    | with_reducible exact keeps_nullPaths_onCoarse _
    | ((with_reducible refine keeps_nullPaths_modifyS _ ?_); exact fun _ => rfl)
    | ((with_reducible refine keeps_nullPaths_logCall _ ?_); rfl)
    | with_reducible refine Keeps.bind ?_ (fun _ => ?_)
    | with_reducible refine Keeps.ite ?_ ?_

/-- `reset()` (no refresh) adds no null-space path to the log of `this`: the
constructor and the `reset` it runs for the levels below write to their own
objects. -/
theorem keeps_nullPaths_reset (n : Nat) (env : Env) :
    Keeps St.nullPaths (MG.reset n env false) := by
  cases n with
  | zero => rw [MG.reset]; exact Keeps.abort _ _
  | succ k =>
    rw [MG.reset]
    simp only [Bool.false_eq_true, false_and, if_false]
    repeat' first
      | with_reducible exact Keeps.pure _ _
      | with_reducible exact Keeps.getS _
      | with_reducible exact keeps_nullPaths_createSmoother _
      | with_reducible exact keeps_nullPaths_setupTransfer _ _
      | with_reducible exact keeps_nullPaths_coarseBlock _ _ _ (keeps_nullPaths_onCoarse _)
      | with_reducible exact keeps_nullPaths_createCoarseSolver _
      | with_reducible exact keeps_nullPaths_runVerify _
      | with_reducible exact keeps_nullPaths_finalSiteSubset
      | ((with_reducible refine keeps_nullPaths_logCall _ ?_); rfl)
      | with_reducible refine Keeps.bind ?_ (fun _ => ?_)
      | with_reducible refine Keeps.ite ?_ ?_

/-- With fuel left, `generateNullVectors(B, refresh)` adds exactly its own entry
to the null-space paths of `this`. -/
theorem nullPaths_generateNullVectors (n : Nat) (env : Env) (refresh : Bool) (st : St) :
    St.nullPaths (MG.generateNullVectors (n + 1) env refresh st).st =
      St.nullPaths st ++ [.generateNullVectors refresh] := by
  rw [MG.generateNullVectors, M.bind_run, logCall_run]
  simp only []
  have hk : Keeps St.nullPaths (do
      let s ← getS
      let inv_type := env.mg_global.setup_inv_type s.param.level
      if inv_type = .QUDA_MG_INVERTER then
        if s.transfer.isNone then MG.createSmoother env
      let solve ← fresh
      logObj (.new .Solver solve s.param.level)
      forLoop (env.mg_global.num_setup_iter s.param.level).toNat fun si =>
        MG.setupIteration env s.param inv_type si (MG.reset n env false)
          (onCoarse (MG.generateNullVectors n env refresh))
          (onCoarse (MG.reset n env false))
      logObj (.delete .Solver solve s.param.level) : MGM Unit) := by
    repeat' first
      | with_reducible exact Keeps.pure _ _
      | with_reducible exact Keeps.getS _
      | with_reducible exact keeps_nullPaths_fresh
      | with_reducible exact keeps_nullPaths_logObj _
      | with_reducible exact keeps_nullPaths_createSmoother _
      | with_reducible exact Keeps.forLoop _ _ fun _ =>
          keeps_nullPaths_setupIteration _ _ _ _ _ _ _ (keeps_nullPaths_reset _ _)
      | with_reducible refine Keeps.bind ?_ (fun _ => ?_)
      | with_reducible refine Keeps.ite ?_ ?_
  rw [hk]
  simp [St.nullPaths_logCall, Call.isNullPath]

theorem Keeps.bind_right {α γ β : Type} {φ : St → β} (m : MGM α) {f : α → MGM γ}
    (hf : ∀ a, Keeps φ (f a)) (st : St) : φ ((m >>= f) st).st = φ (m st).st := by
  rw [M.bind_run]
  cases h : (m st).out with
  | ok a => simp only [h]; rw [hf a]
  | error e => simp only [h]

/-- The null-space paths entered by lines 63-85 of `MG::MG`. -/
theorem nullPaths_nullVectorBlock (n : Nat) (env : Env) (param : MGParam) (st : St)
    (hlevel : param.level < param.Nlevel - 1) :
    St.nullPaths (MG.nullVectorBlock env param (MG.generateNullVectors (n + 1) env false) st).st =
      St.nullPaths st ++
      (if env.mg_global.compute_null_vector then
        if env.mg_global.num_setup_iter param.level > 0 then [.generateNullVectors false] else []
      else if env.mg_global.vec_infile ≠ "" then [.loadVectors]
      else [.buildFreeVectors]) := by
  unfold MG.nullVectorBlock
  rw [if_pos hlevel]
  by_cases hc : env.mg_global.compute_null_vector = true
  · rw [if_pos hc, if_pos hc]
    have hst : ∀ st1 : St, St.nullPaths ((if env.mg_global.num_setup_iter param.level > 0 then
          MG.generateNullVectors (n + 1) env false else pure PUnit.unit : MGM PUnit) st1).st =
        St.nullPaths st1 ++ (if env.mg_global.num_setup_iter param.level > 0 then
          [.generateNullVectors false] else []) := by
      intro st1
      by_cases hn : env.mg_global.num_setup_iter param.level > 0
      · rw [if_pos hn, if_pos hn]; exact nullPaths_generateNullVectors n env false st1
      · rw [if_neg hn, if_neg hn]; simp
    by_cases hr : env.mg_global.generate_all_levels = .QUDA_BOOLEAN_YES ∨ param.level = 0
    · rw [if_pos hr, M.bind_run, logCall_run]
      simp only []
      rw [hst, St.nullPaths_logCall]
      simp [Call.isNullPath]
    · rw [if_neg hr, M.bind_run, M.pure_run]
      simp only []
      rw [hst]
  · rw [if_neg hc, if_neg hc]
    by_cases hv : env.mg_global.vec_infile ≠ ""
    · rw [if_pos hv, if_pos hv, logCall_run, St.nullPaths_logCall]; rfl
    · rw [if_neg hv, if_neg hv, logCall_run, St.nullPaths_logCall]; rfl

/-- The null-space paths in the log of a level at the end of its construction
(completed or aborted), for a non-coarsest level that passes the two checks at
the head of the constructor. -/
theorem MG.ctor_nullPaths (n : Nat) (env : Env) (param : MGParam) (w : World)
    (hlevel : param.level < param.Nlevel - 1)
    (hmax : param.level < env.QUDA_MAX_MG_LEVEL) (hpar : MG.parityCheck param = .ok ()) :
    St.nullPaths (MG.ctor (n + 2) env param w).st =
      (if env.mg_global.compute_null_vector then
        if env.mg_global.num_setup_iter param.level > 0 then [.generateNullVectors false] else []
      else if env.mg_global.vec_infile ≠ "" then [.loadVectors]
      else [.buildFreeVectors]) := by
  have hmax1 : ¬ param.level ≥ env.QUDA_MAX_MG_LEVEL := not_le.mpr hmax
  rw [MG.ctor]
  simp only [M.bind_run, logObj_run, hmax1, if_false, M.pure_run, liftExcept_run, hpar,
    logCall_run, getS_run]
  have h := Keeps.bind_right (φ := St.nullPaths)
    (MG.nullVectorBlock env param (MG.generateNullVectors (n + 1) env false))
    (f := fun _ => (do
      let s ← getS
      if s.transfer.isNone then MG.reset (n + 1) env false : MGM Unit))
    (fun _ => Keeps.bind (Keeps.getS _) fun s =>
      Keeps.ite (keeps_nullPaths_reset _ _) (Keeps.pure _ _))
  simp only [M.bind_run, getS_run] at h
  rw [h, nullPaths_nullVectorBlock n env param _ hlevel]
  simp only [St.nullPaths, MG.state_setState, LevelState.init]
  simp [MG.state, Call.isNullPath]

/-- C6 (amended): for a non-coarsest level that passes the two checks at the
head of the constructor, the null-space paths entered during construction are:
`generateNullVectors` when null vectors are to be computed and
`num_setup_iter[level] > 0`, none when they are to be computed and
`num_setup_iter[level] <= 0`, otherwise `loadVectors` when an input file is named
and `buildFreeVectors` when not.  So exactly one path is entered if and only if
`compute_null_vector` is off or `num_setup_iter[level] > 0`, and never more than
one. -/
theorem c6_null_vector_paths (n : Nat) (env : Env) (param : MGParam) (w : World)
    (hlevel : param.level < param.Nlevel - 1)
    (hmax : param.level < env.QUDA_MAX_MG_LEVEL) (hpar : MG.parityCheck param = .ok ()) :
    St.nullPaths (MG.ctor (n + 2) env param w).st =
      (if env.mg_global.compute_null_vector then
        if env.mg_global.num_setup_iter param.level > 0 then [.generateNullVectors false] else []
      else if env.mg_global.vec_infile ≠ "" then [.loadVectors]
      else [.buildFreeVectors]) ∧
    ((St.nullPaths (MG.ctor (n + 2) env param w).st).length = 1 ↔
      (env.mg_global.compute_null_vector = true → env.mg_global.num_setup_iter param.level > 0)) ∧
    (St.nullPaths (MG.ctor (n + 2) env param w).st).length ≤ 1 := by
  have h := MG.ctor_nullPaths n env param w hlevel hmax hpar
  refine ⟨h, ?_, ?_⟩
  · rw [h]
    by_cases hc : env.mg_global.compute_null_vector = true <;>
      by_cases hn : env.mg_global.num_setup_iter param.level > 0 <;>
      by_cases hv : env.mg_global.vec_infile ≠ "" <;> simp [hc, hn, hv]
  · rw [h]
    by_cases hc : env.mg_global.compute_null_vector = true <;>
      by_cases hn : env.mg_global.num_setup_iter param.level > 0 <;>
      by_cases hv : env.mg_global.vec_infile ≠ "" <;> simp [hc, hn, hv]

/-- C6 (witness): level `0` of a two-level hierarchy with free-field null
vectors enters `buildFreeVectors` and nothing else. -/
theorem c6_null_vector_paths_witness :
    St.nullPaths (MG.ctor 2 (sampleEnv sampleMultigridParam) (sampleMGParam 2) sampleWorld).st =
      [.buildFreeVectors] :=
  (c6_null_vector_paths 0 (sampleEnv sampleMultigridParam) (sampleMGParam 2) sampleWorld
    (by decide) (by decide) rfl).1

/-! #### `operator()` -/

@[simp] theorem vcall_run (c : VCall) (tr : List VCall) : vcall c tr = ⟨.ok (), tr ++ [c]⟩ := rfl

@[simp] theorem vErrorQuda_run (msg : String) (tr : List VCall) :
    vErrorQuda msg tr = ⟨.error (.errorQuda msg), tr⟩ := rfl

@[simp] theorem callThrough_some {α : Type} (a : α) (c : VCall) (tr : List VCall) :
    callThrough (some a) c tr = ⟨.ok (), tr ++ [c]⟩ := rfl

@[simp] theorem callThrough_none {α : Type} (c : VCall) (tr : List VCall) :
    callThrough (none : Option α) c tr = ⟨.error .nullDereference, tr⟩ := rfl

/-- The first check at the head of `operator()` is the first half of
`parityAccepted`. -/
theorem MG.parityAccepted_outer (param : MGParam) (b : QudaSiteSubset)
    (h : MG.parityAccepted param b) :
    ¬ ((if b = .QUDA_FULL_SITE_SUBSET then QudaSolutionType.QUDA_MAT_SOLUTION
      else .QUDA_MATPC_SOLUTION) = .QUDA_MATPC_SOLUTION ∧
      param.coarse_grid_solution_type = .QUDA_MAT_SOLUTION) := by
  intro ⟨ha, hb⟩
  apply h.1
  refine ⟨?_, hb⟩
  intro hfull
  simp [hfull] at ha

/-- On the coarsest level with an accepted parity configuration, `operator()`
calls `prepare`, then the pre-smoother through its pointer, then
`reconstruct`. -/
theorem MG.apply_coarsest (s : LevelState) (b : QudaSiteSubset)
    (hlevel : s.param.level = s.param.Nlevel - 1) (hparity : MG.parityAccepted s.param b)
    (tr : List VCall) :
    MG.apply s b tr =
      match s.presmoother with
      | some _ =>
        ⟨.ok (), tr ++ [.prepare (if b = .QUDA_FULL_SITE_SUBSET then .QUDA_MAT_SOLUTION
            else .QUDA_MATPC_SOLUTION), .presmooth,
          .reconstruct (if b = .QUDA_FULL_SITE_SUBSET then .QUDA_MAT_SOLUTION
            else .QUDA_MATPC_SOLUTION)]⟩
      | none =>
        ⟨.error .nullDereference, tr ++ [.prepare (if b = .QUDA_FULL_SITE_SUBSET then
          .QUDA_MAT_SOLUTION else .QUDA_MATPC_SOLUTION)]⟩ := by
  have hl : ¬ s.param.level < s.param.Nlevel - 1 := by omega
  have h1 := MG.parityAccepted_outer s.param b hparity
  have h2 := hparity.2
  unfold MG.apply
  simp only [h1, h2, hl, if_false]
  cases hp : s.presmoother <;> simp [M.bind_run]

/-- With a rejected parity configuration `operator()` ends in `errorQuda` before
any collaborator call. -/
theorem MG.apply_rejected (s : LevelState) (b : QudaSiteSubset)
    (hparity : ¬ MG.parityAccepted s.param b) (tr : List VCall) :
    ∃ msg, MG.apply s b tr = ⟨.error (.errorQuda msg), tr⟩ := by
  unfold MG.parityAccepted at hparity
  unfold MG.apply
  simp only []
  by_cases ha : (if b = .QUDA_FULL_SITE_SUBSET then QudaSolutionType.QUDA_MAT_SOLUTION
      else .QUDA_MATPC_SOLUTION) = .QUDA_MATPC_SOLUTION ∧
      s.param.coarse_grid_solution_type = .QUDA_MAT_SOLUTION
  · rw [if_pos ha, M.bind_run, vErrorQuda_run]
    exact ⟨_, rfl⟩
  · by_cases hb : s.param.coarse_grid_solution_type = .QUDA_MATPC_SOLUTION ∧
        s.param.smoother_solve_type ≠ .QUDA_DIRECT_PC_SOLVE
    · rw [if_neg ha, if_pos hb, M.bind_run, M.pure_run]
      simp only []
      rw [M.bind_run, vErrorQuda_run]
      exact ⟨_, rfl⟩
    · exfalso
      apply hparity
      refine ⟨?_, hb⟩
      intro ⟨hnf, hmat⟩
      apply ha
      simp [hnf, hmat]

/-- On a non-coarsest level with a transfer operator and an accepted parity
configuration, when the three pointer members are set: the calls `operator()`
issues, in order. -/
theorem MG.apply_fine (s : LevelState) (b : QudaSiteSubset)
    (hlevel : s.param.level < s.param.Nlevel - 1) (htransfer : s.transfer.isSome = true)
    (hparity : MG.parityAccepted s.param b)
    (hpre : s.presmoother.isSome = true) (hcs : s.coarse_solver.isSome = true)
    (hpost : s.postsmoother.isSome = true) (tr : List VCall) :
    MG.apply s b tr =
      ⟨.ok (), tr ++ ([.copySource,
          .prepare (if b = .QUDA_FULL_SITE_SUBSET then .QUDA_MAT_SOLUTION
            else .QUDA_MATPC_SOLUTION)] ++
        (if s.param.smoother_solve_type = .QUDA_DIRECT_PC_SOLVE then [.copyBTilde]
          else [.aliasBTilde]) ++
        [.presmooth, .reconstruct s.param.coarse_grid_solution_type] ++
        (if (s.param.smoother_solve_type = .QUDA_DIRECT_PC_SOLVE ∧
              s.param.coarse_grid_solution_type = .QUDA_MATPC_SOLUTION) ∨
            (s.param.smoother_solve_type = .QUDA_DIRECT_SOLVE ∧
              s.param.coarse_grid_solution_type = .QUDA_MAT_SOLUTION) then []
          else [.matResidual, .axpby]) ++
        [.restrict, .coarseSolve, .prolong, .xpy] ++
        (if s.param.smoother_solve_type = .QUDA_DIRECT_PC_SOLVE then []
          else [.copySourceToR]) ++
        [.postsmooth,
          .reconstruct (if b = .QUDA_FULL_SITE_SUBSET then .QUDA_MAT_SOLUTION
            else .QUDA_MATPC_SOLUTION)])⟩ := by
  have h1 := MG.parityAccepted_outer s.param b hparity
  have h2 := hparity.2
  obtain ⟨pre, hpre⟩ := Option.isSome_iff_exists.mp hpre
  obtain ⟨cs, hcs⟩ := Option.isSome_iff_exists.mp hcs
  obtain ⟨post, hpost⟩ := Option.isSome_iff_exists.mp hpost
  unfold MG.apply
  simp only [h1, h2, hlevel, if_false, if_true, htransfer, hpre, hcs, hpost,
    MG.use_solver_residual]
  cases hsst : s.param.smoother_solve_type <;>
    cases hcg : s.param.coarse_grid_solution_type <;>
    simp [M.bind_run]

set_option maxHeartbeats 2000000 in
/-- On a non-coarsest level with a transfer operator and an accepted parity
configuration, `operator()` dies in a call through a null pointer as soon as one
of the three pointer members is null. -/
theorem MG.apply_fine_null (s : LevelState) (b : QudaSiteSubset)
    (hlevel : s.param.level < s.param.Nlevel - 1) (htransfer : s.transfer.isSome = true)
    (hparity : MG.parityAccepted s.param b)
    (hnull : s.presmoother = none ∨ s.coarse_solver = none ∨ s.postsmoother = none)
    (tr : List VCall) :
    (MG.apply s b tr).out = .error .nullDereference := by
  have h1 := MG.parityAccepted_outer s.param b hparity
  have h2 := hparity.2
  unfold MG.apply
  simp only [h1, h2, hlevel, if_false, if_true, htransfer, MG.use_solver_residual]
  rcases hnull with h | h | h
  · cases hsst : s.param.smoother_solve_type <;>
      cases hcg : s.param.coarse_grid_solution_type <;>
      simp [M.bind_run, h]
  · cases hsst : s.param.smoother_solve_type <;>
      cases hcg : s.param.coarse_grid_solution_type <;>
      rcases hpre : s.presmoother with _ | pre <;>
      simp [M.bind_run, h]
  · cases hsst : s.param.smoother_solve_type <;>
      cases hcg : s.param.coarse_grid_solution_type <;>
      rcases hpre : s.presmoother with _ | pre <;>
      rcases hcs : s.coarse_solver with _ | cs <;>
      simp [M.bind_run, h]

@[simp] theorem MG.presmoothParam_schwarz_type (g : QudaMultigridParam) (param : MGParam)
    (ip : QudaInvertParam) :
    (MG.presmoothParam g param ip).schwarz_type = g.smoother_schwarz_type param.level := rfl

/-- Which smoothers `createSmoother` leaves on a level: the pre-smoother exists
when the smoother type is valid and the level is not the coarsest or uses
Schwarz; the post-smoother of a non-coarsest level exists when the smoother
type is valid. -/
theorem MG.createSmoother_smoothers (env : Env) (st : St) :
    (MG.createSmoother env st).st.mg.state.presmoother.isSome =
      decide ((st.mg.state.param.level < st.mg.state.param.Nlevel - 1 ∨
          env.mg_global.smoother_schwarz_type st.mg.state.param.level ≠
            .QUDA_INVALID_SCHWARZ) ∧
        st.mg.state.param.smoother ≠ .QUDA_INVALID_INVERTER) ∧
    (st.mg.state.param.level < st.mg.state.param.Nlevel - 1 →
      (MG.createSmoother env st).st.mg.state.postsmoother.isSome =
        decide (st.mg.state.param.smoother ≠ .QUDA_INVALID_INVERTER)) := by
  obtain ⟨mg, w⟩ := st
  simp only [MG.createSmoother, M.bind_run, logCall_run, getS_run, getW_run, MG.state_setState,
    deleteSolver_run, modifyS_run, MG.setState_setState, createSolverIf_run,
    MG.presmoothParam_inv_type, MG.postsmoothParam_inv_type, MG.presmoothParam_schwarz_type]
  by_cases hl : mg.state.param.level < mg.state.param.Nlevel - 1 <;>
    by_cases hs : mg.state.param.smoother = .QUDA_INVALID_INVERTER <;>
    by_cases hz : env.mg_global.smoother_schwarz_type mg.state.param.level =
      .QUDA_INVALID_SCHWARZ <;>
    by_cases hg : mg.state.param.smoother = .QUDA_CGNE_INVERTER <;>
    first
      | exact absurd (hs.symm.trans hg) (by decide)
      | simp [hl, hs, hz, hg, M.bind_run, deleteSolver_run, createSolverIf_run]

theorem total_pure {α : Type} (a : α) : Total (pure a : MGM α) := fun _ => ⟨a, rfl⟩

theorem total_bind {α γ : Type} {m : MGM α} {f : α → MGM γ}
    (hm : Total m) (hf : ∀ a, Total (f a)) : Total (m >>= f) := by
  intro st
  obtain ⟨a, ha⟩ := hm st
  rw [M.bind_run]
  simp only [ha]
  exact hf a _

theorem total_ite {α : Type} {c : Prop} [Decidable c] {m1 m2 : MGM α}
    (h1 : Total m1) (h2 : Total m2) : Total (if c then m1 else m2) := by
  split
  · exact h1
  · exact h2

theorem total_modifyS (f : LevelState → LevelState) : Total (modifyS f) := fun _ => ⟨(), rfl⟩

theorem total_logCall (c : Call) : Total (logCall c) := fun _ => ⟨(), rfl⟩

theorem total_getS : Total getS := fun st => ⟨st.mg.state, rfl⟩

theorem total_getW : Total getW := fun st => ⟨st.w, rfl⟩

theorem total_deleteSolver (level : Int) (o : Option SolverObj) :
    Total (deleteSolver level o) := by
  intro st; rw [deleteSolver_run]; exact ⟨(), rfl⟩

theorem total_createSolverIf (level : Int) (cond : Bool) (t : QudaInverterType) :
    Total (createSolverIf level cond t) := by
  intro st; rw [createSolverIf_run]; cases cond
  · exact ⟨none, rfl⟩
  · exact ⟨_, rfl⟩

/-- `createSmoother` always returns. -/
theorem MG.createSmoother_ok (env : Env) (st : St) : (MG.createSmoother env st).out = .ok () := by
  have h : Total (MG.createSmoother env) := by
    unfold MG.createSmoother
    repeat' first
      | with_reducible exact total_pure _
      | with_reducible exact total_getS
      | with_reducible exact total_getW
      | with_reducible exact total_deleteSolver _ _
      | with_reducible exact total_createSolverIf _ _ _
      | with_reducible exact total_modifyS _
      | with_reducible exact total_logCall _
      | with_reducible refine total_bind ?_ (fun _ => ?_)
      | with_reducible refine total_ite ?_ ?_
  obtain ⟨a, ha⟩ := h st
  exact ha

/-! #### What the set-up steps leave alone -/

theorem St.core_setState (mg : MG) (s : LevelState) (w : World)
    (h : s.id = mg.state.id ∧ s.param = mg.state.param ∧ s.transfer = mg.state.transfer ∧
      s.resetTransfer = mg.state.resetTransfer ∧ s.coarse_solver = mg.state.coarse_solver) :
    St.core ⟨mg.setState s, w⟩ = St.core ⟨mg, w⟩ := by
  obtain ⟨h1, h2, h3, h4, h5⟩ := h
  simp [St.core, h1, h2, h3, h4, h5]

theorem keeps_core_modifyS (f : LevelState → LevelState)
    (h : ∀ s, (f s).id = s.id ∧ (f s).param = s.param ∧ (f s).transfer = s.transfer ∧
      (f s).resetTransfer = s.resetTransfer ∧ (f s).coarse_solver = s.coarse_solver) :
    Keeps St.core (modifyS f) :=
  Keeps.modifyS f fun _ _ => St.core_setState _ _ _ (h _)

theorem keeps_core_logCall (c : Call) : Keeps St.core (logCall c) :=
  keeps_core_modifyS _ fun _ => ⟨rfl, rfl, rfl, rfl, rfl⟩

theorem keeps_core_deleteSolver (level : Int) (o : Option SolverObj) :
    Keeps St.core (deleteSolver level o) := by
  intro st; rw [deleteSolver_run]
  cases o <;> simp [St.core, releaseSolver, ObjEvent.structural]

theorem keeps_core_createSolverIf (level : Int) (cond : Bool) (t : QudaInverterType) :
    Keeps St.core (createSolverIf level cond t) := by
  intro st; rw [createSolverIf_run]
  cases cond <;> simp [St.core, ObjEvent.structural]

theorem keeps_core_createSmoother (env : Env) : Keeps St.core (MG.createSmoother env) := by
  unfold MG.createSmoother
  repeat' first
    | with_reducible exact Keeps.pure _ _
    | with_reducible exact Keeps.getS _
    | with_reducible exact Keeps.getW _
    | with_reducible exact keeps_core_deleteSolver _ _
    | with_reducible exact keeps_core_createSolverIf _ _ _
    | with_reducible exact keeps_core_logCall _
    | ((with_reducible refine keeps_core_modifyS _ ?_); exact fun _ => ⟨rfl, rfl, rfl, rfl, rfl⟩)
    | with_reducible refine Keeps.bind ?_ (fun _ => ?_)
    | with_reducible refine Keeps.ite ?_ ?_

theorem keeps_calls_modifyS (f : LevelState → LevelState) (h : ∀ s, (f s).calls = s.calls) :
    Keeps (fun st : St => st.mg.state.calls) (modifyS f) :=
  Keeps.modifyS f fun _ _ => by simp [h]

theorem keeps_calls_deleteSolver (level : Int) (o : Option SolverObj) :
    Keeps (fun st : St => st.mg.state.calls) (deleteSolver level o) := by
  intro st; rw [deleteSolver_run]

theorem keeps_calls_createSolverIf (level : Int) (cond : Bool) (t : QudaInverterType) :
    Keeps (fun st : St => st.mg.state.calls) (createSolverIf level cond t) := by
  intro st; rw [createSolverIf_run]; cases cond <;> rfl

/-- `createSmoother` adds one entry to the call log of `this`. -/
theorem MG.createSmoother_calls (env : Env) (st : St) :
    (MG.createSmoother env st).st.mg.state.calls = st.mg.state.calls ++ [.createSmoother] := by
  unfold MG.createSmoother
  rw [M.bind_run, logCall_run]
  simp only []
  have hk : Keeps (fun st : St => st.mg.state.calls) (do
      let s ← getS
      let w ← getW
      deleteSolver s.param.level s.presmoother
      let p := MG.presmoothParam env.mg_global s.param w.invert_param
      modifyS fun s => { s with param_presmooth := some p }
      let pre ← createSolverIf s.param.level
        (decide ((s.param.level < s.param.Nlevel - 1 ∨
          p.schwarz_type ≠ .QUDA_INVALID_SCHWARZ) ∧
          p.inv_type ≠ .QUDA_INVALID_INVERTER)) p.inv_type
      modifyS fun s => { s with presmoother := pre }
      if s.param.level < s.param.Nlevel - 1 then
        deleteSolver s.param.level s.postsmoother
        let q := MG.postsmoothParam s.param p
        if s.param.smoother = .QUDA_CGNE_INVERTER then
          modifyS fun s =>
            { s with param_presmooth := some { p with inv_type := .QUDA_MR_INVERTER } }
        modifyS fun s => { s with param_postsmooth := some q }
        let post ← createSolverIf s.param.level (decide (q.inv_type ≠ .QUDA_INVALID_INVERTER))
          q.inv_type
        modifyS fun s => { s with postsmoother := post } : MGM Unit) := by
    repeat' first
      | with_reducible exact Keeps.pure _ _
      | with_reducible exact Keeps.getS _
      | with_reducible exact Keeps.getW _
      | with_reducible exact keeps_calls_deleteSolver _ _
      | with_reducible exact keeps_calls_createSolverIf _ _ _
      | ((with_reducible refine keeps_calls_modifyS _ ?_); exact fun _ => rfl)
      | with_reducible refine Keeps.bind ?_ (fun _ => ?_)
      | with_reducible refine Keeps.ite ?_ ?_
  exact (hk _).trans (by simp)

theorem MG.eq_setState_of_coarse_eq (mg mg1 : MG) (h : mg1.coarse = mg.coarse) :
    mg1 = mg.setState mg1.state := by
  cases mg <;> cases mg1 <;> simp_all [MG.coarse, MG.setState, MG.state]

/-- `createSmoother`: it returns, and changes on `this` only the smoothers and
their parameter records. -/
theorem MG.createSmoother_spec (env : Env) (st : St) :
    ∃ s1 w1, MG.createSmoother env st = ⟨.ok (), ⟨st.mg.setState s1, w1⟩⟩ ∧
      s1.id = st.mg.state.id ∧ s1.param = st.mg.state.param ∧
      s1.transfer = st.mg.state.transfer ∧ s1.resetTransfer = st.mg.state.resetTransfer ∧
      s1.coarse_solver = st.mg.state.coarse_solver ∧
      s1.calls = st.mg.state.calls ++ [.createSmoother] ∧
      w1.invert_param = st.w.invert_param ∧
      w1.objects.filter ObjEvent.structural = st.w.objects.filter ObjEvent.structural ∧
      s1.presmoother = (MG.createSmoother env st).st.mg.state.presmoother := by
  have hok := MG.createSmoother_ok env st
  have hcore := keeps_core_createSmoother env st
  have hcalls := MG.createSmoother_calls env st
  simp only [St.core, Prod.mk.injEq] at hcore
  obtain ⟨h1, h2, h3, h4, h5, h6, h7, h8⟩ := hcore
  refine ⟨(MG.createSmoother env st).st.mg.state, (MG.createSmoother env st).st.w, ?_,
    h2, h3, h4, h5, h6, hcalls, h7, h8, rfl⟩
  rw [← MG.eq_setState_of_coarse_eq _ _ h1, ← hok]

theorem onCoarse_node (m : MGM Unit) (s : LevelState) (c : MG) (w : World) :
    onCoarse m ⟨.node s c, w⟩ =
      ⟨(m ⟨c, w⟩).out, ⟨.node s (m ⟨c, w⟩).st.mg, (m ⟨c, w⟩).st.w⟩⟩ := rfl

/-- C20: a level `Nlevel-2` whose coarse level `cs` is the coarsest, built as
`reset` builds it: `createSmoother` on the coarse level, then
`createCoarseSolver` on the level.  Both return.  The coarse level has a
pre-smoother exactly when it uses Schwarz and its smoother type is valid.
`coarse_solver` becomes a wrapper whose parameter record has the coarse level as
`preconditioner` and `inv_type_precondition = MG` if and only if the coarse level
has a pre-smoother, and no preconditioner and `INVALID` otherwise.  Hence the
coarse solver enters `operator()` of the coarsest level only when that level has
a pre-smoother, and such a call never dies in a call through a null pointer. -/
theorem c20_coarsest_entered_only_with_presmoother (env : Env) (st : St) (cs : LevelState)
    (hc : st.mg.coarse.map MG.state = some cs)
    (hl : st.mg.state.param.level = st.mg.state.param.Nlevel - 2)
    (hcl : cs.param.level = cs.param.Nlevel - 1) :
    ∃ st1 st2 cs2,
      onCoarse (MG.createSmoother env) st = ⟨.ok (), st1⟩ ∧
      MG.createCoarseSolver env st1 = ⟨.ok (), st2⟩ ∧
      st2.mg.coarse.map MG.state = some cs2 ∧ cs2.id = cs.id ∧ cs2.param = cs.param ∧
      (cs2.presmoother.isSome = true ↔
        (env.mg_global.smoother_schwarz_type cs.param.level ≠ .QUDA_INVALID_SCHWARZ ∧
          cs.param.smoother ≠ .QUDA_INVALID_INVERTER)) ∧
      ∃ id p,
        st2.mg.state.coarse_solver = some (.wrapper id) ∧
        st2.mg.state.param_coarse_solver = some p ∧
        (cs2.presmoother.isSome = true →
          p.preconditioner = some cs.id ∧ p.inv_type_precondition = .QUDA_MG_INVERTER) ∧
        (cs2.presmoother.isSome = false →
          p.preconditioner = none ∧ p.inv_type_precondition = .QUDA_INVALID_INVERTER) ∧
        (p.preconditioner.isSome = true ↔ cs2.presmoother.isSome = true) ∧
        MG.coarseSolverEnters st2.mg.state (some cs2) =
          (if cs2.presmoother.isSome = true then some cs2.id else none) ∧
        (∀ entered, MG.coarseSolverEnters st2.mg.state (some cs2) = some entered →
          entered = cs2.id ∧ cs2.presmoother.isSome = true ∧
          ∀ b tr, (MG.apply cs2 b tr).out ≠ .error .nullDereference) := by
  obtain ⟨mg, w⟩ := st
  cases mg with
  | leaf s => simp [MG.coarse] at hc
  | node s c =>
    simp only [MG.coarse, Option.map_some', Option.some.injEq] at hc
    simp only [MG.state] at hl
    obtain ⟨s1, w1, hrun, hid, hparam, -, -, -, -, -, -, hpre⟩ :=
      MG.createSmoother_spec env ⟨c, w⟩
    have hsm := (MG.createSmoother_smoothers env ⟨c, w⟩).1
    simp only [] at hid hparam hpre hsm
    rw [hc] at hid hparam hsm
    rw [← hpre] at hsm
    have hncl : ¬ cs.param.level < cs.param.Nlevel - 1 := by omega
    have hpres : s1.presmoother.isSome = true ↔
        (env.mg_global.smoother_schwarz_type cs.param.level ≠ .QUDA_INVALID_SCHWARZ ∧
          cs.param.smoother ≠ .QUDA_INVALID_INVERTER) := by
      rw [hsm]; simp [hncl]
    have h1 : ¬ (s.param.cycle_type = .QUDA_MG_CYCLE_VCYCLE ∧
        s.param.level < s.param.Nlevel - 2) := by
      intro h; omega
    have hnl : ¬ s.param.level < s.param.Nlevel - 2 := by omega
    have hcs1 : (MG.node s (c.setState s1)).coarse.map MG.state = some s1 := by
      simp [MG.coarse]
    have hwr := MG.createCoarseSolver_wrapper env ⟨.node s (c.setState s1), w1⟩ s1 hcs1 h1
      (Or.inr hl)
    refine ⟨⟨.node s (c.setState s1), w1⟩, _, s1, ?_, hwr, ?_, hid, hparam, hpres, ?_⟩
    · rw [onCoarse_node, hrun]
    · show (MG.node _ (c.setState s1)).coarse.map MG.state = some s1
      simp [MG.coarse]
    · have hent : MG.coarseSolverEnters
          { s with
            coarse_solver := some (.wrapper (w1.nextId + 1))
            param_coarse_solver := some (MG.coarseSolverParam env.mg_global s.param
              (decide (s.param.level < s.param.Nlevel - 2) || s1.presmoother.isSome)
              (some s1.id))
            calls := s.calls ++ [.createCoarseSolver] } (some s1) =
          (if s1.presmoother.isSome = true then some s1.id else none) := by
        cases hp : s1.presmoother.isSome <;>
          simp [MG.coarseSolverEnters, MG.coarseSolverParam, hp, hnl]
      refine ⟨w1.nextId + 1, MG.coarseSolverParam env.mg_global s.param
        (decide (s.param.level < s.param.Nlevel - 2) || s1.presmoother.isSome) (some s1.id),
        by simp [MG.setState, MG.state], by simp [MG.setState, MG.state], ?_, ?_, ?_, ?_, ?_⟩
      · intro hp
        simp [MG.coarseSolverParam, hp, hid]
      · intro hp
        simp [MG.coarseSolverParam, hp, hnl]
      · cases hp : s1.presmoother.isSome <;> simp [MG.coarseSolverParam, hp, hnl]
      · simpa [MG.setState, MG.state] using hent
      · intro entered he
        simp only [MG.setState, MG.state] at he
        rw [hent] at he
        cases hp : s1.presmoother.isSome with
        | false => simp [hp] at he
        | true =>
          simp only [hp, if_true, Option.some.injEq] at he
          refine ⟨he.symm, rfl, ?_⟩
          intro b tr
          have hlv : s1.param.level = s1.param.Nlevel - 1 := by rw [hparam]; exact hcl
          by_cases hpa : MG.parityAccepted s1.param b
          · rw [MG.apply_coarsest s1 b hlv hpa tr]
            obtain ⟨pre, hpre1⟩ := Option.isSome_iff_exists.mp hp
            rw [hpre1]
            simp
          · obtain ⟨msg, h⟩ := MG.apply_rejected s1 b hpa tr
            rw [h]
            simp

/-- C20 (witness): a two-level hierarchy without Schwarz smoothing on the coarse
level: the coarse level gets no pre-smoother, and the coarse solver enters no
level. -/
theorem c20_coarsest_entered_only_with_presmoother_witness :
    ∃ st1 st2 cs2,
      onCoarse (MG.createSmoother (sampleEnv sampleMultigridParam))
        (sampleTwoLevel .QUDA_MG_CYCLE_VCYCLE .QUDA_MR_INVERTER none) = ⟨.ok (), st1⟩ ∧
      MG.createCoarseSolver (sampleEnv sampleMultigridParam) st1 = ⟨.ok (), st2⟩ ∧
      st2.mg.coarse.map MG.state = some cs2 ∧
      MG.coarseSolverEnters st2.mg.state (some cs2) =
        (if cs2.presmoother.isSome = true then some cs2.id else none) := by
  obtain ⟨st1, st2, cs2, h1, h2, h3, _, _, _, _, _, _, _, _, _, _, h4, _⟩ :=
    c20_coarsest_entered_only_with_presmoother (sampleEnv sampleMultigridParam)
      (sampleTwoLevel .QUDA_MG_CYCLE_VCYCLE .QUDA_MR_INVERTER none) _ rfl (by decide)
      (by decide)
  exact ⟨st1, st2, cs2, h1, h2, h3, h4⟩

/-! #### The steps of `reset` -/

theorem MG.setupTransfer_none (env : Env) (refresh : Bool) (st : St)
    (h : st.mg.state.transfer = none) :
    MG.setupTransfer env refresh st =
      ⟨.ok (), ⟨st.mg.setState { st.mg.state with
          transfer := some ⟨st.w.nextId, .QUDA_FULL_SITE_SUBSET, .QUDA_INVALID_PARITY⟩
          calls := st.mg.state.calls ++ [.newTransfer] ++
            (if env.mg_global.generate_all_levels = .QUDA_BOOLEAN_NO then [.restrictNullVectors]
              else []) },
        { st.w with
          nextId := st.w.nextId + 1
          objects := st.w.objects ++ [.new .Transfer st.w.nextId st.mg.state.param.level] }⟩⟩ := by
  obtain ⟨mg, w⟩ := st
  simp only [] at h
  unfold MG.setupTransfer
  rw [M.bind_run, getS_run]
  simp only [h]
  by_cases hg : env.mg_global.generate_all_levels = .QUDA_BOOLEAN_NO <;>
    simp [M.bind_run, hg, h]

theorem MG.setupTransfer_some (env : Env) (st : St) (t : Transfer)
    (h : st.mg.state.transfer = some t) :
    MG.setupTransfer env false st =
      ⟨.ok (), ⟨st.mg.setState { st.mg.state with
          transfer := some { t with
            site_subset := .QUDA_FULL_SITE_SUBSET, parity := .QUDA_INVALID_PARITY }
          resetTransfer := false
          calls := st.mg.state.calls ++
            [.setSiteSubset .QUDA_FULL_SITE_SUBSET .QUDA_INVALID_PARITY] ++
            (if st.mg.state.resetTransfer = true then [.transferReset] else []) }, st.w⟩⟩ := by
  obtain ⟨mg, w⟩ := st
  simp only [] at h
  unfold MG.setupTransfer
  rw [M.bind_run, getS_run]
  simp only [h]
  cases hr : mg.state.resetTransfer
  · simp [M.bind_run, h, hr]
  · simp [M.bind_run, h, hr]

theorem MG.runVerify_off (env : Env) (st : St) (h : env.mg_global.run_verify = false) :
    MG.runVerify env st = ⟨.ok (), st⟩ := by
  unfold MG.runVerify
  simp [M.bind_run, h]

theorem MG.finalSiteSubset_some (st : St) (t : Transfer) (h : st.mg.state.transfer = some t) :
    MG.finalSiteSubset st =
      ⟨.ok (), ⟨st.mg.setState { st.mg.state with
        transfer := some { t with
          site_subset :=
            if st.mg.state.param.coarse_grid_solution_type = .QUDA_MATPC_SOLUTION then
              .QUDA_PARITY_SITE_SUBSET
            else .QUDA_FULL_SITE_SUBSET
          parity :=
            if st.w.invert_param.matpc_type = .QUDA_MATPC_EVEN_EVEN ∨
                st.w.invert_param.matpc_type = .QUDA_MATPC_EVEN_EVEN_ASYMMETRIC then
              .QUDA_EVEN_PARITY
            else .QUDA_ODD_PARITY }
        calls := st.mg.state.calls ++ [.setSiteSubset
          (if st.mg.state.param.coarse_grid_solution_type = .QUDA_MATPC_SOLUTION then
              .QUDA_PARITY_SITE_SUBSET
            else .QUDA_FULL_SITE_SUBSET)
          (if st.w.invert_param.matpc_type = .QUDA_MATPC_EVEN_EVEN ∨
                st.w.invert_param.matpc_type = .QUDA_MATPC_EVEN_EVEN_ASYMMETRIC then
              .QUDA_EVEN_PARITY
            else .QUDA_ODD_PARITY)] }, st.w⟩⟩ := by
  obtain ⟨mg, w⟩ := st
  simp only [] at h
  unfold MG.finalSiteSubset
  simp only [M.bind_run, getS_run, getW_run, logCall_run, h, MG.state_setState, modifyS_run,
    MG.setState_setState]

theorem MG.coarseBlock_none (env : Env) (resetCoarse : MGM Unit)
    (construct : MGParam → World → Res St Unit) (s : LevelState) (w : World) :
    MG.coarseBlock env resetCoarse construct ⟨.leaf s, w⟩ =
      ⟨(construct (MG.coarseParam env s w) w).out,
        ⟨.node { s with calls := s.calls ++ [.newCoarse] }
          (construct (MG.coarseParam env s w) w).st.mg,
        (construct (MG.coarseParam env s w) w).st.w⟩⟩ := by
  unfold MG.coarseBlock
  simp only [M.bind_run, getCoarse_run, MG.coarse, Option.map_none', Option.isSome_none,
    Bool.false_eq_true, if_false, logCall_run, MG.newCoarse, MG.setState, MG.state]
  rfl

theorem MG.coarseBlock_some (env : Env) (m : MGM Unit)
    (construct : MGParam → World → Res St Unit) (s : LevelState) (c : MG) (w : World) :
    MG.coarseBlock env (onCoarse m) construct ⟨.node s c, w⟩ =
      ⟨(m ⟨c.setState { c.state with param :=
            { c.state.param with
              delta := 1 / 10 ^ 20
              precision := (c.state.param.toSolverParam.updateInvertParam
                w.invert_param).cuda_prec_precondition } },
          { w with invert_param :=
            c.state.param.toSolverParam.updateInvertParam w.invert_param }⟩).out,
        ⟨.node { s with calls := s.calls ++ [.updateCoarse] }
          (m ⟨c.setState { c.state with param :=
            { c.state.param with
              delta := 1 / 10 ^ 20
              precision := (c.state.param.toSolverParam.updateInvertParam
                w.invert_param).cuda_prec_precondition } },
          { w with invert_param :=
            c.state.param.toSolverParam.updateInvertParam w.invert_param }⟩).st.mg,
        (m ⟨c.setState { c.state with param :=
            { c.state.param with
              delta := 1 / 10 ^ 20
              precision := (c.state.param.toSolverParam.updateInvertParam
                w.invert_param).cuda_prec_precondition } },
          { w with invert_param :=
            c.state.param.toSolverParam.updateInvertParam w.invert_param }⟩).st.w⟩⟩ := by
  unfold MG.coarseBlock
  simp only [M.bind_run, getCoarse_run, MG.coarse, Option.map_some', Option.isSome_some,
    if_true, logCall_run, MG.setState, MG.state, MG.updateCoarseParam]
  rfl

@[simp] theorem MG.state_leaf (s : LevelState) : (MG.leaf s).state = s := rfl

@[simp] theorem MG.state_node (s : LevelState) (c : MG) : (MG.node s c).state = s := rfl

@[simp] theorem MG.setState_leaf (s s1 : LevelState) : (MG.leaf s).setState s1 = .leaf s1 := rfl

@[simp] theorem MG.setState_node (s s1 : LevelState) (c : MG) :
    (MG.node s c).setState s1 = .node s1 c := rfl

@[simp] theorem MG.coarse_leaf (s : LevelState) : (MG.leaf s).coarse = none := rfl

@[simp] theorem MG.coarse_node (s : LevelState) (c : MG) : (MG.node s c).coarse = some c := rfl

theorem filterMap_newLevel_of_structural (l1 l2 : List ObjEvent)
    (h : l1.filter ObjEvent.structural = l2.filter ObjEvent.structural) :
    l1.filterMap ObjEvent.newLevel = l2.filterMap ObjEvent.newLevel := by
  have key : ∀ l : List ObjEvent,
      (l.filter ObjEvent.structural).filterMap ObjEvent.newLevel =
        l.filterMap ObjEvent.newLevel := by
    intro l
    induction l with
    | nil => rfl
    | cons e l ih =>
      rcases e with ⟨k, i, lv⟩ | ⟨k, i, lv⟩ <;> cases k <;>
        simp [List.filter_cons, ObjEvent.structural, ObjEvent.newLevel, List.filterMap_cons, ih]
  rw [← key l1, ← key l2, h]

/-- The part of `reset` after the coarse level exists: `createCoarseSolver`, the
verification (switched off) and the closing `setSiteSubset`. -/
theorem MG.reset_finish (env : Env) (s5 : LevelState) (c5 : MG) (w5 : World) (t : Transfer)
    (ht : s5.transfer = some t) (hv : env.mg_global.run_verify = false)
    (hl : s5.param.level < s5.param.Nlevel - 1)
    (hcyc : s5.param.level < s5.param.Nlevel - 2 →
      s5.param.cycle_type = .QUDA_MG_CYCLE_VCYCLE ∨
        s5.param.cycle_type = .QUDA_MG_CYCLE_RECURSIVE)
    (halias : s5.coarse_solver = some .coarseMG →
      s5.param.cycle_type = .QUDA_MG_CYCLE_VCYCLE ∧ s5.param.level < s5.param.Nlevel - 2) :
    ∃ s8 w8,
      (do MG.createCoarseSolver env; MG.runVerify env; MG.finalSiteSubset : MGM Unit)
        ⟨.node s5 c5, w5⟩ = ⟨.ok (), ⟨.node s8 c5, w8⟩⟩ ∧
      s8.id = s5.id ∧ s8.param = s5.param ∧ s8.transfer.map (·.id) = some t.id ∧
      s8.resetTransfer = s5.resetTransfer ∧
      (s8.coarse_solver = some .coarseMG →
        s5.param.cycle_type = .QUDA_MG_CYCLE_VCYCLE ∧ s5.param.level < s5.param.Nlevel - 2) ∧
      (∃ site_subset parity, s8.calls =
        s5.calls ++ [.createCoarseSolver, .setSiteSubset site_subset parity]) ∧
      w8.invert_param = w5.invert_param ∧
      w8.objects.filter ObjEvent.structural = w5.objects.filter ObjEvent.structural := by
  by_cases hV : s5.param.cycle_type = .QUDA_MG_CYCLE_VCYCLE ∧
      s5.param.level < s5.param.Nlevel - 2
  · have h1 := MG.createCoarseSolver_alias env ⟨.node s5 c5, w5⟩ hV
    rw [M.bind_ok h1, M.bind_ok (MG.runVerify_off env _ hv),
      MG.finalSiteSubset_some _ t (by simpa using ht)]
    refine ⟨_, _, rfl, ?_⟩
    simp [hV]
  · have h2 : s5.param.cycle_type = .QUDA_MG_CYCLE_RECURSIVE ∨
        s5.param.level = s5.param.Nlevel - 2 := by
      by_cases hlt : s5.param.level < s5.param.Nlevel - 2
      · rcases hcyc hlt with h | h
        · exact absurd ⟨h, hlt⟩ hV
        · exact Or.inl h
      · exact Or.inr (by omega)
    have h1 := MG.createCoarseSolver_wrapper env ⟨.node s5 c5, w5⟩ c5.state rfl hV h2
    rw [M.bind_ok h1, M.bind_ok (MG.runVerify_off env _ hv),
      MG.finalSiteSubset_some _ t (by simpa using ht)]
    refine ⟨_, _, rfl, ?_⟩
    have hrel : (MG.releasedCoarseSolver s5.param.level (some c5.state)
        s5.coarse_solver).filter ObjEvent.structural = [] := by
      rcases hcs : s5.coarse_solver with _ | _ | id
      · rfl
      · exact absurd (halias hcs) hV
      · rfl
    simp [List.filter_append, hrel, ObjEvent.structural]

/-- The part of `reset()` on a non-coarsest level before the coarse level is
created or reset: `createSmoother`, the transfer operator, `createCoarseDirac`. -/
theorem MG.reset_begin (n : Nat) (env : Env) (st : St)
    (hl : st.mg.state.param.level < st.mg.state.param.Nlevel - 1) :
    ∃ sA wA,
      MG.reset (n + 1) env false st =
        (do MG.coarseBlock env (onCoarse (MG.reset n env false)) (MG.ctor n env)
            MG.createCoarseSolver env
            MG.runVerify env
            MG.finalSiteSubset : MGM Unit) ⟨st.mg.setState sA, wA⟩ ∧
      sA.id = st.mg.state.id ∧ sA.param = st.mg.state.param ∧
      sA.coarse_solver = st.mg.state.coarse_solver ∧
      wA.invert_param = st.w.invert_param ∧
      (∀ t, st.mg.state.transfer = some t →
        sA.transfer = some { t with
          site_subset := .QUDA_FULL_SITE_SUBSET, parity := .QUDA_INVALID_PARITY } ∧
        sA.resetTransfer = false ∧
        sA.calls = st.mg.state.calls ++
          [.reset false, .createSmoother,
            .setSiteSubset .QUDA_FULL_SITE_SUBSET .QUDA_INVALID_PARITY] ++
          (if st.mg.state.resetTransfer = true then [.transferReset] else []) ++
          [.createCoarseDirac] ∧
        wA.objects.filter ObjEvent.structural = st.w.objects.filter ObjEvent.structural) ∧
      (st.mg.state.transfer = none →
        (∃ tid, sA.transfer = some ⟨tid, .QUDA_FULL_SITE_SUBSET, .QUDA_INVALID_PARITY⟩) ∧
        wA.objects.filterMap ObjEvent.newLevel = st.w.objects.filterMap ObjEvent.newLevel) := by
  obtain ⟨mg, w⟩ := st
  simp only [] at hl
  rw [MG.reset, M.bind_ok (logCall_run _ _)]
  obtain ⟨s1, w1, hrun, hid, hparam, htr, hrt, hcs, hcalls, hip, hobj, -⟩ :=
    MG.createSmoother_spec env
      ⟨mg.setState { mg.state with calls := mg.state.calls ++ [.reset false] }, w⟩
  simp only [MG.state_setState, MG.setState_setState] at hrun hid hparam htr hrt hcs hcalls hip hobj
  rw [M.bind_ok hrun, M.bind_ok (getS_run _)]
  simp only [Bool.false_eq_true, false_and, if_false, MG.state_setState, hparam, hl, if_true]
  rw [M.bind_ok (M.pure_run _ _)]
  obtain ht | ⟨t, ht⟩ : mg.state.transfer = none ∨ ∃ t, mg.state.transfer = some t := by
    cases mg.state.transfer <;> simp
  · have h1 := MG.setupTransfer_none env false ⟨mg.setState s1, w1⟩
      (by simpa using htr.trans ht)
    rw [M.bind_ok h1, M.bind_ok (logCall_run _ _)]
    simp only [MG.setState_setState, MG.state_setState]
    refine ⟨_, _, rfl, hid, hparam, hcs, hip,
      fun t h => absurd (ht.symm.trans h) (by simp), fun _ => ⟨⟨_, rfl⟩, ?_⟩⟩
    simp only [List.filterMap_append, List.filterMap_cons, List.filterMap_nil,
      ObjEvent.newLevel, List.append_nil]
    exact filterMap_newLevel_of_structural _ _ hobj
  · have h1 := MG.setupTransfer_some env ⟨mg.setState s1, w1⟩ t
      (by simpa using htr.trans ht)
    rw [M.bind_ok h1, M.bind_ok (logCall_run _ _)]
    simp only [MG.setState_setState, MG.state_setState]
    refine ⟨_, _, rfl, hid, hparam, hcs, hip, fun t1 h => ?_,
      fun h => absurd (h.symm.trans ht) (by simp)⟩
    have ht1 : t = t1 := Option.some.inj (ht.symm.trans h)
    subst ht1
    simp [hcalls, hrt, hobj]

theorem total_forLoop (n : Nat) (body : Nat → MGM Unit) (h : ∀ i, Total (body i)) :
    Total (forLoop n body) := by
  unfold Quda.forLoop
  induction n with
  | zero => exact total_pure ()
  | succ k ih =>
    rw [List.range_succ, List.foldl_append]
    exact total_bind ih fun _ => h k

theorem total_fresh : Total fresh := fun _ => ⟨_, rfl⟩

theorem total_logObj (e : ObjEvent) : Total (logObj e) := fun _ => ⟨(), rfl⟩

theorem keeps_core_fresh : Keeps St.core fresh := fun _ => rfl

theorem keeps_core_logObj (e : ObjEvent) (h : e.structural = false) :
    Keeps St.core (logObj e) := by
  intro st
  simp [St.core, List.filter_append, h]

/-- One set-up iteration with a set-up solver other than MG only runs the
solves. -/
theorem MG.setupIteration_other (env : Env) (param : MGParam) (t : QudaInverterType) (si : Nat)
    (reset generateCoarse resetCoarse : MGM Unit) (h : t ≠ .QUDA_MG_INVERTER) (st : St) :
    MG.setupIteration env param t si reset generateCoarse resetCoarse st =
      logCall (.setupIteration si) st := by
  unfold MG.setupIteration
  rw [M.bind_run, logCall_run]
  simp [h]

/-- With a set-up solver other than MG, `generateNullVectors` returns and leaves
the level as it is, up to its call log and the set-up solver it creates and
releases. -/
theorem MG.generateNullVectors_other (n : Nat) (env : Env) (refresh : Bool)
    (hsetup : ∀ L, env.mg_global.setup_inv_type L ≠ .QUDA_MG_INVERTER) :
    Total (MG.generateNullVectors (n + 1) env refresh) ∧
    Keeps St.core (MG.generateNullVectors (n + 1) env refresh) := by
  have hloop : ∀ (s : LevelState),
      Total (forLoop (env.mg_global.num_setup_iter s.param.level).toNat fun si =>
        MG.setupIteration env s.param (env.mg_global.setup_inv_type s.param.level) si
          (MG.reset n env false) (onCoarse (MG.generateNullVectors n env refresh))
          (onCoarse (MG.reset n env false))) ∧
      Keeps St.core (forLoop (env.mg_global.num_setup_iter s.param.level).toNat fun si =>
        MG.setupIteration env s.param (env.mg_global.setup_inv_type s.param.level) si
          (MG.reset n env false) (onCoarse (MG.generateNullVectors n env refresh))
          (onCoarse (MG.reset n env false))) := by
    intro s
    constructor
    · apply total_forLoop
      intro i st
      rw [MG.setupIteration_other _ _ _ _ _ _ _ (hsetup _)]
      exact ⟨(), rfl⟩
    · apply Keeps.forLoop
      intro i st
      rw [MG.setupIteration_other _ _ _ _ _ _ _ (hsetup _)]
      exact keeps_core_logCall _ st
  rw [MG.generateNullVectors]
  simp only [hsetup, if_false]
  constructor
  · repeat' first
      | with_reducible exact total_pure _
      | with_reducible exact total_getS
      | with_reducible exact total_fresh
      | with_reducible exact total_logObj _
      | with_reducible exact total_logCall _
      | with_reducible exact (hloop _).1
      | with_reducible refine total_bind ?_ (fun _ => ?_)
  · repeat' first
      | with_reducible exact Keeps.pure _ _
      | with_reducible exact Keeps.getS _
      | with_reducible exact keeps_core_fresh
      | ((with_reducible refine keeps_core_logObj _ ?_); rfl)
      | with_reducible exact keeps_core_logCall _
      | with_reducible exact (hloop _).2
      | with_reducible refine Keeps.bind ?_ (fun _ => ?_)

/-- With a set-up solver other than MG, lines 63-85 of `MG::MG` return and leave
the level as it is, up to its call log and solver objects. -/
theorem MG.nullVectorBlock_spec (n : Nat) (env : Env) (param : MGParam) (st : St)
    (hsetup : ∀ L, env.mg_global.setup_inv_type L ≠ .QUDA_MG_INVERTER) :
    ∃ s1 w1,
      MG.nullVectorBlock env param (MG.generateNullVectors (n + 1) env false) st =
        ⟨.ok (), ⟨st.mg.setState s1, w1⟩⟩ ∧
      s1.id = st.mg.state.id ∧ s1.param = st.mg.state.param ∧
      s1.transfer = st.mg.state.transfer ∧ s1.resetTransfer = st.mg.state.resetTransfer ∧
      s1.coarse_solver = st.mg.state.coarse_solver ∧
      w1.invert_param = st.w.invert_param ∧
      w1.objects.filter ObjEvent.structural = st.w.objects.filter ObjEvent.structural := by
  have hg := MG.generateNullVectors_other n env false hsetup
  have ht : Total (MG.nullVectorBlock env param (MG.generateNullVectors (n + 1) env false)) := by
    unfold MG.nullVectorBlock
    repeat' first
      | with_reducible exact total_pure _
      | with_reducible exact total_logCall _
      | with_reducible exact hg.1
      | with_reducible refine total_bind ?_ (fun _ => ?_)
      | with_reducible refine total_ite ?_ ?_
  have hk : Keeps St.core
      (MG.nullVectorBlock env param (MG.generateNullVectors (n + 1) env false)) := by
    unfold MG.nullVectorBlock
    repeat' first
      | with_reducible exact Keeps.pure _ _
      | with_reducible exact keeps_core_logCall _
      | with_reducible exact hg.2
      | with_reducible refine Keeps.bind ?_ (fun _ => ?_)
      | with_reducible refine Keeps.ite ?_ ?_
  obtain ⟨a, hok⟩ := ht st
  have hcore := hk st
  simp only [St.core, Prod.mk.injEq] at hcore
  obtain ⟨h1, h2, h3, h4, h5, h6, h7, h8⟩ := hcore
  refine ⟨_, _, ?_, h2, h3, h4, h5, h6, h7, h8⟩
  rw [← MG.eq_setState_of_coarse_eq _ _ h1, ← hok]

/-- `reset()` on the coarsest level only creates the smoother. -/
theorem MG.reset_coarsest (n : Nat) (env : Env) (st : St)
    (hl : ¬ st.mg.state.param.level < st.mg.state.param.Nlevel - 1) :
    ∃ s1 w1, MG.reset (n + 1) env false st = ⟨.ok (), ⟨st.mg.setState s1, w1⟩⟩ ∧
      s1.id = st.mg.state.id ∧ s1.param = st.mg.state.param ∧
      s1.transfer = st.mg.state.transfer ∧ s1.resetTransfer = st.mg.state.resetTransfer ∧
      s1.coarse_solver = st.mg.state.coarse_solver ∧
      s1.calls = st.mg.state.calls ++ [.reset false, .createSmoother] ∧
      w1.invert_param = st.w.invert_param ∧
      w1.objects.filter ObjEvent.structural = st.w.objects.filter ObjEvent.structural := by
  obtain ⟨mg, w⟩ := st
  simp only [] at hl
  rw [MG.reset, M.bind_ok (logCall_run _ _)]
  obtain ⟨s1, w1, hrun, hid, hparam, htr, hrt, hcs, hcalls, hip, hobj, -⟩ :=
    MG.createSmoother_spec env
      ⟨mg.setState { mg.state with calls := mg.state.calls ++ [.reset false] }, w⟩
  simp only [MG.state_setState, MG.setState_setState] at hrun hid hparam htr hrt hcs hcalls hip hobj
  rw [M.bind_ok hrun, M.bind_ok (getS_run _)]
  simp only [Bool.false_eq_true, false_and, if_false, MG.state_setState, hparam, hl]
  rw [M.bind_ok (M.pure_run _ _)]
  exact ⟨s1, w1, rfl, hid, hparam, htr, hrt, hcs, by simp [hcalls], hip, hobj⟩

@[simp] theorem MG.coarseParam_level (env : Env) (s : LevelState) (w : World) :
    (MG.coarseParam env s w).level = s.param.level + 1 := rfl

@[simp] theorem MG.coarseParam_Nlevel (env : Env) (s : LevelState) (w : World) :
    (MG.coarseParam env s w).Nlevel = s.param.Nlevel := rfl

@[simp] theorem MG.coarseParam_fine (env : Env) (s : LevelState) (w : World) :
    (MG.coarseParam env s w).fine = some s.id := rfl

@[simp] theorem MG.coarseParam_cycle_type (env : Env) (s : LevelState) (w : World) :
    (MG.coarseParam env s w).cycle_type = env.mg_global.cycle_type (s.param.level + 1) := rfl

theorem MG.coarseParam_parityCheck (env : Env) (s : LevelState) (w : World)
    (h : ¬ (env.mg_global.coarse_grid_solution_type (s.param.level + 1) = .QUDA_MATPC_SOLUTION ∧
      env.mg_global.smoother_solve_type (s.param.level + 1) ≠ .QUDA_DIRECT_PC_SOLVE)) :
    MG.parityCheck (MG.coarseParam env s w) = .ok () := by
  unfold MG.parityCheck
  rw [if_neg]
  exact h

theorem range_succ_map_add (level : Int) (k : Nat) :
    (List.range (k + 1 + 1)).map (fun i : Nat => level + (i : Int)) =
      level :: (List.range (k + 1)).map (fun i : Nat => level + 1 + (i : Int)) := by
  rw [List.range_succ_eq_map (k + 1)]
  simp only [List.map_cons, List.map_map, Nat.cast_zero, add_zero, List.cons.injEq, true_and]
  apply List.map_congr_left
  intro i _
  simp only [Function.comp, Nat.succ_eq_add_one, Nat.cast_add, Nat.cast_one]
  ring

/-- The head of the constructor, for a level below the limit with an accepted
parity configuration. -/
theorem MG.ctor_unfold (f : Nat) (env : Env) (param : MGParam) (w : World)
    (hmax1 : ¬ param.level ≥ env.QUDA_MAX_MG_LEVEL) (hpar0 : MG.parityCheck param = .ok ()) :
    MG.ctor (f + 2) env param w =
      (do MG.nullVectorBlock env param (MG.generateNullVectors (f + 1) env false)
          let s ← getS
          if s.transfer.isNone then MG.reset (f + 1) env false : MGM Unit)
        ⟨.leaf { LevelState.init w.nextId param with calls := [.allocateVectors] },
          { w with
            nextId := w.nextId + 1
            objects := w.objects ++ [.new .MG w.nextId param.level] }⟩ := by
  rw [MG.ctor, M.bind_ok (logObj_run _ _), if_neg hmax1, M.bind_ok (M.pure_run _ _)]
  beta_reduce
  rw [hpar0, M.bind_ok (liftExcept_run _ _), M.bind_ok (logCall_run _ _)]
  rfl

/-- Construction of the levels `param.level .. Nlevel-1`, with a set-up solver
other than MG, supported cycle types, accepted parity configurations and
verification switched off: with two units of fuel per level the constructor
returns, and leaves a fully set-up hierarchy with one level object per index. -/
theorem MG.ctor_builds (env : Env) (hverify : env.mg_global.run_verify = false)
    (hsetup : ∀ L, env.mg_global.setup_inv_type L ≠ .QUDA_MG_INVERTER) :
    ∀ (k : Nat) (param : MGParam) (w : World) (fuel : Nat),
      param.Nlevel = param.level + ((k : Int) + 1) →
      param.Nlevel ≤ env.QUDA_MAX_MG_LEVEL →
      MG.parityCheck param = .ok () →
      (∀ L, param.level < L → L < param.Nlevel →
        ¬ (env.mg_global.coarse_grid_solution_type L = .QUDA_MATPC_SOLUTION ∧
          env.mg_global.smoother_solve_type L ≠ .QUDA_DIRECT_PC_SOLVE)) →
      (param.level < param.Nlevel - 2 →
        param.cycle_type = .QUDA_MG_CYCLE_VCYCLE ∨
          param.cycle_type = .QUDA_MG_CYCLE_RECURSIVE) →
      (∀ L, param.level < L → L < param.Nlevel - 2 →
        env.mg_global.cycle_type L = .QUDA_MG_CYCLE_VCYCLE ∨
          env.mg_global.cycle_type L = .QUDA_MG_CYCLE_RECURSIVE) →
      2 * (k + 1) ≤ fuel →
      ∃ mg w1, MG.ctor fuel env param w = ⟨.ok (), ⟨mg, w1⟩⟩ ∧ mg.SetUp ∧
        mg.state.param = param ∧ mg.state.id = w.nextId ∧
        mg.toList.map (·.param.level) =
          (List.range (k + 1)).map (fun i : Nat => param.level + (i : Int)) ∧
        w1.objects.filterMap ObjEvent.newLevel =
          w.objects.filterMap ObjEvent.newLevel ++
            (List.range (k + 1)).map (fun i : Nat => param.level + (i : Int)) ∧
        w1.invert_param = w.invert_param := by
  intro k
  induction k with
  | zero =>
    intro param w fuel hk hmax hpar0 _ _ _ hfuel
    obtain ⟨f, rfl⟩ : ∃ f, fuel = f + 2 := ⟨fuel - 2, by omega⟩
    have hmax1 : ¬ param.level ≥ env.QUDA_MAX_MG_LEVEL := by
      simp only [Nat.cast_zero, zero_add] at hk; omega
    have hcoarsest : ¬ param.level < param.Nlevel - 1 := by
      simp only [Nat.cast_zero, zero_add] at hk; omega
    rw [MG.ctor_unfold f env param w hmax1 hpar0]
    obtain ⟨s2, w2, hrun2, hid2, hparam2, htr2, hrt2, hcs2, hip2, hobj2⟩ :=
      MG.nullVectorBlock_spec f env param
        ⟨.leaf { LevelState.init w.nextId param with calls := [.allocateVectors] },
          { w with
            nextId := w.nextId + 1
            objects := w.objects ++ [.new .MG w.nextId param.level] }⟩ hsetup
    simp only [MG.state_leaf, LevelState.init] at hid2 hparam2 htr2 hrt2 hcs2 hip2 hobj2
    rw [M.bind_ok hrun2, M.bind_ok (getS_run _)]
    simp only [MG.state_leaf, MG.setState_leaf, htr2, Option.isNone_none, if_true]
    obtain ⟨s3, w3, hrun3, hid3, hparam3, htr3, -, -, -, hip3, hobj3⟩ :=
      MG.reset_coarsest f env ⟨.leaf s2, w2⟩ (by simpa [hparam2] using hcoarsest)
    simp only [MG.state_leaf, MG.setState_leaf] at hrun3 hid3 hparam3 htr3 hip3 hobj3
    refine ⟨.leaf s3, w3, hrun3, ?_, by simp [hparam3, hparam2], by simp [hid3, hid2], ?_, ?_,
      by rw [hip3, hip2]⟩
    · simp only [MG.SetUp, hparam3, hparam2, htr3, htr2, and_true]
      simp only [Nat.cast_zero, zero_add] at hk; omega
    · simp [MG.toList, hparam3, hparam2, List.range_succ]
    · rw [filterMap_newLevel_of_structural _ _ hobj3, filterMap_newLevel_of_structural _ _ hobj2]
      simp [List.filterMap_append, ObjEvent.newLevel, List.range_succ]
  | succ k ih =>
    intro param w fuel hk hmax hpar0 hpar hcyc0 hcyc hfuel
    obtain ⟨f, rfl⟩ : ∃ f, fuel = f + 2 := ⟨fuel - 2, by omega⟩
    have hk1 : param.Nlevel = param.level + ((k : Int) + 2) := by
      rw [hk]; push_cast; ring
    have hmax1 : ¬ param.level ≥ env.QUDA_MAX_MG_LEVEL := by omega
    have hfine : param.level < param.Nlevel - 1 := by omega
    rw [MG.ctor_unfold f env param w hmax1 hpar0]
    obtain ⟨s2, w2, hrun2, hid2, hparam2, htr2, hrt2, hcs2, hip2, hobj2⟩ :=
      MG.nullVectorBlock_spec f env param
        ⟨.leaf { LevelState.init w.nextId param with calls := [.allocateVectors] },
          { w with
            nextId := w.nextId + 1
            objects := w.objects ++ [.new .MG w.nextId param.level] }⟩ hsetup
    simp only [MG.state_leaf, LevelState.init] at hid2 hparam2 htr2 hrt2 hcs2 hip2 hobj2
    rw [M.bind_ok hrun2, M.bind_ok (getS_run _)]
    simp only [MG.state_leaf, MG.setState_leaf, htr2, Option.isNone_none, if_true]
    obtain ⟨sA, wA, hrunA, hidA, hparamA, hcsA, hipA, -, hnoneA⟩ :=
      MG.reset_begin f env ⟨.leaf s2, w2⟩ (by simpa [hparam2] using hfine)
    simp only [MG.state_leaf, MG.setState_leaf] at hrunA hidA hparamA hcsA hipA hnoneA
    obtain ⟨⟨tid, htA⟩, hnewA⟩ := hnoneA htr2
    rw [hrunA]
    have hlevA : sA.param.level = param.level := by rw [hparamA, hparam2]
    have hNA : sA.param.Nlevel = param.Nlevel := by rw [hparamA, hparam2]
    obtain ⟨c, w5, hrunC, hsetC, hparamC, hidC, hlistC, hobjC, hipC⟩ :=
      ih (MG.coarseParam env sA wA) wA f
        (by simp only [MG.coarseParam_Nlevel, MG.coarseParam_level, hlevA, hNA]; omega)
        (by simp only [MG.coarseParam_Nlevel, hNA]; exact hmax)
        (MG.coarseParam_parityCheck env sA wA
          (by rw [hlevA]; exact hpar _ (by omega) (by omega)))
        (fun L h1 h2 => hpar L
          (by simp only [MG.coarseParam_level, hlevA] at h1; omega)
          (by simp only [MG.coarseParam_Nlevel, hNA] at h2; exact h2))
        (fun h => by
          simp only [MG.coarseParam_level, MG.coarseParam_Nlevel, MG.coarseParam_cycle_type,
            hlevA, hNA] at h ⊢
          exact hcyc _ (by omega) h)
        (fun L h1 h2 => hcyc L
          (by simp only [MG.coarseParam_level, hlevA] at h1; omega)
          (by simp only [MG.coarseParam_Nlevel, hNA] at h2; exact h2))
        (by omega)
    have hcb : MG.coarseBlock env (onCoarse (MG.reset f env false)) (MG.ctor f env)
        ⟨.leaf sA, wA⟩ =
        ⟨.ok (), ⟨.node { sA with calls := sA.calls ++ [.newCoarse] } c, w5⟩⟩ := by
      rw [MG.coarseBlock_none, hrunC]
    rw [M.bind_ok hcb]
    obtain ⟨s8, w8, hrun8, hid8, hparam8, htr8, -, halias8, -, hip8, hobj8⟩ :=
      MG.reset_finish env { sA with calls := sA.calls ++ [.newCoarse] } c w5
        ⟨tid, .QUDA_FULL_SITE_SUBSET, .QUDA_INVALID_PARITY⟩ htA hverify
        (by simpa [hlevA, hNA] using hfine)
        (by
          intro h
          simp only [hparamA, hparam2] at h ⊢
          exact hcyc0 h)
        (by
          intro h
          simp only [hcsA, hcs2] at h
          exact absurd h (by simp))
    simp only [] at hid8 hparam8 halias8
    refine ⟨.node s8 c, w8, hrun8, ?_, by simp [hparam8, hparamA, hparam2],
      by simp [hid8, hidA, hid2], ?_, ?_, by rw [hip8, hipC, hipA, hip2]⟩
    · simp only [MG.SetUp, hparam8, hparamA, hparam2, hparamC, MG.coarseParam_level,
        MG.coarseParam_Nlevel, MG.coarseParam_fine, hid8, and_true, true_and, hsetC]
      refine ⟨hfine, ?_, ?_, hcyc0⟩
      · cases hs : s8.transfer with
        | none => simp [hs] at htr8
        | some _ => rfl
      · intro h
        have := halias8 h
        simpa [hparamA, hparam2] using this
    · rw [range_succ_map_add]
      simp only [MG.toList, List.map_cons, hparam8, hparamA, hparam2, List.cons.injEq, true_and]
      rw [hlistC]
      simp only [MG.coarseParam_level, hlevA]
    · rw [filterMap_newLevel_of_structural _ _ hobj8, hobjC, hnewA,
        filterMap_newLevel_of_structural _ _ hobj2, range_succ_map_add]
      simp [List.filterMap_append, ObjEvent.newLevel, hlevA]

/-- Construction is fatal when the cycle type of a level above `Nlevel-2` is
neither the V-cycle nor the recursive cycle, although the levels below it are
built: `createCoarseSolver` of that level aborts. -/
theorem MG.ctor_unsupported_cycle (env : Env) (hverify : env.mg_global.run_verify = false)
    (hsetup : ∀ L, env.mg_global.setup_inv_type L ≠ .QUDA_MG_INVERTER)
    (k : Nat) (param : MGParam) (w : World) (fuel : Nat)
    (hk : param.Nlevel = param.level + ((k : Int) + 3))
    (hmax : param.Nlevel ≤ env.QUDA_MAX_MG_LEVEL)
    (hpar0 : MG.parityCheck param = .ok ())
    (hpar : ∀ L, param.level < L → L < param.Nlevel →
      ¬ (env.mg_global.coarse_grid_solution_type L = .QUDA_MATPC_SOLUTION ∧
        env.mg_global.smoother_solve_type L ≠ .QUDA_DIRECT_PC_SOLVE))
    (hV : param.cycle_type ≠ .QUDA_MG_CYCLE_VCYCLE)
    (hR : param.cycle_type ≠ .QUDA_MG_CYCLE_RECURSIVE)
    (hcyc : ∀ L, param.level < L → L < param.Nlevel - 2 →
      env.mg_global.cycle_type L = .QUDA_MG_CYCLE_VCYCLE ∨
        env.mg_global.cycle_type L = .QUDA_MG_CYCLE_RECURSIVE)
    (hfuel : 2 * (k + 3) ≤ fuel) :
    (MG.ctor fuel env param w).out =
      .error (.errorQuda "Multigrid cycle type not supported") := by
  obtain ⟨f, rfl⟩ : ∃ f, fuel = f + 2 := ⟨fuel - 2, by omega⟩
  have hmax1 : ¬ param.level ≥ env.QUDA_MAX_MG_LEVEL := by omega
  have hfine : param.level < param.Nlevel - 1 := by omega
  rw [MG.ctor_unfold f env param w hmax1 hpar0]
  obtain ⟨s2, w2, hrun2, hid2, hparam2, htr2, hrt2, hcs2, hip2, hobj2⟩ :=
    MG.nullVectorBlock_spec f env param
      ⟨.leaf { LevelState.init w.nextId param with calls := [.allocateVectors] },
        { w with
          nextId := w.nextId + 1
          objects := w.objects ++ [.new .MG w.nextId param.level] }⟩ hsetup
  simp only [MG.state_leaf, LevelState.init] at hid2 hparam2 htr2 hrt2 hcs2 hip2 hobj2
  rw [M.bind_ok hrun2, M.bind_ok (getS_run _)]
  simp only [MG.state_leaf, MG.setState_leaf, htr2, Option.isNone_none, if_true]
  obtain ⟨sA, wA, hrunA, hidA, hparamA, hcsA, hipA, -, hnoneA⟩ :=
    MG.reset_begin f env ⟨.leaf s2, w2⟩ (by simpa [hparam2] using hfine)
  simp only [MG.state_leaf, MG.setState_leaf] at hrunA hidA hparamA hcsA hipA hnoneA
  rw [hrunA]
  have hlevA : sA.param.level = param.level := by rw [hparamA, hparam2]
  have hNA : sA.param.Nlevel = param.Nlevel := by rw [hparamA, hparam2]
  obtain ⟨c, w5, hrunC, -⟩ :=
    MG.ctor_builds env hverify hsetup (k + 1) (MG.coarseParam env sA wA) wA f
      (by simp only [MG.coarseParam_Nlevel, MG.coarseParam_level, hlevA, hNA]; push_cast; omega)
      (by simp only [MG.coarseParam_Nlevel, hNA]; exact hmax)
      (MG.coarseParam_parityCheck env sA wA
        (by rw [hlevA]; exact hpar _ (by omega) (by omega)))
      (fun L h1 h2 => hpar L
        (by simp only [MG.coarseParam_level, hlevA] at h1; omega)
        (by simp only [MG.coarseParam_Nlevel, hNA] at h2; exact h2))
      (fun h => by
        simp only [MG.coarseParam_level, MG.coarseParam_Nlevel, MG.coarseParam_cycle_type,
          hlevA, hNA] at h ⊢
        exact hcyc _ (by omega) h)
      (fun L h1 h2 => hcyc L
        (by simp only [MG.coarseParam_level, hlevA] at h1; omega)
        (by simp only [MG.coarseParam_Nlevel, hNA] at h2; exact h2))
      (by omega)
  have hcb : MG.coarseBlock env (onCoarse (MG.reset f env false)) (MG.ctor f env)
      ⟨.leaf sA, wA⟩ =
      ⟨.ok (), ⟨.node { sA with calls := sA.calls ++ [.newCoarse] } c, w5⟩⟩ := by
    rw [MG.coarseBlock_none, hrunC]
  rw [M.bind_ok hcb, M.bind_run,
    MG.createCoarseSolver_unsupported env _ (by simpa [hparamA, hparam2] using hV)
      (by simpa [hparamA, hparam2] using hR)
      (by simp only [MG.state_node, hlevA, hNA]; omega)]

theorem SolverParam.updateInvertParam_iter (s : SolverParam) (p : QudaInvertParam) :
    (s.updateInvertParam p).iter = p.iter + s.iter := by
  unfold SolverParam.updateInvertParam
  simp only []
  rw [foldl_updateOffsetAt_frame]

theorem MG.toList_setState (mg : MG) (s : LevelState) :
    (mg.setState s).toList = s :: mg.toList.tail := by
  cases mg <;> rfl

theorem MG.toList_eq (mg : MG) : mg.toList = mg.state :: mg.toList.tail := by
  cases mg <;> rfl

theorem MG.SetUp_setState (mg : MG) (s : LevelState) (h : mg.SetUp)
    (h1 : s.id = mg.state.id) (h2 : s.param.level = mg.state.param.level)
    (h3 : s.param.Nlevel = mg.state.param.Nlevel)
    (h4 : s.param.cycle_type = mg.state.param.cycle_type)
    (h5 : s.transfer = mg.state.transfer) (h6 : s.coarse_solver = mg.state.coarse_solver) :
    (mg.setState s).SetUp := by
  cases mg with
  | leaf s0 =>
    simp only [MG.state_leaf] at h1 h2 h3 h4 h5 h6
    simp only [MG.SetUp] at h
    simp only [MG.setState_leaf, MG.SetUp, h2, h3, h5]
    exact h
  | node s0 c =>
    simp only [MG.state_node] at h1 h2 h3 h4 h5 h6
    simp only [MG.SetUp] at h
    simp only [MG.setState_node, MG.SetUp, h1, h2, h3, h4, h5, h6]
    exact h

/-- `reset()` on a fully set-up hierarchy, with verification switched off and
one unit of fuel per level. -/
theorem MG.reset_setUp (env : Env) (hverify : env.mg_global.run_verify = false) :
    ∀ (n : Nat) (mg : MG) (w : World) (fuel : Nat),
      mg.toList.length = n + 1 → mg.SetUp → n + 1 ≤ fuel →
      ∃ mg1 w1, MG.reset fuel env false ⟨mg, w⟩ = ⟨.ok (), ⟨mg1, w1⟩⟩ ∧ mg1.SetUp ∧
        mg1.toList.map LevelState.shape = mg.toList.map LevelState.shape ∧
        w1.objects.filter ObjEvent.structural = w.objects.filter ObjEvent.structural ∧
        w1.invert_param.iter =
          w.invert_param.iter + (mg.toList.tail.map (·.param.iter)).sum ∧
        (mg.state.param.level < mg.state.param.Nlevel - 1 →
          ∃ site_subset parity, mg1.state.calls = mg.state.calls ++
            [.reset false, .createSmoother,
              .setSiteSubset .QUDA_FULL_SITE_SUBSET .QUDA_INVALID_PARITY] ++
            (if mg.state.resetTransfer = true then [.transferReset] else []) ++
            [.createCoarseDirac, .updateCoarse, .createCoarseSolver,
              .setSiteSubset site_subset parity]) ∧
        (¬ mg.state.param.level < mg.state.param.Nlevel - 1 →
          mg1.state.calls = mg.state.calls ++ [.reset false, .createSmoother]) := by
  intro n
  induction n with
  | zero =>
    intro mg w fuel hlen hset hfuel
    obtain ⟨f, rfl⟩ : ∃ f, fuel = f + 1 := ⟨fuel - 1, by omega⟩
    cases mg with
    | node s c =>
      have : 0 < c.toList.length := by cases c <;> simp [MG.toList]
      simp only [MG.toList, List.length_cons] at hlen
      omega
    | leaf s =>
      simp only [MG.SetUp] at hset
      have hl : ¬ s.param.level < s.param.Nlevel - 1 := by omega
      obtain ⟨s1, w1, hrun, hid, hparam, htr, -, -, hcalls, hip, hobj⟩ :=
        MG.reset_coarsest f env ⟨.leaf s, w⟩ hl
      simp only [MG.state_leaf, MG.setState_leaf] at hrun hid hparam htr hcalls hip hobj
      refine ⟨.leaf s1, w1, hrun, ?_, ?_, hobj, ?_, fun h => absurd h hl, fun _ => hcalls⟩
      · simp only [MG.SetUp, hparam, htr]; exact hset
      · simp [MG.toList, LevelState.shape, hid, hparam, htr]
      · simp [MG.toList, hip]
  | succ n ih =>
    intro mg w fuel hlen hset hfuel
    obtain ⟨f, rfl⟩ : ∃ f, fuel = f + 1 := ⟨fuel - 1, by omega⟩
    cases mg with
    | leaf s => simp [MG.toList] at hlen
    | node s c =>
      simp only [MG.toList, List.length_cons, add_left_inj] at hlen
      simp only [MG.SetUp] at hset
      obtain ⟨hl, htrs, hclev, hcN, hcfine, halias, hcyc, hcset⟩ := hset
      obtain ⟨t, ht⟩ := Option.isSome_iff_exists.mp htrs
      obtain ⟨sA, wA, hrunA, hidA, hparamA, hcsA, hipA, hsomeA, -⟩ :=
        MG.reset_begin f env ⟨.node s c, w⟩ hl
      simp only [MG.state_node, MG.setState_node] at hrunA hidA hparamA hcsA hipA hsomeA
      obtain ⟨htA, hrtA, hcallsA, hobjA⟩ := hsomeA t ht
      rw [hrunA]
      obtain ⟨c1, w5, hrunC, hsetC, hshapeC, hobjC, hiterC, -, -⟩ :=
        ih (c.setState { c.state with param :=
            { c.state.param with
              delta := 1 / 10 ^ 20
              precision := (c.state.param.toSolverParam.updateInvertParam
                wA.invert_param).cuda_prec_precondition } })
          { wA with invert_param :=
            c.state.param.toSolverParam.updateInvertParam wA.invert_param } f
          (by rw [MG.toList_setState, List.length_cons, ← hlen, MG.toList_eq c]; simp)
          (MG.SetUp_setState c _ hcset rfl rfl rfl rfl rfl rfl) (by omega)
      have hcb : MG.coarseBlock env (onCoarse (MG.reset f env false)) (MG.ctor f env)
          ⟨.node sA c, wA⟩ =
          ⟨.ok (), ⟨.node { sA with calls := sA.calls ++ [.updateCoarse] } c1, w5⟩⟩ := by
        rw [MG.coarseBlock_some, hrunC]
      rw [M.bind_ok hcb]
      obtain ⟨s8, w8, hrun8, hid8, hparam8, htr8, -, halias8, ⟨ss, par, hcalls8⟩, hip8, hobj8⟩ :=
        MG.reset_finish env { sA with calls := sA.calls ++ [.updateCoarse] } c1 w5
          { t with site_subset := .QUDA_FULL_SITE_SUBSET, parity := .QUDA_INVALID_PARITY }
          htA hverify (by simpa [hparamA] using hl)
          (by intro h; simp only [hparamA] at h ⊢; exact hcyc h)
          (by intro h; simp only [hcsA] at h; simpa [hparamA] using halias h)
      simp only [] at hid8 hparam8 htr8 halias8 hcalls8
      rw [MG.toList_setState] at hshapeC
      have hhead : c1.state.shape = c.state.shape := by
        rw [MG.toList_eq c1] at hshapeC
        simp only [List.map_cons, List.cons.injEq] at hshapeC
        simpa [LevelState.shape] using hshapeC.1
      have htail : c1.toList.map LevelState.shape = c.toList.map LevelState.shape := by
        rw [hshapeC, MG.toList_eq c]
        simp [LevelState.shape]
      simp only [LevelState.shape, Prod.mk.injEq] at hhead
      obtain ⟨hcid, hclev1, hcN1, hcfine1, -, -⟩ := hhead
      refine ⟨.node s8 c1, w8, hrun8, ?_, ?_, by rw [hobj8, hobjC, hobjA], ?_,
        fun _ => ⟨ss, par, ?_⟩, fun h => absurd hl h⟩
      · simp only [MG.SetUp, hparam8, hparamA, hid8, hidA, hclev1, hcN1, hcfine1, hsetC,
          and_true]
        refine ⟨hl, ?_, hclev, hcN, hcfine, ?_, hcyc⟩
        · cases hs : s8.transfer with
          | none => simp [hs] at htr8
          | some _ => rfl
        · intro h
          simpa [hparamA] using halias8 h
      · simp only [MG.toList, List.map_cons, htail, List.cons.injEq, and_true]
        simp [LevelState.shape, hid8, hidA, hparam8, hparamA, htr8, ht]
      · rw [hip8, hiterC]
        simp only [MG.toList_setState, List.tail_cons, SolverParam.updateInvertParam_iter, hipA,
          MG.toList, MG.state_node]
        rw [MG.toList_eq c]
        simp only [List.map_cons, List.sum_cons, List.tail_cons]
        ring
      · simp only [MG.state_node, hcalls8, hcallsA]
        simp

theorem map_iter_of_shape (l1 l2 : List LevelState)
    (h : l1.map LevelState.shape = l2.map LevelState.shape) :
    l1.map (·.param.iter) = l2.map (·.param.iter) := by
  have key : ∀ l : List LevelState,
      l.map (·.param.iter) = (l.map LevelState.shape).map (fun p => p.2.2.2.2.1) := by
    intro l
    simp [List.map_map, Function.comp, LevelState.shape]
  rw [key l1, key l2, h]

theorem sampleSetUp_setUp : sampleSetUp.mg.SetUp := by
  simp [sampleSetUp, MG.SetUp, LevelState.init, sampleMGParam]

/-- Two `reset()` in succession on a fully set-up hierarchy: both return, the
shape of the hierarchy and the record of level objects and transfer operators
stay as they were, and the iteration counts of the coarse levels have been added
to the caller's invert configuration twice. -/
theorem MG.reset_twice (env : Env) (hverify : env.mg_global.run_verify = false)
    (mg : MG) (w : World) (fuel : Nat) (hset : mg.SetUp) (hfuel : mg.toList.length ≤ fuel) :
    ∃ st1 st2, MG.reset fuel env false ⟨mg, w⟩ = ⟨.ok (), st1⟩ ∧
      MG.reset fuel env false st1 = ⟨.ok (), st2⟩ ∧
      st1.mg.SetUp ∧ st2.mg.SetUp ∧
      st1.mg.toList.map LevelState.shape = mg.toList.map LevelState.shape ∧
      st2.mg.toList.map LevelState.shape = mg.toList.map LevelState.shape ∧
      st1.w.objects.filter ObjEvent.structural = w.objects.filter ObjEvent.structural ∧
      st2.w.objects.filter ObjEvent.structural = w.objects.filter ObjEvent.structural ∧
      st1.w.invert_param.iter =
        w.invert_param.iter + (mg.toList.tail.map (·.param.iter)).sum ∧
      st2.w.invert_param.iter =
        w.invert_param.iter + 2 * (mg.toList.tail.map (·.param.iter)).sum := by
  obtain ⟨n, hn⟩ : ∃ n, mg.toList.length = n + 1 :=
    ⟨mg.toList.length - 1, by cases mg <;> simp [MG.toList]⟩
  obtain ⟨mg1, w1, hrun1, hset1, hshape1, hobj1, hiter1, -, -⟩ :=
    MG.reset_setUp env hverify n mg w fuel hn hset (by omega)
  have hlen1 : mg1.toList.length = n + 1 := by
    have := congrArg List.length hshape1
    simpa [hn] using this
  obtain ⟨mg2, w2, hrun2, hset2, hshape2, hobj2, hiter2, -, -⟩ :=
    MG.reset_setUp env hverify n mg1 w1 fuel hlen1 hset1 (by omega)
  refine ⟨⟨mg1, w1⟩, ⟨mg2, w2⟩, hrun1, hrun2, hset1, hset2, hshape1, hshape2.trans hshape1,
    hobj1, hobj2.trans hobj1, hiter1, ?_⟩
  have hit := map_iter_of_shape _ _ hshape1
  have htl : mg1.toList.tail.map (·.param.iter) = mg.toList.tail.map (·.param.iter) := by
    have := congrArg List.tail hit
    simpa [List.map_tail] using this
  simp only [] at hiter2 ⊢
  rw [hiter2, hiter1, htl]
  ring

/-- C6 (counterexample): level `0` of a two-level hierarchy configured with
`compute_null_vector = YES` and `num_setup_iter[0] = 0`.  The level is not the
coarsest, its construction completes, and none of the three null-space paths is
entered during its construction. -/
theorem c6_counterexample :
    (sampleMGParam 2).level < (sampleMGParam 2).Nlevel - 1 ∧
    (MG.ctor 4
      (sampleEnv { sampleMultigridParam with
        compute_null_vector := true, num_setup_iter := fun _ => 0 })
      (sampleMGParam 2) sampleWorld).out = .ok () ∧
    St.nullPaths (MG.ctor 4
      (sampleEnv { sampleMultigridParam with
        compute_null_vector := true, num_setup_iter := fun _ => 0 })
      (sampleMGParam 2) sampleWorld).st = [] := by
  refine ⟨by decide, ?_,
    MG.ctor_nullPaths 2
      (sampleEnv { sampleMultigridParam with
        compute_null_vector := true, num_setup_iter := fun _ => 0 })
      (sampleMGParam 2) sampleWorld (by decide) (by decide) rfl⟩
  obtain ⟨mg, w1, h, -⟩ := MG.ctor_builds
    (sampleEnv { sampleMultigridParam with
      compute_null_vector := true, num_setup_iter := fun _ => 0 }) rfl
    (fun _ => by simp [sampleEnv, sampleMultigridParam]) 1 (sampleMGParam 2) sampleWorld 4
    (by decide) (by decide) rfl (fun _ _ _ => by simp [sampleEnv, sampleMultigridParam])
    (fun h => absurd h (by decide)) (fun _ _ _ => by simp [sampleEnv, sampleMultigridParam])
    (by decide)
  rw [h]

/-! #### The global orthonormalisation -/

theorem MG.orthonormalize_succ {V K R : Type} (ops : VectorOps V K R) [Neg K] [One R] [Div R]
    [LT R] [OfScientific R] [∀ a b : R, Decidable (a < b)] (post : Bool) (n : ℕ) (B : ℕ → V) :
    MG.orthonormalize ops post (n + 1) B =
      (MG.orthonormalize ops post n B).bind
        (fun Bn => MG.normalize ops post n (MG.orthogonalize ops n Bn)) := by
  unfold MG.orthonormalize
  rw [List.range_succ, List.foldlM_append]
  cases (List.range n).foldlM (fun B i => MG.normalize ops post i (MG.orthogonalize ops i B)) B with
  | error e => rfl
  | ok Bn =>
    show (MG.normalize ops post n (MG.orthogonalize ops n Bn) >>= pure) = _
    rw [bind_pure]
    rfl

section GramSchmidtProofs

variable {𝕜 E : Type} [RCLike 𝕜] [NormedAddCommGroup E] [InnerProductSpace 𝕜 E]

theorem span_image_Iio_succ (f : ℕ → E) (i : ℕ) :
    Submodule.span 𝕜 (Set.image f (Set.Iio (i + 1))) =
      Submodule.span 𝕜 (Set.image f (Set.Iio i)) ⊔ Submodule.span 𝕜 {f i} := by
  have h : Set.Iio (i + 1) = insert i (Set.Iio i) := by
    ext m
    simp only [Set.mem_Iio, Set.mem_insert_iff]
    omega
  rw [h, Set.image_insert_eq, Submodule.span_insert, sup_comm]

theorem MG.orthogonalize_aux (ops : VectorOps E 𝕜 ℝ) (h : ops.Exact) (i : ℕ) (Bc : ℕ → E)
    (horth : ∀ a, a < i → ∀ b, b < i → inner (Bc a) (Bc b) = if a = b then (1 : 𝕜) else 0) :
    ∀ j, j ≤ i →
      (∀ m, m ≠ i → (List.range j).foldl (fun B j =>
          Function.update B i (ops.caxpy (-(ops.cDotProduct (B j) (B i))) (B j) (B i))) Bc m
            = Bc m) ∧
      (∀ a, a < j → inner (Bc a) ((List.range j).foldl (fun B j =>
          Function.update B i (ops.caxpy (-(ops.cDotProduct (B j) (B i))) (B j) (B i))) Bc i)
            = (0 : 𝕜)) ∧
      Bc i - (List.range j).foldl (fun B j =>
          Function.update B i (ops.caxpy (-(ops.cDotProduct (B j) (B i))) (B j) (B i))) Bc i
        ∈ Submodule.span 𝕜 (Set.image Bc (Set.Iio j)) := by
  intro j
  induction j with
  | zero =>
    intro _
    refine ⟨fun m _ => rfl, fun a ha => absurd ha (Nat.not_lt_zero a), ?_⟩
    simp
  | succ j ih =>
    intro hj
    obtain ⟨ih1, ih2, ih3⟩ := ih (Nat.le_of_succ_le hj)
    have hji : j ≠ i := by omega
    rw [List.range_succ, List.foldl_append]
    simp only [List.foldl_cons, List.foldl_nil]
    generalize (List.range j).foldl (fun B j =>
          Function.update B i (ops.caxpy (-(ops.cDotProduct (B j) (B i))) (B j) (B i))) Bc = Bq
      at ih1 ih2 ih3 ⊢
    rw [ih1 j hji, h.cDotProduct_eq, h.caxpy_eq]
    refine ⟨fun m hm => ?_, fun a ha => ?_, ?_⟩
    · rw [Function.update_noteq hm, ih1 m hm]
    · rw [Function.update_same, inner_add_right, inner_smul_right]
      rcases Nat.lt_succ_iff_lt_or_eq.mp ha with ha | ha
      · rw [ih2 a ha, horth a (by omega) j (by omega), if_neg (by omega)]
        simp
      · subst ha
        rw [horth a (by omega) a (by omega), if_pos rfl]
        simp
    · rw [Function.update_same]
      have e : Bc i - ((-(inner (Bc j) (Bq i) : 𝕜)) • Bc j + Bq i)
          = (Bc i - Bq i) + (inner (Bc j) (Bq i) : 𝕜) • Bc j := by
        rw [neg_smul]; abel
      rw [e]
      refine Submodule.add_mem _ ?_ (Submodule.smul_mem _ _ ?_)
      · exact Submodule.span_mono (Set.image_subset _ (fun x hx => by
          simp only [Set.mem_Iio] at hx ⊢; omega)) ih3
      · exact Submodule.subset_span ⟨j, by simp, rfl⟩

theorem MG.orthogonalize_spec (ops : VectorOps E 𝕜 ℝ) (h : ops.Exact) (i : ℕ) (Bc : ℕ → E)
    (horth : ∀ a, a < i → ∀ b, b < i → inner (Bc a) (Bc b) = if a = b then (1 : 𝕜) else 0) :
    (∀ m, m ≠ i → MG.orthogonalize ops i Bc m = Bc m) ∧
    (∀ a, a < i → inner (Bc a) (MG.orthogonalize ops i Bc i) = (0 : 𝕜)) ∧
    Bc i - MG.orthogonalize ops i Bc i ∈ Submodule.span 𝕜 (Set.image Bc (Set.Iio i)) :=
  MG.orthogonalize_aux ops h i Bc horth i le_rfl

theorem MG.normalize_spec (ops : VectorOps E 𝕜 ℝ) (h : ops.Exact) (post : Bool) (i : ℕ)
    (Bp B' : ℕ → E) (hn : MG.normalize ops post i Bp = .ok B') :
    Bp i ≠ 0 ∧ B' = Function.update Bp i ((((1 / ‖Bp i‖ : ℝ)) : 𝕜) • Bp i) := by
  unfold MG.normalize at hn
  simp only [h.norm2_eq, h.sqrt_eq, h.ax_eq, Real.sqrt_sq (norm_nonneg _)] at hn
  split_ifs at hn with hp ht ht
  all_goals
    refine ⟨fun h0 => ?_, (Except.ok.inj hn).symm⟩
    rw [h0] at ht
    norm_num at ht

theorem MG.orthonormalize_spec (ops : VectorOps E 𝕜 ℝ) (h : ops.Exact) (post : Bool) (B : ℕ → E) :
    ∀ (n : ℕ) (B' : ℕ → E), MG.orthonormalize ops post n B = .ok B' →
      (∀ a, a < n → ∀ b, b < n → inner (B' a) (B' b) = if a = b then (1 : 𝕜) else 0) ∧
      (∀ m, n ≤ m → B' m = B m) ∧
      Submodule.span 𝕜 (Set.image B' (Set.Iio n)) = Submodule.span 𝕜 (Set.image B (Set.Iio n)) := by
  intro n
  induction n with
  | zero =>
    intro B' hB
    have : B' = B := by
      unfold MG.orthonormalize at hB
      simp only [List.range_zero, List.foldlM_nil] at hB
      injection hB with hB
      exact hB.symm
    subst this
    exact ⟨fun a ha => absurd ha (Nat.not_lt_zero a), fun _ _ => rfl, rfl⟩
  | succ n ih =>
    intro B' hB
    rw [MG.orthonormalize_succ] at hB
    cases hBn : MG.orthonormalize ops post n B with
    | error e => rw [hBn] at hB; cases hB
    | ok Bn =>
      rw [hBn] at hB
      obtain ⟨i1, i2, i3⟩ := ih Bn hBn
      obtain ⟨o1, o2, o3⟩ := MG.orthogonalize_spec ops h n Bn i1
      have hB : MG.normalize ops post n (MG.orthogonalize ops n Bn) = .ok B' := hB
      obtain ⟨hv, hB'⟩ := MG.normalize_spec ops h post n _ _ hB
      generalize MG.orthogonalize ops n Bn = Bp at o1 o2 o3 hv hB'
      have hnv : ‖Bp n‖ ≠ 0 := norm_ne_zero_iff.mpr hv
      have hc : (((1 / ‖Bp n‖ : ℝ)) : 𝕜) ≠ 0 := by
        rw [Ne, RCLike.ofReal_eq_zero]
        exact one_div_ne_zero hnv
      have hlt : ∀ a, a < n → B' a = Bn a := fun a ha => by
        rw [hB', Function.update_noteq (by omega), o1 a (by omega)]
      have hn : B' n = (((1 / ‖Bp n‖ : ℝ)) : 𝕜) • Bp n := by rw [hB', Function.update_same]
      have hqq : inner (B' n) (B' n) = (1 : 𝕜) := by
        have hnorm : ‖B' n‖ = 1 := by
          rw [hn, norm_smul, RCLike.norm_ofReal, abs_of_nonneg (by positivity)]
          field_simp
        rw [inner_self_eq_norm_sq_to_K, hnorm]
        simp
      have haq : ∀ a, a < n → inner (B' a) (B' n) = (0 : 𝕜) := fun a ha => by
        rw [hlt a ha, hn, inner_smul_right, o2 a ha, mul_zero]
      refine ⟨fun a ha b hb => ?_, fun m hm => ?_, ?_⟩
      · rcases Nat.lt_succ_iff_lt_or_eq.mp ha with ha | ha <;>
          rcases Nat.lt_succ_iff_lt_or_eq.mp hb with hb | hb
        · rw [hlt a ha, hlt b hb]; exact i1 a ha b hb
        · subst hb
          rw [haq a ha, if_neg (by omega)]
        · subst ha
          rw [inner_eq_zero_symm.mp (haq b hb), if_neg (by omega)]
        · subst ha; subst hb
          rw [hqq, if_pos rfl]
      · rw [hB', Function.update_noteq (by omega), o1 m (by omega)]
        exact i2 m (by omega)
      · rw [span_image_Iio_succ, span_image_Iio_succ]
        have himg : Set.image B' (Set.Iio n) = Set.image Bn (Set.Iio n) :=
          Set.image_congr (fun a ha => hlt a ha)
        rw [himg, i3]
        rw [i3] at o3
        have hBn : Bn n = B n := i2 n le_rfl
        rw [hBn] at o3
        set S := Submodule.span 𝕜 (Set.image B (Set.Iio n)) with hS
        have hBself : B n ∈ S ⊔ Submodule.span 𝕜 {B n} :=
          Submodule.mem_sup_right (Submodule.mem_span_singleton_self _)
        have hqself : B' n ∈ S ⊔ Submodule.span 𝕜 {B' n} :=
          Submodule.mem_sup_right (Submodule.mem_span_singleton_self _)
        apply le_antisymm
        · refine sup_le le_sup_left ?_
          rw [Submodule.span_le, Set.singleton_subset_iff]
          have e : B' n = (((1 / ‖Bp n‖ : ℝ)) : 𝕜) • (B n - (B n - Bp n)) := by
            rw [hn]; congr 1; abel
          rw [e]
          exact Submodule.smul_mem _ _
            (Submodule.sub_mem _ hBself (Submodule.mem_sup_left o3))
        · refine sup_le le_sup_left ?_
          rw [Submodule.span_le, Set.singleton_subset_iff]
          have e : B n = (B n - Bp n) + ((((1 / ‖Bp n‖ : ℝ)) : 𝕜))⁻¹ • B' n := by
            rw [hn, smul_smul, inv_mul_cancel₀ hc, one_smul]; abel
          rw [e]
          exact Submodule.add_mem _ (Submodule.mem_sup_left o3)
            (Submodule.smul_mem _ _ hqself)

end GramSchmidtProofs

/-- The operations of the plane `ℂ` as a real inner product space are exact. -/
theorem VectorOps.exact_complex_plane :
    VectorOps.Exact
      (⟨fun x y => (inner x y : ℝ), fun a x y => a • x + y, fun x => ‖x‖ ^ 2, fun a x => a • x,
        Real.sqrt⟩ : VectorOps ℂ ℝ ℝ) :=
  ⟨fun _ _ => rfl, fun _ _ _ => rfl, fun _ => rfl, fun a x => by simp, fun _ => rfl⟩

/-- The post-orthonormalisation of the two vectors `2` and `1 + 2i` of the plane
yields `1` and `i`. -/
theorem MG.orthonormalize_complex_plane :
    MG.orthonormalize
      (⟨fun x y => (inner x y : ℝ), fun a x y => a • x + y, fun x => ‖x‖ ^ 2, fun a x => a • x,
        Real.sqrt⟩ : VectorOps ℂ ℝ ℝ) true 2
      (fun k => if k = 0 then 2 else 1 + 2 * Complex.I) =
      .ok (fun k => if k = 0 then 1 else if k = 1 then Complex.I else 1 + 2 * Complex.I) := by
  rw [MG.orthonormalize_succ, MG.orthonormalize_succ]
  have h0 : ∀ (ops : VectorOps ℂ ℝ ℝ) (B : ℕ → ℂ), MG.orthonormalize ops true 0 B = .ok B :=
    fun _ _ => rfl
  rw [h0]
  simp only [Except.bind, MG.orthogonalize, List.range_zero, List.foldl_nil, MG.normalize,
    Real.sqrt_sq (norm_nonneg _), if_true]
  have e1 : ‖(2 : ℂ)‖ = 2 := by simp
  simp only [if_pos, e1]
  rw [if_pos (by norm_num)]
  simp only [List.range_succ, List.range_zero, List.nil_append, List.foldl_cons, List.foldl_nil,
    Function.update_same, Function.update_noteq (show (1:ℕ) ≠ 0 by decide), if_neg (show ¬ ((1:ℕ) = 0) by decide)]
  have e2 : ((1 / 2 : ℝ) • (2 : ℂ)) = 1 := by
    rw [Complex.real_smul]; push_cast; norm_num
  have e3 : (inner (1 : ℂ) (1 + 2 * Complex.I) : ℝ) = 1 := by
    simp [Complex.inner]
  rw [e2, e3]
  have e4 : (-(1:ℝ)) • (1 : ℂ) + (1 + 2 * Complex.I) = 2 * Complex.I := by
    rw [Complex.real_smul]; push_cast; ring
  rw [e4]
  have e5 : ‖2 * Complex.I‖ = 2 := by simp
  rw [e5, if_pos (by norm_num)]
  have e6 : ((1 / 2 : ℝ) • (2 * Complex.I)) = Complex.I := by
    rw [Complex.real_smul]; push_cast; ring
  rw [e6]
  congr 1
  funext k
  by_cases hk0 : k = 0
  · subst hk0; simp [Function.update]
  · by_cases hk1 : k = 1
    · subst hk1; simp [Function.update]
    · simp [Function.update, hk0, hk1]

section GramSchmidtClaim

variable {𝕜 E : Type} [RCLike 𝕜] [NormedAddCommGroup E] [InnerProductSpace 𝕜 E]

/-- C23: in exact arithmetic, when the global post-orthonormalisation loop of
`generateNullVectors` completes without error on the vectors `B[0..n-1]`, the
resulting vectors are orthonormal (the inner product of `B[i]` and `B[j]` is 1
if `i = j` and 0 otherwise) and span the same subspace as the input vectors.
Linear independence of the input is not needed for this. -/
theorem c23_post_orthonormalize_orthonormal (ops : VectorOps E 𝕜 ℝ) (h : ops.Exact) (n : ℕ)
    (B B' : ℕ → E) (hB : MG.orthonormalize ops true n B = .ok B') :
    (∀ i, i < n → ∀ j, j < n → inner (B' i) (B' j) = if i = j then (1 : 𝕜) else 0) ∧
    Submodule.span 𝕜 (Set.image B' (Set.Iio n)) = Submodule.span 𝕜 (Set.image B (Set.Iio n)) :=
  have hs := MG.orthonormalize_spec ops h true B n B' hB
  ⟨hs.1, hs.2.2⟩

end GramSchmidtClaim

/-- C23 at the two vectors `2` and `1 + 2i` of the plane: the loop completes
with `1` and `i`, which are orthonormal and span the same subspace. -/
theorem c23_post_orthonormalize_orthonormal_witness :
    MG.orthonormalize
      (⟨fun x y => (inner x y : ℝ), fun a x y => a • x + y, fun x => ‖x‖ ^ 2, fun a x => a • x,
        Real.sqrt⟩ : VectorOps ℂ ℝ ℝ) true 2
      (fun k => if k = 0 then 2 else 1 + 2 * Complex.I) =
      .ok (fun k => if k = 0 then 1 else if k = 1 then Complex.I else 1 + 2 * Complex.I) ∧
    ((∀ i, i < 2 → ∀ j, j < 2 →
        inner ((fun k => if k = 0 then 1 else if k = 1 then Complex.I else 1 + 2 * Complex.I) i)
          ((fun k => if k = 0 then 1 else if k = 1 then Complex.I else 1 + 2 * Complex.I) j) = if i = j then (1 : ℝ) else 0) ∧
      Submodule.span ℝ (Set.image (fun k => if k = 0 then 1 else if k = 1 then Complex.I else 1 + 2 * Complex.I) (Set.Iio 2)) =
        Submodule.span ℝ (Set.image (fun k => if k = 0 then 2 else 1 + 2 * Complex.I) (Set.Iio 2))) :=
  ⟨MG.orthonormalize_complex_plane,
    c23_post_orthonormalize_orthonormal _ VectorOps.exact_complex_plane 2 _ _
      MG.orthonormalize_complex_plane⟩

end Quda
